import Mathlib

/-!
# gocomboums_v4: users, roles, permissions and session tokens

A shallow embedding of the Go sources under `src/` and the properties of the
specification that were checked against it.

Conventions of the embedding.

* Go strings are `String` (the request bodies are JSON, hence valid UTF-8);
  `len` is the byte length `String.utf8ByteSize`.
* `uint64` identifiers are `Nat`; Unix seconds (`int64`) are `Int`. An identifier that
  a caller hands to a statement is encoded by the driver first, which refuses a value
  above `math.MaxInt64` (`sql.encodeArgs`). The identifiers of the rows of a store are
  values of `bigint` columns: where a statement goes through only if a row bears the
  identifier (an insert that checks a foreign key), the check of the row stands for
  the encoding as well.
* A Go result pair `(value, error)` is a Lean pair whose error component is an
  `Option GoError` (`none` is Go's `nil`), a `*T` is an `Option T`.
* Stateful code passes the state explicitly: the storage engine is a `World`
  (the committed tables and the infrastructure failures still to come), the
  key file is part of `Process`.
* The library pieces the sources call but do not contain (the Unicode lower-case
  table, bcrypt, the PASETO codec, the entropy source, the clock, `LIKE`, `Atoi`)
  are parameters.
* The services are embedded over the gorm repositories, where a property depends on
  what the store holds, and over any implementation of the repository interfaces
  (namespace `service`), where it holds whatever the repository answers; the two
  agree (section "The gorm repositories behind the services").
-/

/-! ## pkg/errors -/

/-- Go `error` values that reach the code under study. -/
inductive GoError where
  /-- A `*errors.AppError` with its code and message. -/
  | AppError (Code : Int) (Message : String)
  /-- The result of `errors.New(message)` of github.com/pkg/errors. -/
  | New (message : String)
  /-- The result of `errors.Wrap(err, message)`. -/
  | Wrap (err : GoError) (message : String)
  /-- The value `gorm.ErrRecordNotFound`. -/
  | ErrRecordNotFound
  /-- The value `gorm.ErrInvalidTransaction`. -/
  | ErrInvalidTransaction
  /-- Two errors joined by `(*gorm.DB).AddError` on a handle that already had one. -/
  | Join (first second : GoError)
  /-- An error raised by the storage engine or its driver. -/
  | Storage (detail : String)
  /-- An error raised by the PASETO library. -/
  | Paseto (detail : String)
  /-- An error raised by `encoding/json` or by the entropy source. -/
  | Runtime (detail : String)
  deriving DecidableEq, Repr

namespace errors

def CodeInternalServerError : Int := 500

def CodeBadRequest : Int := 400

def CodeNotFound : Int := 404

/-- Embeds `errors.NewAppError`. -/
def NewAppError (code : Int) (message : String) : GoError :=
  GoError.AppError code message

/-- Embeds `errors.New`. -/
def New (message : String) : GoError :=
  GoError.New message

/-- Embeds `errors.Wrap`. -/
def Wrap (err : GoError) (message : String) : GoError :=
  GoError.Wrap err message

end errors

/-- The code of an error that is an `AppError`, `none` for every other error. -/
def GoError.code? : GoError → Option Int
  | GoError.AppError c _ => some c
  | _ => none

/-! ## Package strings (the functions the services call) -/

namespace strings

/-- The predicate `unicode.IsSpace`: the code points with the White_Space property. -/
def IsSpace (c : Char) : Bool :=
  let n := c.toNat
  (0x09 ≤ n && n ≤ 0x0D) || n == 0x20 || n == 0x85 || n == 0xA0 || n == 0x1680 ||
  (0x2000 ≤ n && n ≤ 0x200A) || n == 0x2028 || n == 0x2029 || n == 0x202F ||
  n == 0x205F || n == 0x3000

/-- Embeds `strings.TrimSpace`: leading and trailing white space removed. -/
def TrimSpace (s : String) : String :=
  String.mk ((s.data.dropWhile IsSpace).reverse.dropWhile IsSpace).reverse

/-- Embeds `strings.ToLower`, the rune map of `unicode.ToLower`; the Unicode case
table is the parameter `lower`. -/
def ToLower (lower : Char → Char) (s : String) : String :=
  String.mk (s.data.map lower)

/-- Embeds `strings.Contains`. -/
def Contains (s substr : String) : Bool :=
  decide (substr.data <:+: s.data)

end strings

/-- Go's `len` on a string: the number of bytes. -/
def len (s : String) : Nat := s.utf8ByteSize

/-! ## internal/model -/

namespace model

/-- A row of table `users`. `Deleted` stands for a set `gorm.Model.DeletedAt`; the
time stamps of `gorm.Model` and the association slices are not columns the code
reads and are left out. -/
structure User where
  ID : Nat
  Username : String
  PasswordHash : String
  Email : String
  Deleted : Bool
  deriving DecidableEq, Repr

/-- A row of table `roles`. -/
structure Role where
  ID : Nat
  RoleName : String
  Deleted : Bool
  deriving DecidableEq, Repr

/-- A row of table `permissions`. -/
structure Permission where
  ID : Nat
  PermissionName : String
  Deleted : Bool
  deriving DecidableEq, Repr

/-- A row of table `user_roles`; `ID` is the primary key of `gorm.Model`. -/
structure UserRole where
  ID : Nat
  UserID : Nat
  RoleID : Nat
  Deleted : Bool
  deriving DecidableEq, Repr

/-- A row of table `role_permissions`; `ID` is the primary key of `gorm.Model`. -/
structure RolePermission where
  ID : Nat
  RoleID : Nat
  PermissionID : Nat
  Deleted : Bool
  deriving DecidableEq, Repr

end model

/-! ## The storage engine behind `*gorm.DB` -/

/-- The committed contents of the five tables that `main` migrates. -/
structure Tables where
  users : List model.User
  roles : List model.Role
  permissions : List model.Permission
  user_roles : List model.UserRole
  role_permissions : List model.RolePermission
  deriving DecidableEq, Repr

/-- The storage engine as the program sees it: the committed tables, and for each
round trip to the engine still to come whether it fails for a reason of the
infrastructure (`some err`) or is executed (`none`). An exhausted list means that
every further round trip is executed. -/
structure World where
  tables : Tables
  faults : List (Option GoError)
  deriving DecidableEq, Repr

/-- A storage engine that executes every round trip. -/
def World.reliable (t : Tables) : World :=
  World.mk t []

/-- One round trip to the engine: the infrastructure failure it meets, if any. -/
def World.roundTrip (w : World) : Option GoError × World :=
  match w.faults with
  | [] => (none, w)
  | e :: rest => (e, World.mk w.tables rest)

namespace sql

/-- The value `math.MaxInt64`: the largest value of a `bigint` column, and the largest
`uint64` the driver can encode as an argument of a statement. -/
def maxInt64 : Nat := 2 ^ 63 - 1

/-- The error with which the driver refuses a `uint64` argument above `math.MaxInt64`;
the text stands for the driver's. -/
def ErrOutOfRange : GoError :=
  GoError.Storage "uint64 argument is greater than maximum value for int64"

/-- The encoding of the `uint64` arguments that a caller hands to a statement: an
argument above `math.MaxInt64` is refused before the statement is sent, so that no
round trip is made. -/
def encodeArgs (args : List Nat) : Option GoError :=
  if args.any (fun x => decide (x > maxInt64)) then some ErrOutOfRange else none

end sql

namespace gorm

/-- The value an auto-increment primary key takes: larger than every key in use. -/
def nextID (ids : List Nat) : Nat :=
  ids.foldl max 0 + 1

/-- The row with the least primary key, as `ORDER BY id LIMIT 1` selects it. -/
def leastBy {α : Type} (key : α → Nat) : List α → Option α
  | [] => none
  | r :: rest =>
    match leastBy key rest with
    | none => some r
    | some b => if key b < key r then some b else some r

/-- The error of a violated constraint, as the driver reports it. -/
def constraintError (name : String) : GoError :=
  GoError.Storage name

/-- The statement `INSERT INTO users` that `db.Create(user)` issues: a zero `ID` is
drawn from the sequence; the primary key and the `unique` columns are checked
against every row of the table, the `size:255` columns against their length. -/
def insertUser (t : Tables) (user : model.User) : Except GoError (model.User × Tables) :=
  let row : model.User :=
    if user.ID = 0 then { user with ID := nextID (t.users.map (fun u => u.ID)) } else user
  if t.users.any (fun u => u.ID == row.ID) then
    Except.error (constraintError "users_pkey")
  else if t.users.any (fun u => u.Username == row.Username) then
    Except.error (constraintError "users_username_key")
  else if t.users.any (fun u => u.Email == row.Email) then
    Except.error (constraintError "users_email_key")
  else if 255 < row.Username.length || 255 < row.PasswordHash.length
      || 255 < row.Email.length then
    Except.error (constraintError "value too long for type character varying(255)")
  else
    Except.ok (row, { t with users := t.users ++ [row] })

/-- The query `SELECT * FROM users WHERE username = ? AND deleted_at IS NULL
ORDER BY id LIMIT 1`. -/
def firstUserByUsername (t : Tables) (username : String) : Option model.User :=
  leastBy (fun u => u.ID) (t.users.filter (fun u => u.Username == username && !u.Deleted))

end gorm

/-! ## internal/repository/user_repository.go -/

namespace userRepository

/-- Embeds `userRepository.CreateUser`: `r.db.Create(user).Error`, with the implicit
transaction gorm wraps around the statement taken as one round trip; an identifier
the caller has set is encoded first. The second component is the struct behind the
pointer after the call. -/
def CreateUser (w : World) (user : model.User) : (Option GoError × model.User) × World :=
  match sql.encodeArgs [user.ID] with
  | some e => ((some e, user), w)
  | none =>
    match w.roundTrip with
    | (some e, w1) => ((some e, user), w1)
    | (none, w1) =>
      match gorm.insertUser w1.tables user with
      | Except.error e => ((some e, user), w1)
      | Except.ok (row, t) => ((none, row), World.mk t w1.faults)

/-- Embeds `userRepository.GetUserByUsername`: `First` reports
`gorm.ErrRecordNotFound` when no row matches, and the repository returns
`nil, err` for every error. -/
def GetUserByUsername (w : World) (username : String) :
    (Option model.User × Option GoError) × World :=
  match w.roundTrip with
  | (some e, w1) => ((none, some e), w1)
  | (none, w1) =>
    match gorm.firstUserByUsername w1.tables username with
    | none => ((none, some GoError.ErrRecordNotFound), w1)
    | some user => ((some user, none), w1)

end userRepository

/-! ## internal/service/user_service.go -/

/-- Embeds `validateInput`. -/
def validateInput (user : Option model.User) : Option GoError :=
  match user with
  | none => some (errors.NewAppError errors.CodeBadRequest "User cannot be nil")
  | some user =>
    if len user.Username < 3 || len user.Username > 255 then
      some (errors.NewAppError errors.CodeBadRequest
        "Username length must be between 3 and 255 characters")
    else if len user.PasswordHash < 6 then
      some (errors.NewAppError errors.CodeBadRequest
        "Password must be at least 6 characters long")
    else if !strings.Contains user.Email "@" then
      some (errors.NewAppError errors.CodeBadRequest "Email must be a valid address")
    else
      none

/-- Embeds `sanitizeInput`. -/
def sanitizeInput (lower : Char → Char) (user : model.User) : model.User :=
  { user with
    Username := strings.TrimSpace user.Username
    Email := strings.ToLower lower (strings.TrimSpace user.Email) }

namespace UserService

/-- Embeds `UserService.CreateUser`. The result is the returned error, the struct
behind the argument pointer after the call, and the storage engine after the call. -/
def CreateUser (lower : Char → Char) (w : World) (user : Option model.User) :
    (Option GoError × Option model.User) × World :=
  match validateInput user, user with
  | some _, _ => ((some (errors.NewAppError errors.CodeBadRequest "Invalid user data"), user), w)
  | none, none => ((some (errors.NewAppError errors.CodeBadRequest "Invalid user data"), user), w)
  | none, some u0 =>
    let u := sanitizeInput lower u0
    match userRepository.GetUserByUsername w u.Username with
    | ((_, some _), w1) =>
      ((some (errors.NewAppError errors.CodeInternalServerError
        "An unexpected error occurred"), some u), w1)
    | ((some _, none), w1) =>
      ((some (errors.NewAppError errors.CodeBadRequest "Username already exists"), some u), w1)
    | ((none, none), w1) =>
      match userRepository.CreateUser w1 u with
      | ((some _, u1), w2) =>
        ((some (errors.NewAppError errors.CodeInternalServerError
          "An unexpected error occurred"), some u1), w2)
      | ((none, u1), w2) => ((none, some u1), w2)

/-- Embeds `UserService.GetUserByUsername`. -/
def GetUserByUsername (w : World) (username : String) :
    (Option model.User × Option GoError) × World :=
  match userRepository.GetUserByUsername w username with
  | ((_, some _), w1) =>
    ((none, some (errors.NewAppError errors.CodeInternalServerError
      "Internal server error occurred")), w1)
  | ((user, none), w1) => ((user, none), w1)

end UserService

/-! ## Transactions of `*gorm.DB` and the association tables -/

namespace gorm

/-- A handle `tx := db.Begin()`: the error `Begin` left on it, and the writes made
through it that are not committed yet. A statement on the handle sees the committed
tables with these writes applied. -/
structure Tx where
  Error : Option GoError
  pending : Tables → Tables

/-- Embeds `db.Begin()`: one round trip; a failure stays on the handle. -/
def Begin (w : World) : Tx × World :=
  match w.roundTrip with
  | (some e, w1) => (Tx.mk (some e) id, w1)
  | (none, w1) => (Tx.mk none id, w1)

/-- Embeds `(*gorm.DB).AddError`. -/
def AddError (old : Option GoError) (err : GoError) : GoError :=
  match old with
  | none => err
  | some e => GoError.Join e err

/-- Embeds `tx.Commit().Error`: a handle whose `Begin` failed has no transaction to
commit; otherwise one round trip, after which the pending writes are committed
unless the round trip failed. -/
def Commit (tx : Tx) (w : World) : Option GoError × World :=
  match tx.Error with
  | some e => (some (AddError (some e) GoError.ErrInvalidTransaction), w)
  | none =>
    match w.roundTrip with
    | (some e, w1) => (some e, w1)
    | (none, w1) => (none, World.mk (tx.pending w1.tables) w1.faults)

/-- Embeds `tx.Rollback().Error`: the pending writes are dropped. -/
def Rollback (tx : Tx) (w : World) : Option GoError × World :=
  match tx.Error with
  | some e => (some e, w)
  | none =>
    match w.roundTrip with
    | (some e, w1) => (some e, w1)
    | (none, w1) => (none, w1)

/-- The foreign keys of `role_permissions`: a row of `roles` and a row of
`permissions` bear the two identifiers. -/
def rolePermissionRefs (t : Tables) (roleID permissionID : Nat) : Bool :=
  t.roles.any (fun r => r.ID == roleID) && t.permissions.any (fun q => q.ID == permissionID)

/-- The foreign keys of `user_roles`: a row of `users` and a row of `roles` bear the
two identifiers. -/
def userRoleRefs (t : Tables) (userID roleID : Nat) : Bool :=
  t.users.any (fun u => u.ID == userID) && t.roles.any (fun r => r.ID == roleID)

/-- The row that `INSERT INTO role_permissions (role_id, permission_id)` adds. -/
def newRolePermission (t : Tables) (roleID permissionID : Nat) : model.RolePermission :=
  model.RolePermission.mk (nextID (t.role_permissions.map (fun r => r.ID))) roleID
    permissionID false

/-- The row that `INSERT INTO user_roles (user_id, role_id)` adds. -/
def newUserRole (t : Tables) (userID roleID : Nat) : model.UserRole :=
  model.UserRole.mk (nextID (t.user_roles.map (fun r => r.ID))) userID roleID false

/-- The tables with one more row of `role_permissions`. -/
def addRolePermission (row : model.RolePermission) (t : Tables) : Tables :=
  { t with role_permissions := t.role_permissions ++ [row] }

/-- The tables with one more row of `user_roles`. -/
def addUserRole (row : model.UserRole) (t : Tables) : Tables :=
  { t with user_roles := t.user_roles ++ [row] }

/-- Embeds `tx.Create(&rolePermission).Error` for a struct with the two identifiers
set: skipped on a handle that carries an error; otherwise one round trip and the
insert, which the engine refuses when a foreign key has no target. -/
def Tx.CreateRolePermission (tx : Tx) (w : World) (roleID permissionID : Nat) :
    (Option GoError × Tx) × World :=
  match tx.Error with
  | some e => ((some e, tx), w)
  | none =>
    match w.roundTrip with
    | (some e, w1) => ((some e, tx), w1)
    | (none, w1) =>
      if rolePermissionRefs (tx.pending w1.tables) roleID permissionID then
        let row := newRolePermission (tx.pending w1.tables) roleID permissionID
        ((none, Tx.mk none (fun t => addRolePermission row (tx.pending t))), w1)
      else
        ((some (constraintError "role_permissions: foreign key violation"), tx), w1)

/-- Embeds `tx.Create(&userRole).Error` for a struct with the two identifiers set. -/
def Tx.CreateUserRole (tx : Tx) (w : World) (userID roleID : Nat) :
    (Option GoError × Tx) × World :=
  match tx.Error with
  | some e => ((some e, tx), w)
  | none =>
    match w.roundTrip with
    | (some e, w1) => ((some e, tx), w1)
    | (none, w1) =>
      if userRoleRefs (tx.pending w1.tables) userID roleID then
        let row := newUserRole (tx.pending w1.tables) userID roleID
        ((none, Tx.mk none (fun t => addUserRole row (tx.pending t))), w1)
      else
        ((some (constraintError "user_roles: foreign key violation"), tx), w1)

/-- The query `SELECT count(*) FROM user_roles JOIN roles on roles.id =
user_roles.role_id WHERE user_roles.user_id = ? AND roles.role_name = ? AND
user_roles.deleted_at IS NULL`. -/
def countUserRolesByName (t : Tables) (userID : Nat) (roleName : String) : Int :=
  (((t.user_roles.filter (fun ur => ur.UserID == userID && !ur.Deleted)).map
    (fun ur => (t.roles.filter
      (fun r => r.ID == ur.RoleID && r.RoleName == roleName)).length)).sum : Nat)

end gorm

/-- The tables with further rows of `role_permissions`. -/
def withRolePermissions (t : Tables) (rows : List model.RolePermission) : Tables :=
  { t with role_permissions := t.role_permissions ++ rows }

/-- The tables with further rows of `user_roles`. -/
def withUserRoles (t : Tables) (rows : List model.UserRole) : Tables :=
  { t with user_roles := t.user_roles ++ rows }

/-! ## Soft deletion of association rows -/

namespace gorm

/-- The statement `UPDATE user_roles SET deleted_at = ? WHERE user_id = ? AND role_id
= ? AND deleted_at IS NULL`, which `Delete` issues for a model with a `DeletedAt`
column: every live row of the pair is marked deleted. -/
def softDeleteUserRoles (userID roleID : Nat) (t : Tables) : Tables :=
  { t with user_roles := t.user_roles.map (fun ur =>
      if ur.UserID == userID && ur.RoleID == roleID && !ur.Deleted then
        { ur with Deleted := true }
      else ur) }

/-- Embeds `tx.Where("user_id = ? AND role_id = ?", userID, roleID)
.Delete(&model.UserRole{}).Error`: skipped on a handle that carries an error;
otherwise the two identifiers are encoded, and then one round trip and the update,
which matches any number of rows. -/
def Tx.DeleteUserRoles (tx : Tx) (w : World) (userID roleID : Nat) :
    (Option GoError × Tx) × World :=
  match tx.Error with
  | some e => ((some e, tx), w)
  | none =>
    match sql.encodeArgs [userID, roleID] with
    | some e => ((some e, tx), w)
    | none =>
      match w.roundTrip with
      | (some e, w1) => ((some e, tx), w1)
      | (none, w1) =>
        ((none, Tx.mk none (fun t => softDeleteUserRoles userID roleID (tx.pending t))), w1)

end gorm

/-! ## internal/repository/permission_repository.go -/

namespace permissionRepository

/-- The loop of `AddMultiplePermissionsToRole`: one `tx.Create` per identifier, left
at the first error. -/
def createEach (roleID : Nat) : List Nat → gorm.Tx → World → (Option GoError × gorm.Tx) × World
  | [], tx, w => ((none, tx), w)
  | permissionID :: rest, tx, w =>
    match tx.CreateRolePermission w roleID permissionID with
    | ((some e, tx1), w1) => ((some e, tx1), w1)
    | ((none, tx1), w1) => createEach roleID rest tx1 w1

/-- Embeds `permissionRepository.AddMultiplePermissionsToRole`. -/
def AddMultiplePermissionsToRole (w : World) (roleID : Nat) (permissionIDs : List Nat) :
    Option GoError × World :=
  match gorm.Begin w with
  | (tx, w0) =>
    match createEach roleID permissionIDs tx w0 with
    | ((some e, tx1), w1) => (some e, (gorm.Rollback tx1 w1).2)
    | ((none, tx1), w1) => gorm.Commit tx1 w1

end permissionRepository

/-! ## internal/service/permission_service.go -/

namespace PermissionService

/-- Embeds `PermissionService.AddMultiplePermissionsToRole`. -/
def AddMultiplePermissionsToRole (w : World) (roleID : Nat) (permissionIDs : List Nat) :
    Option GoError × World :=
  if roleID ≤ 0 || permissionIDs.length == 0 then
    (some (errors.NewAppError errors.CodeBadRequest "Invalid role id or empty permissions"), w)
  else
    match permissionRepository.AddMultiplePermissionsToRole w roleID permissionIDs with
    | (some _, w1) =>
      (some (errors.NewAppError errors.CodeInternalServerError
        "Internal server error occurred."), w1)
    | (none, w1) => (none, w1)

end PermissionService

/-! ## internal/repository/role_repository.go -/

namespace roleRepository

/-- Embeds `roleRepository.AddUserRole`; the result of `tx.Commit()` is not looked at. -/
def AddUserRole (w : World) (userID roleID : Nat) : Option GoError × World :=
  match gorm.Begin w with
  | (tx, w0) =>
    match tx.CreateUserRole w0 userID roleID with
    | ((some e, tx1), w1) => (some e, (gorm.Rollback tx1 w1).2)
    | ((none, tx1), w1) => (none, (gorm.Commit tx1 w1).2)

/-- Embeds `roleRepository.UserHasRole`: the user identifier is encoded, and then the
count is one round trip. -/
def UserHasRole (w : World) (userID : Nat) (roleName : String) :
    (Bool × Option GoError) × World :=
  match sql.encodeArgs [userID] with
  | some e => ((false, some e), w)
  | none =>
    match w.roundTrip with
    | (some e, w1) => ((false, some e), w1)
    | (none, w1) =>
      ((decide (gorm.countUserRolesByName w1.tables userID roleName > 0), none), w1)

end roleRepository

namespace roleRepository

/-- Embeds `roleRepository.RemoveUserRole`; the result of `tx.Commit()` is not looked
at. -/
def RemoveUserRole (w : World) (userID roleID : Nat) : Option GoError × World :=
  match gorm.Begin w with
  | (tx, w0) =>
    match tx.DeleteUserRoles w0 userID roleID with
    | ((some e, tx1), w1) => (some e, (gorm.Rollback tx1 w1).2)
    | ((none, tx1), w1) => (none, (gorm.Commit tx1 w1).2)

end roleRepository

/-! ## internal/service/role_service.go -/

namespace RoleService

/-- Embeds `RoleService.AddUserRole`. -/
def AddUserRole (w : World) (userID roleID : Nat) : Option GoError × World :=
  if userID = 0 then
    (some (errors.NewAppError errors.CodeBadRequest "user id cannot be zero"), w)
  else if roleID = 0 then
    (some (errors.NewAppError errors.CodeBadRequest "role id cannot be zero"), w)
  else
    match roleRepository.AddUserRole w userID roleID with
    | (some _, w1) =>
      (some (errors.NewAppError errors.CodeInternalServerError
        "Internal server error occurred"), w1)
    | (none, w1) => (none, w1)

/-- Embeds `RoleService.UserHasRole`. -/
def UserHasRole (w : World) (userID : Nat) (roleName : String) :
    (Bool × Option GoError) × World :=
  if userID = 0 then
    ((false, some (errors.NewAppError errors.CodeBadRequest "user id cannot be zero")), w)
  else if len roleName < 2 then
    ((false, some (errors.NewAppError errors.CodeBadRequest
      "role name must be at least 2 characters long")), w)
  else
    match roleRepository.UserHasRole w userID roleName with
    | ((_, some _), w1) =>
      ((false, some (errors.NewAppError errors.CodeInternalServerError
        "Internal server error occurred")), w1)
    | ((hasRole, none), w1) => ((hasRole, none), w1)

end RoleService

namespace RoleService

/-- Embeds `RoleService.RemoveUserRole`. -/
def RemoveUserRole (w : World) (userID roleID : Nat) : Option GoError × World :=
  if userID = 0 then
    (some (errors.NewAppError errors.CodeBadRequest "user id cannot be zero"), w)
  else if roleID = 0 then
    (some (errors.NewAppError errors.CodeBadRequest "role id cannot be zero"), w)
  else
    match roleRepository.RemoveUserRole w userID roleID with
    | (some _, w1) =>
      (some (errors.NewAppError errors.CodeInternalServerError
        "Internal server error occurred"), w1)
    | (none, w1) => (none, w1)

end RoleService

/-! ## internal/service/token_service.go -/

/-- How a call ends that may also stop the goroutine (a Go panic) or the process
(`log.Fatal`). -/
inductive Outcome (α : Type) where
  | returned (a : α)
  | panicked (message : String)
  | exited (status : Nat)
  deriving DecidableEq, Repr

/-- The entropy source `crypto/rand.Reader`: the bytes it delivers before it fails. -/
structure Reader where
  bytes : List UInt8
  deriving DecidableEq, Repr

/-- Embeds `io.ReadFull(rand.Reader, buf)` for a buffer of `n` bytes: exactly `n`
bytes or an error. -/
def Reader.ReadFull (r : Reader) (n : Nat) : Except GoError (List UInt8 × Reader) :=
  if n ≤ r.bytes.length then
    Except.ok (r.bytes.take n, Reader.mk (r.bytes.drop n))
  else
    Except.error (GoError.Runtime "unexpected EOF")

namespace chacha20poly1305

/-- The constant `chacha20poly1305.KeySize`. -/
def KeySize : Nat := 32

end chacha20poly1305

/-- The struct `Claims`. -/
structure Claims where
  UserID : String
  Username : String
  Email : String
  ExpiresAt : Int
  IssuedAt : Int
  NotBefore : Int
  deriving DecidableEq, Repr

/-- The libraries behind the token functions: `json.Marshal` on a `Claims`,
`paseto.NewV2().Encrypt(key, payload, nil)` with the entropy it draws, and
`paseto.NewV2().Decrypt(token, key, &claims, nil)`, which opens the token and
decodes its payload into a `Claims`. -/
structure Paseto where
  Marshal : Claims → Except GoError (List UInt8)
  Encrypt : List UInt8 → List UInt8 → List UInt8 → Except GoError String
  Decrypt : String → List UInt8 → Except GoError Claims

/-- The file "../../pkg/utils/keyfile": its content (`none` when it cannot be read)
and the error `os.WriteFile` meets on it, if any. -/
structure KeyFile where
  content : Option (List UInt8)
  writeError : Option GoError
  deriving DecidableEq, Repr

/-- Embeds `GenerateKey`: `KeySize` bytes of entropy, or a panic. -/
def GenerateKey (r : Reader) : Outcome (List UInt8 × Reader) :=
  match r.ReadFull chacha20poly1305.KeySize with
  | Except.error _ => Outcome.panicked "unexpected EOF"
  | Except.ok (key, r1) => Outcome.returned (key, r1)

/-- Embeds `StoreKeyInFile`: the file holds the key afterwards, or the process exits. -/
def StoreKeyInFile (f : KeyFile) (key : List UInt8) : Outcome KeyFile :=
  match f.writeError with
  | some _ => Outcome.exited 1
  | none => Outcome.returned { f with content := some key }

/-- Embeds `RetrieveKeyInFile`: the content of the file, or the process exits. -/
def RetrieveKeyInFile (f : KeyFile) : Outcome (List UInt8) :=
  match f.content with
  | none => Outcome.exited 1
  | some key => Outcome.returned key

/-- The three time stamps as `GeneratePasetoToken` sets them at clock value `now`
(Unix seconds): fifteen minutes are 900 seconds. -/
def stamp (now : Int) (claims : Claims) : Claims :=
  { claims with ExpiresAt := now + 900, IssuedAt := now, NotBefore := now }

/-- Embeds `GeneratePasetoToken` at clock value `now`, with `nonce` the entropy the
library draws. The result is the returned pair and the struct behind the `claims`
pointer after the call. -/
def GeneratePasetoToken (lib : Paseto) (now : Int) (nonce : List UInt8) (claims : Claims)
    (key : List UInt8) : (String × Option GoError) × Claims :=
  if key.length ≠ chacha20poly1305.KeySize then
    (("", some (errors.New "incorrect key size")), claims)
  else
    let claims1 := stamp now claims
    match lib.Marshal claims1 with
    | Except.error e => (("", some e), claims1)
    | Except.ok jsonClaims =>
      match lib.Encrypt key jsonClaims nonce with
      | Except.error e => (("", some e), claims1)
      | Except.ok token => ((token, none), claims1)

/-- Embeds `VerifyAndExtractClaims` at clock value `now` (Unix seconds). -/
def VerifyAndExtractClaims (lib : Paseto) (now : Int) (token : String) (key : List UInt8) :
    Option Claims × Option GoError :=
  if key.length ≠ chacha20poly1305.KeySize then
    (none, some (errors.New "incorrect key size"))
  else
    match lib.Decrypt token key with
    | Except.error e => (none, some e)
    | Except.ok claims =>
      if now < claims.NotBefore then
        (none, some (errors.New "token is not valid yet"))
      else if now > claims.ExpiresAt then
        (none, some (errors.New "token is expired"))
      else
        (some claims, none)

/-! ## cmd/http/handler/user_handler.go and the private routes of main.go -/

/-- What the process owns besides its code: the storage engine, the key file and
the entropy source. -/
structure Process where
  world : World
  keyfile : KeyFile
  rand : Reader
  deriving DecidableEq, Repr

/-- An HTTP answer: the status, and the token of a successful login. -/
structure Response where
  status : Nat
  token : Option String
  deriving DecidableEq, Repr

/-- The claims `LoginUser` builds for a user. -/
def loginClaims (user : model.User) : Claims :=
  Claims.mk (toString user.ID) user.Username user.Email 0 0 0

/-- Embeds `UserHandler.LoginUser` for a body that binds to `username`, `password`.
`CheckPassword` is bcrypt's comparison of a stored hash with a password; the
entropy source serves the key first and the library's nonce after it. -/
def LoginUser (CheckPassword : String → String → Bool) (lib : Paseto) (now : Int)
    (p : Process) (username password : String) : Outcome (Response × Process) :=
  match UserService.GetUserByUsername p.world username with
  | ((_, some _), w1) => Outcome.returned (Response.mk 500 none, { p with world := w1 })
  | ((none, none), w1) => Outcome.returned (Response.mk 401 none, { p with world := w1 })
  | ((some user, none), w1) =>
    if !CheckPassword user.PasswordHash password then
      Outcome.returned (Response.mk 401 none, { p with world := w1 })
    else
      match GenerateKey p.rand with
      | Outcome.panicked m => Outcome.panicked m
      | Outcome.exited n => Outcome.exited n
      | Outcome.returned (symmetricKey, r1) =>
        match StoreKeyInFile p.keyfile symmetricKey with
        | Outcome.panicked m => Outcome.panicked m
        | Outcome.exited n => Outcome.exited n
        | Outcome.returned f1 =>
          let p1 : Process := Process.mk w1 f1 (Reader.mk (r1.bytes.drop 24))
          match GeneratePasetoToken lib now (r1.bytes.take 24) (loginClaims user)
              symmetricKey with
          | ((_, some _), _) => Outcome.returned (Response.mk 500 none, p1)
          | ((token, none), _) => Outcome.returned (Response.mk 200 (some token), p1)

/-- Embeds the middleware of the private routes in `main`:
`VerifyAndExtractClaims(token, RetrieveKeyInFile())`; an error is answered with 401. -/
def privateRoutes (lib : Paseto) (now : Int) (p : Process) (token : String) :
    Outcome (Option Claims × Option GoError) :=
  match RetrieveKeyInFile p.keyfile with
  | Outcome.panicked m => Outcome.panicked m
  | Outcome.exited n => Outcome.exited n
  | Outcome.returned key => Outcome.returned (VerifyAndExtractClaims lib now token key)

/-! ## AssignPermissionToRole (permission_repository.go, permission_service.go) -/

namespace permissionRepository

/-- Embeds `permissionRepository.AssignPermissionToRole`. -/
def AssignPermissionToRole (w : World) (roleID permissionID : Nat) : Option GoError × World :=
  match gorm.Begin w with
  | (tx, w0) =>
    match tx.CreateRolePermission w0 roleID permissionID with
    | ((some e, tx1), w1) => (some e, (gorm.Rollback tx1 w1).2)
    | ((none, tx1), w1) => gorm.Commit tx1 w1

end permissionRepository

namespace PermissionService

/-- Embeds `PermissionService.AssignPermissionToRole`. -/
def AssignPermissionToRole (w : World) (roleID permissionID : Nat) : Option GoError × World :=
  if roleID ≤ 0 || permissionID ≤ 0 then
    (some (errors.NewAppError errors.CodeBadRequest "Invalid role or permission id"), w)
  else
    match permissionRepository.AssignPermissionToRole w roleID permissionID with
    | (some _, w1) =>
      (some (errors.NewAppError errors.CodeInternalServerError
        "Internal server error occurred."), w1)
    | (none, w1) => (none, w1)

end PermissionService

/-! ## cmd/http/handler/transaction_handler.go -/

/-- The method `Error()` of an error value: its message. -/
def GoError.Error : GoError → String
  | GoError.AppError _ m => m
  | GoError.New m => m
  | GoError.Wrap e m => m ++ ": " ++ e.Error
  | GoError.Join a b => a.Error ++ "; " ++ b.Error
  | GoError.ErrRecordNotFound => "record not found"
  | GoError.ErrInvalidTransaction => "invalid transaction"
  | GoError.Storage d => d
  | GoError.Paseto d => d
  | GoError.Runtime d => d

namespace sql

/-- The value `sql.ErrTxDone`, which `(*sql.Tx).Commit` and `Rollback` return on a
transaction that was committed or rolled back before; the engine is not contacted. -/
def ErrTxDone : GoError :=
  GoError.Storage "sql: transaction has already been committed or rolled back"

end sql

namespace gorm

/-- The methods of `*gorm.DB` that the transaction handler calls. -/
inductive Call where
  | Begin
  | Commit
  | Rollback
  deriving DecidableEq, Repr

/-- The handle that `h.DB.Begin()` returned, as the transaction handler keeps it in
`h.Tx`: its `Error` field, whether `Begin` obtained a transaction (`begun`), and
whether that transaction was committed or rolled back (`done`). The handle carries no
writes: the repositories are built on the connection pool and are never given it. -/
structure Session where
  Error : Option GoError
  begun : Bool
  done : Bool
  deriving DecidableEq, Repr

/-- Embeds `h.DB.Begin()` as the handler keeps its result: one round trip. -/
def BeginSession (w : World) : Session × World :=
  match w.roundTrip with
  | (some e, w1) => (Session.mk (some e) false false, w1)
  | (none, w1) => (Session.mk none true false, w1)

/-- Embeds `h.Tx.Commit()`, whose result is the handle itself with the error of the
commit added: without a transaction `ErrInvalidTransaction`, on a finished
transaction `sql.ErrTxDone`, otherwise one round trip that finishes the transaction. -/
def Session.Commit (s : Session) (w : World) : Session × World :=
  if !s.begun then
    (Session.mk (some (AddError s.Error GoError.ErrInvalidTransaction)) s.begun s.done, w)
  else if s.done then
    (Session.mk (some (AddError s.Error sql.ErrTxDone)) s.begun s.done, w)
  else
    match w.roundTrip with
    | (some e, w1) => (Session.mk (some (AddError s.Error e)) s.begun true, w1)
    | (none, w1) => (Session.mk s.Error s.begun true, w1)

/-- Embeds `h.Tx.Rollback()`: without a transaction nothing is added to the handle,
on a finished transaction `sql.ErrTxDone`, otherwise one round trip that finishes the
transaction. -/
def Session.Rollback (s : Session) (w : World) : Session × World :=
  if !s.begun then
    (s, w)
  else if s.done then
    (Session.mk (some (AddError s.Error sql.ErrTxDone)) s.begun s.done, w)
  else
    match w.roundTrip with
    | (some e, w1) => (Session.mk (some (AddError s.Error e)) s.begun true, w1)
    | (none, w1) => (Session.mk s.Error s.begun true, w1)

end gorm

/-- The struct `TransactionHandler`: the field `Tx` (`none` is nil). The services it
names are never set and `DB` is the connection pool behind the `World`. The field
`calls` is not part of the Go struct: it records, oldest first, the methods the
handler has called on `*gorm.DB`. -/
structure TransactionHandler where
  Tx : Option gorm.Session
  calls : List gorm.Call
  deriving DecidableEq, Repr

/-- Embeds `NewTransactionHandler`. -/
def NewTransactionHandler : TransactionHandler :=
  TransactionHandler.mk none []

namespace TransactionHandler

/-- Embeds `TransactionHandler.StartTransaction`. -/
def StartTransaction (h : TransactionHandler) (w : World) :
    (Option GoError × TransactionHandler) × World :=
  match gorm.BeginSession w with
  | (s, w1) =>
    match s.Error with
    | some e =>
      ((some (errors.Wrap e "start transaction failed"),
        TransactionHandler.mk (some s) (h.calls ++ [gorm.Call.Begin])), w1)
    | none => ((none, TransactionHandler.mk (some s) (h.calls ++ [gorm.Call.Begin])), w1)

/-- Embeds `TransactionHandler.CommitTransaction`. -/
def CommitTransaction (h : TransactionHandler) (w : World) :
    (Option GoError × TransactionHandler) × World :=
  match h.Tx with
  | none => ((some (errors.New "no transaction found"), h), w)
  | some s =>
    match s.Commit w with
    | (s1, w1) =>
      match s1.Error with
      | some e =>
        ((some (errors.Wrap e "commit transaction failed"),
          TransactionHandler.mk (some s1) (h.calls ++ [gorm.Call.Commit])), w1)
      | none => ((none, TransactionHandler.mk (some s1) (h.calls ++ [gorm.Call.Commit])), w1)

/-- Embeds `TransactionHandler.RollbackTransaction`. -/
def RollbackTransaction (h : TransactionHandler) (w : World) :
    (Option GoError × TransactionHandler) × World :=
  match h.Tx with
  | none => ((some (errors.New "no transaction found"), h), w)
  | some s =>
    match s.Rollback w with
    | (s1, w1) =>
      match s1.Error with
      | some e =>
        ((some (errors.Wrap e "rollback transaction failed"),
          TransactionHandler.mk (some s1) (h.calls ++ [gorm.Call.Rollback])), w1)
      | none =>
        ((none, TransactionHandler.mk (some s1) (h.calls ++ [gorm.Call.Rollback])), w1)

/-- The state Active: a transaction was begun and is not finished. Idle is
`Tx = none`. -/
def Active (h : TransactionHandler) : Bool :=
  match h.Tx with
  | none => false
  | some s => s.begun && !s.done

/-- The states a handler made by `NewTransactionHandler` can get into through its
three methods, on any storage engine. -/
inductive Reachable : TransactionHandler → Prop where
  | new : Reachable NewTransactionHandler
  | start (h : TransactionHandler) (w : World) :
      Reachable h → Reachable (h.StartTransaction w).1.2
  | commit (h : TransactionHandler) (w : World) :
      Reachable h → Reachable (h.CommitTransaction w).1.2
  | rollback (h : TransactionHandler) (w : World) :
      Reachable h → Reachable (h.RollbackTransaction w).1.2

end TransactionHandler

/-! ## cmd/http/handler/role_handler.go and permission_handler.go -/

/-- What a handler writes with `c.JSON`: the status and the text of the body. -/
structure Answer where
  status : Nat
  body : String
  deriving DecidableEq, Repr

namespace RoleHandler

/-- Embeds `RoleHandler.AddUserRole` for a body that binds to `userID`, `roleID`. -/
def AddUserRole (h : TransactionHandler) (w : World) (userID roleID : Nat) :
    (Answer × TransactionHandler) × World :=
  match h.StartTransaction w with
  | ((some err, h1), w1) => ((Answer.mk 500 err.Error, h1), w1)
  | ((none, h1), w1) =>
    match RoleService.AddUserRole w1 userID roleID with
    | (some err, w2) =>
      match h1.RollbackTransaction w2 with
      | ((_, h2), w3) => ((Answer.mk 500 err.Error, h2), w3)
    | (none, w2) =>
      match h1.CommitTransaction w2 with
      | ((some err, h2), w3) => ((Answer.mk 500 err.Error, h2), w3)
      | ((none, h2), w3) => ((Answer.mk 200 "Role added to user", h2), w3)

end RoleHandler

namespace PermissionHandler

/-- Embeds `PermissionHandler.AssignPermissionToRole` for a body that binds to a
`RolePermission` with the two identifiers. -/
def AssignPermissionToRole (h : TransactionHandler) (w : World)
    (roleID permissionID : Nat) : (Answer × TransactionHandler) × World :=
  match h.StartTransaction w with
  | ((some err, h1), w1) => ((Answer.mk 500 err.Error, h1), w1)
  | ((none, h1), w1) =>
    match PermissionService.AssignPermissionToRole w1 roleID permissionID with
    | (some err, w2) =>
      match h1.RollbackTransaction w2 with
      | ((_, h2), w3) => ((Answer.mk 500 err.Error, h2), w3)
    | (none, w2) =>
      match h1.CommitTransaction w2 with
      | ((some err, h2), w3) => ((Answer.mk 500 err.Error, h2), w3)
      | ((none, h2), w3) =>
        ((Answer.mk 200 "Permission assigned to role successfully.", h2), w3)

end PermissionHandler

/-! ## Pagination (user_repository.go, user_service.go, user_handler.go) -/

/-- The value of an `int` expression on a 64-bit platform: Go's arithmetic wraps. -/
def wrapInt64 (x : Int) : Int :=
  (x + 2 ^ 63) % 2 ^ 64 - 2 ^ 63

namespace gorm

/-- The rows that `Offset(offset).Limit(limit).Find` selects from the rows a query
matches: gorm writes `OFFSET` for a positive offset only and `LIMIT` for a limit that is
not negative; without `ORDER BY` the rows come in the order of the table. -/
def offsetLimit {α : Type} (rows : List α) (offset limit : Int) : List α :=
  let rest := if offset > 0 then rows.drop offset.toNat else rows
  if limit ≥ 0 then rest.take limit.toNat else rest

/-- The rows of `users` that are not marked deleted. -/
def liveUsers (t : Tables) : List model.User :=
  t.users.filter (fun u => !u.Deleted)

end gorm

namespace userRepository

/-- The argument `(page - 1) * pageSize` that `ListUsers` and `SearchUsers` hand to
`Offset`. -/
def pageOffset (page pageSize : Int) : Int :=
  wrapInt64 (wrapInt64 (page - 1) * pageSize)

/-- Embeds `userRepository.ListUsers`. -/
def ListUsers (w : World) (page pageSize : Int) :
    (List model.User × Option GoError) × World :=
  match w.roundTrip with
  | (some e, w1) => (([], some e), w1)
  | (none, w1) =>
    ((gorm.offsetLimit (gorm.liveUsers w1.tables) (pageOffset page pageSize) pageSize, none),
      w1)

/-- Embeds `userRepository.SearchUsers`; `like pattern text` is the operator `LIKE` of
the engine. -/
def SearchUsers (like : String → String → Bool) (w : World) (query : String)
    (page pageSize : Int) : (List model.User × Option GoError) × World :=
  match w.roundTrip with
  | (some e, w1) => (([], some e), w1)
  | (none, w1) =>
    ((gorm.offsetLimit
        ((gorm.liveUsers w1.tables).filter (fun u =>
          like ("%" ++ query ++ "%") u.Username || like ("%" ++ query ++ "%") u.Email))
        (pageOffset page pageSize) pageSize, none), w1)

end userRepository

namespace UserService

/-- Embeds `UserService.ListUsers`. -/
def ListUsers (w : World) (page pageSize : Int) :
    (List model.User × Option GoError) × World :=
  if page < 0 || pageSize ≤ 0 then
    (([], some (errors.NewAppError errors.CodeBadRequest "User ID cannot be zero")), w)
  else
    match userRepository.ListUsers w page pageSize with
    | ((_, some _), w1) =>
      (([], some (errors.NewAppError errors.CodeInternalServerError
        "Internal server error occurred")), w1)
    | ((users, none), w1) => ((users, none), w1)

/-- Embeds `UserService.SearchUsers`. -/
def SearchUsers (like : String → String → Bool) (w : World) (query : String)
    (page pageSize : Int) : (List model.User × Option GoError) × World :=
  if page < 0 || pageSize ≤ 0 then
    (([], some (errors.NewAppError errors.CodeBadRequest "User ID cannot be zero")), w)
  else
    match userRepository.SearchUsers like w query page pageSize with
    | ((_, some _), w1) =>
      (([], some (errors.NewAppError errors.CodeInternalServerError
        "Internal server error occurred")), w1)
    | ((users, none), w1) => ((users, none), w1)

end UserService

/-- Embeds `getPaginationParams`: the query parameters `page` and `pageSize` (`none`
when absent) with the defaults "0" and "100"; `Atoi` is `strconv.Atoi`, `none` for
an error. -/
def getPaginationParams (Atoi : String → Option Int) (page pageSize : Option String) :
    Int × Int :=
  let p := match Atoi (page.getD "0") with
    | none => 0
    | some n => if n < 0 then 0 else n
  let s := match Atoi (pageSize.getD "100") with
    | none => 100
    | some n => if n ≤ 0 then 100 else n
  (p, s)

/-! ## Validation of roles and permissions (role_service.go, permission_service.go) -/

/-- Embeds `validateAndSanitizeRole`. The second component is the struct behind the
pointer after the call. -/
def validateAndSanitizeRole (role : Option model.Role) : Option GoError × Option model.Role :=
  match role with
  | none => (some (errors.NewAppError errors.CodeBadRequest "role cannot be nil"), none)
  | some role =>
    if len role.RoleName < 3 || len role.RoleName > 255 then
      (some (errors.NewAppError errors.CodeBadRequest
        "role name length must be between 3 and 255 characters"), some role)
    else
      (none, some { role with RoleName := strings.TrimSpace role.RoleName })

/-- Embeds `validateAndSanitizePermission`. The second component is the struct behind
the pointer after the call. -/
def validateAndSanitizePermission (lower : Char → Char) (permission : Option model.Permission) :
    Option GoError × Option model.Permission :=
  match permission with
  | none => (some (errors.NewAppError errors.CodeBadRequest "Permission cannot be nil"), none)
  | some permission =>
    let permission1 : model.Permission :=
      { permission with
        PermissionName := strings.TrimSpace (strings.ToLower lower permission.PermissionName) }
    if len permission1.PermissionName ≤ 0 then
      (some (errors.NewAppError errors.CodeBadRequest
        "Permission name cannot be less than three characters"), some permission1)
    else if len permission1.PermissionName > 255 then
      (some (errors.NewAppError errors.CodeBadRequest
        "Permission name must be less than 256 characters"), some permission1)
    else
      (none, some permission1)

/-! ## The services over any repository

The Go services hold their repository as an interface value. The definitions of this
section embed every method of the three services over an arbitrary implementation of
the interface, with `σ` the state of whatever stands behind it. The embeddings given
above for the gorm repositories are these methods at the gorm implementation. -/

namespace repository

/-- The interface `repository.UserRepository`. -/
structure UserRepository (σ : Type) where
  CreateUser : σ → model.User → (Option GoError × model.User) × σ
  GetUserByUsername : σ → String → (Option model.User × Option GoError) × σ
  GetUserByID : σ → Nat → (Option model.User × Option GoError) × σ
  UpdateUser : σ → model.User → (Option GoError × model.User) × σ
  DeleteUser : σ → Nat → Option GoError × σ
  ListUsers : σ → Int → Int → (List model.User × Option GoError) × σ
  SearchUsers : σ → String → Int → Int → (List model.User × Option GoError) × σ
  CountUsers : σ → (Int × Option GoError) × σ

/-- The interface `repository.RoleRepository`. -/
structure RoleRepository (σ : Type) where
  CreateRole : σ → model.Role → (Option model.Role × Option GoError) × σ
  GetRoleByID : σ → Nat → (Option model.Role × Option GoError) × σ
  UpdateRole : σ → model.Role → (Option model.Role × Option GoError) × σ
  DeleteRole : σ → Nat → Option GoError × σ
  AddUserRole : σ → Nat → Nat → Option GoError × σ
  RemoveUserRole : σ → Nat → Nat → Option GoError × σ
  GetAllRoles : σ → (List model.Role × Option GoError) × σ
  GetRolesByUserID : σ → Nat → (List model.Role × Option GoError) × σ
  UserHasRole : σ → Nat → String → (Bool × Option GoError) × σ

/-- The interface `repository.PermissionRepository`. -/
structure PermissionRepository (σ : Type) where
  GetAllPermissions : σ → (List model.Permission × Option GoError) × σ
  GetPermissionByID : σ → Nat → (model.Permission × Option GoError) × σ
  CreatePermission : σ → model.Permission → (model.Permission × Option GoError) × σ
  UpdatePermission : σ → model.Permission → (model.Permission × Option GoError) × σ
  DeletePermission : σ → Nat → Option GoError × σ
  AssignPermissionToRole : σ → Nat → Nat → Option GoError × σ
  RemovePermissionFromRole : σ → Nat → Nat → Option GoError × σ
  GetPermissionsByRoleID : σ → Nat → (List model.Permission × Option GoError) × σ
  GetRolesByPermissionID : σ → Nat → (List model.Role × Option GoError) × σ
  AddMultiplePermissionsToRole : σ → Nat → List Nat → Option GoError × σ
  RemoveMultiplePermissionsFromRole : σ → Nat → List Nat → Option GoError × σ

end repository

namespace service

/-- The struct `UserService`. -/
structure UserService (σ : Type) where
  UserRepo : repository.UserRepository σ

/-- The struct `RoleService`. -/
structure RoleService (σ : Type) where
  RoleRepo : repository.RoleRepository σ

/-- The struct `PermissionService`. -/
structure PermissionService (σ : Type) where
  PermissionRepo : repository.PermissionRepository σ

/-- The error every service returns for a failed repository call, in the spelling
of user_service.go and role_service.go. -/
def internalError : GoError :=
  errors.NewAppError errors.CodeInternalServerError "Internal server error occurred"

/-- The same error in the spelling of permission_service.go. -/
def internalErrorDot : GoError :=
  errors.NewAppError errors.CodeInternalServerError "Internal server error occurred."

/-- The zero value `model.Permission{}`. -/
def zeroPermission : model.Permission := model.Permission.mk 0 "" false

namespace UserService

variable {σ : Type}

/-- Embeds `UserService.CreateUser`. -/
def CreateUser (s : UserService σ) (lower : Char → Char) (st : σ) (user : Option model.User) :
    (Option GoError × Option model.User) × σ :=
  match validateInput user, user with
  | some _, _ => ((some (errors.NewAppError errors.CodeBadRequest "Invalid user data"), user), st)
  | none, none => ((some (errors.NewAppError errors.CodeBadRequest "Invalid user data"), user), st)
  | none, some u0 =>
    let u := sanitizeInput lower u0
    match s.UserRepo.GetUserByUsername st u.Username with
    | ((_, some _), st1) =>
      ((some (errors.NewAppError errors.CodeInternalServerError
        "An unexpected error occurred"), some u), st1)
    | ((some _, none), st1) =>
      ((some (errors.NewAppError errors.CodeBadRequest "Username already exists"), some u), st1)
    | ((none, none), st1) =>
      match s.UserRepo.CreateUser st1 u with
      | ((some _, u1), st2) =>
        ((some (errors.NewAppError errors.CodeInternalServerError
          "An unexpected error occurred"), some u1), st2)
      | ((none, u1), st2) => ((none, some u1), st2)

/-- Embeds `UserService.GetUserByUsername`. -/
def GetUserByUsername (s : UserService σ) (st : σ) (username : String) :
    (Option model.User × Option GoError) × σ :=
  match s.UserRepo.GetUserByUsername st username with
  | ((_, some _), st1) => ((none, some internalError), st1)
  | ((user, none), st1) => ((user, none), st1)

/-- Embeds `UserService.GetUserByID`. -/
def GetUserByID (s : UserService σ) (st : σ) (id : Nat) :
    (Option model.User × Option GoError) × σ :=
  match s.UserRepo.GetUserByID st id with
  | ((_, some _), st1) => ((none, some internalError), st1)
  | ((user, none), st1) => ((user, none), st1)

/-- Embeds `UserService.UpdateUser` for a pointer that is not nil (the method reads
`user.ID` first). -/
def UpdateUser (s : UserService σ) (lower : Char → Char) (st : σ) (user : model.User) :
    (Option GoError × model.User) × σ :=
  if user.ID = 0 then
    ((some (errors.NewAppError errors.CodeBadRequest "User ID cannot be zero"), user), st)
  else
    match validateInput (some user) with
    | some _ => ((some internalError, user), st)
    | none =>
      let u := sanitizeInput lower user
      match s.UserRepo.GetUserByUsername st u.Username with
      | ((_, some _), st1) => ((some internalError, u), st1)
      | ((existingUser, none), st1) =>
        if existingUser.any (fun x => x.ID != u.ID) then
          ((some (errors.NewAppError errors.CodeBadRequest "Username already exists"), u), st1)
        else
          match s.UserRepo.UpdateUser st1 u with
          | ((some _, u1), st2) => ((some internalError, u1), st2)
          | ((none, u1), st2) => ((none, u1), st2)

/-- Embeds `UserService.DeleteUser`. -/
def DeleteUser (s : UserService σ) (st : σ) (id : Nat) : Option GoError × σ :=
  if id = 0 then
    (some (errors.NewAppError errors.CodeBadRequest "User ID cannot be zero"), st)
  else
    match s.UserRepo.GetUserByID st id with
    | ((_, some _), st1) => (some internalError, st1)
    | ((none, none), st1) =>
      (some (errors.NewAppError errors.CodeNotFound "User not found"), st1)
    | ((some _, none), st1) =>
      match s.UserRepo.DeleteUser st1 id with
      | (some _, st2) => (some internalError, st2)
      | (none, st2) => (none, st2)

/-- Embeds `UserService.ListUsers`. -/
def ListUsers (s : UserService σ) (st : σ) (page pageSize : Int) :
    (List model.User × Option GoError) × σ :=
  if page < 0 || pageSize ≤ 0 then
    (([], some (errors.NewAppError errors.CodeBadRequest "User ID cannot be zero")), st)
  else
    match s.UserRepo.ListUsers st page pageSize with
    | ((_, some _), st1) => (([], some internalError), st1)
    | ((users, none), st1) => ((users, none), st1)

/-- Embeds `UserService.SearchUsers`. -/
def SearchUsers (s : UserService σ) (st : σ) (query : String) (page pageSize : Int) :
    (List model.User × Option GoError) × σ :=
  if page < 0 || pageSize ≤ 0 then
    (([], some (errors.NewAppError errors.CodeBadRequest "User ID cannot be zero")), st)
  else
    match s.UserRepo.SearchUsers st query page pageSize with
    | ((_, some _), st1) => (([], some internalError), st1)
    | ((users, none), st1) => ((users, none), st1)

/-- Embeds `UserService.CountUsers`. -/
def CountUsers (s : UserService σ) (st : σ) : (Int × Option GoError) × σ :=
  match s.UserRepo.CountUsers st with
  | ((_, some _), st1) => ((0, some internalError), st1)
  | ((count, none), st1) => ((count, none), st1)

end UserService

namespace RoleService

variable {σ : Type}

/-- Embeds `RoleService.CreateRole`. -/
def CreateRole (s : RoleService σ) (st : σ) (role : Option model.Role) :
    (Option model.Role × Option GoError) × σ :=
  match validateAndSanitizeRole role with
  | (some err, _) => ((none, some err), st)
  | (none, none) => ((none, none), st)
  | (none, some r) =>
    match s.RoleRepo.CreateRole st r with
    | ((_, some _), st1) => ((none, some internalError), st1)
    | ((newRole, none), st1) => ((newRole, none), st1)

/-- Embeds `RoleService.GetRoleByID`. -/
def GetRoleByID (s : RoleService σ) (st : σ) (id : Nat) :
    (Option model.Role × Option GoError) × σ :=
  if id = 0 then
    ((none, some (errors.NewAppError errors.CodeBadRequest "invalid role id")), st)
  else
    match s.RoleRepo.GetRoleByID st id with
    | ((_, some _), st1) => ((none, some internalError), st1)
    | ((role, none), st1) => ((role, none), st1)

/-- Embeds `RoleService.UpdateRole`. -/
def UpdateRole (s : RoleService σ) (st : σ) (role : Option model.Role) :
    (Option model.Role × Option GoError) × σ :=
  match validateAndSanitizeRole role with
  | (some err, _) => ((none, some err), st)
  | (none, none) => ((none, none), st)
  | (none, some r) =>
    match s.RoleRepo.UpdateRole st r with
    | ((_, some _), st1) => ((none, some internalError), st1)
    | ((updatedRole, none), st1) => ((updatedRole, none), st1)

/-- Embeds `RoleService.DeleteRole`. -/
def DeleteRole (s : RoleService σ) (st : σ) (id : Nat) : Option GoError × σ :=
  if id = 0 then
    (some (errors.NewAppError errors.CodeBadRequest "Username already exists"), st)
  else
    match s.RoleRepo.DeleteRole st id with
    | (some _, st1) => (some internalError, st1)
    | (none, st1) => (none, st1)

/-- Embeds `RoleService.AddUserRole`. -/
def AddUserRole (s : RoleService σ) (st : σ) (userID roleID : Nat) : Option GoError × σ :=
  if userID = 0 then
    (some (errors.NewAppError errors.CodeBadRequest "user id cannot be zero"), st)
  else if roleID = 0 then
    (some (errors.NewAppError errors.CodeBadRequest "role id cannot be zero"), st)
  else
    match s.RoleRepo.AddUserRole st userID roleID with
    | (some _, st1) => (some internalError, st1)
    | (none, st1) => (none, st1)

/-- Embeds `RoleService.RemoveUserRole`. -/
def RemoveUserRole (s : RoleService σ) (st : σ) (userID roleID : Nat) : Option GoError × σ :=
  if userID = 0 then
    (some (errors.NewAppError errors.CodeBadRequest "user id cannot be zero"), st)
  else if roleID = 0 then
    (some (errors.NewAppError errors.CodeBadRequest "role id cannot be zero"), st)
  else
    match s.RoleRepo.RemoveUserRole st userID roleID with
    | (some _, st1) => (some internalError, st1)
    | (none, st1) => (none, st1)

/-- Embeds `RoleService.GetAllRoles`. -/
def GetAllRoles (s : RoleService σ) (st : σ) : (List model.Role × Option GoError) × σ :=
  match s.RoleRepo.GetAllRoles st with
  | ((_, some _), st1) => (([], some internalError), st1)
  | ((roles, none), st1) => ((roles, none), st1)

/-- Embeds `RoleService.GetRolesByUserID`. -/
def GetRolesByUserID (s : RoleService σ) (st : σ) (userID : Nat) :
    (List model.Role × Option GoError) × σ :=
  if userID = 0 then
    (([], some (errors.NewAppError errors.CodeBadRequest "user id cannot be zero")), st)
  else
    match s.RoleRepo.GetRolesByUserID st userID with
    | ((_, some _), st1) => (([], some internalError), st1)
    | ((roles, none), st1) => ((roles, none), st1)

/-- Embeds `RoleService.UserHasRole`. -/
def UserHasRole (s : RoleService σ) (st : σ) (userID : Nat) (roleName : String) :
    (Bool × Option GoError) × σ :=
  if userID = 0 then
    ((false, some (errors.NewAppError errors.CodeBadRequest "user id cannot be zero")), st)
  else if len roleName < 2 then
    ((false, some (errors.NewAppError errors.CodeBadRequest
      "role name must be at least 2 characters long")), st)
  else
    match s.RoleRepo.UserHasRole st userID roleName with
    | ((_, some _), st1) => ((false, some internalError), st1)
    | ((hasRole, none), st1) => ((hasRole, none), st1)

end RoleService

namespace PermissionService

variable {σ : Type}

/-- Embeds `PermissionService.GetAllPermissions`. -/
def GetAllPermissions (s : PermissionService σ) (st : σ) :
    (List model.Permission × Option GoError) × σ :=
  match s.PermissionRepo.GetAllPermissions st with
  | ((_, some _), st1) => (([], some internalErrorDot), st1)
  | ((permissions, none), st1) => ((permissions, none), st1)

/-- Embeds `PermissionService.GetPermissionByID`. -/
def GetPermissionByID (s : PermissionService σ) (st : σ) (permissionID : Nat) :
    (model.Permission × Option GoError) × σ :=
  if permissionID ≤ 0 then
    ((zeroPermission, some (errors.NewAppError errors.CodeBadRequest "Invalid permission id")),
      st)
  else
    match s.PermissionRepo.GetPermissionByID st permissionID with
    | ((_, some _), st1) => ((zeroPermission, some internalErrorDot), st1)
    | ((permission, none), st1) => ((permission, none), st1)

/-- Embeds `PermissionService.CreatePermission`; the permission is passed by value. -/
def CreatePermission (s : PermissionService σ) (lower : Char → Char) (st : σ)
    (permission : model.Permission) : (model.Permission × Option GoError) × σ :=
  match validateAndSanitizePermission lower (some permission) with
  | (some err, _) => ((zeroPermission, some err), st)
  | (none, none) => ((zeroPermission, none), st)
  | (none, some p) =>
    match s.PermissionRepo.CreatePermission st p with
    | ((_, some _), st1) => ((zeroPermission, some internalErrorDot), st1)
    | ((created, none), st1) => ((created, none), st1)

/-- Embeds `PermissionService.UpdatePermission`. -/
def UpdatePermission (s : PermissionService σ) (lower : Char → Char) (st : σ)
    (permission : model.Permission) : (model.Permission × Option GoError) × σ :=
  match validateAndSanitizePermission lower (some permission) with
  | (some err, _) => ((zeroPermission, some err), st)
  | (none, none) => ((zeroPermission, none), st)
  | (none, some p) =>
    match s.PermissionRepo.UpdatePermission st p with
    | ((_, some _), st1) => ((zeroPermission, some internalErrorDot), st1)
    | ((updated, none), st1) => ((updated, none), st1)

/-- Embeds `PermissionService.DeletePermission`. -/
def DeletePermission (s : PermissionService σ) (st : σ) (permissionID : Nat) :
    Option GoError × σ :=
  if permissionID ≤ 0 then
    (some (errors.NewAppError errors.CodeBadRequest "Invalid permission id"), st)
  else
    match s.PermissionRepo.DeletePermission st permissionID with
    | (some _, st1) => (some internalErrorDot, st1)
    | (none, st1) => (none, st1)

/-- Embeds `PermissionService.AssignPermissionToRole`. -/
def AssignPermissionToRole (s : PermissionService σ) (st : σ) (roleID permissionID : Nat) :
    Option GoError × σ :=
  if roleID ≤ 0 || permissionID ≤ 0 then
    (some (errors.NewAppError errors.CodeBadRequest "Invalid role or permission id"), st)
  else
    match s.PermissionRepo.AssignPermissionToRole st roleID permissionID with
    | (some _, st1) => (some internalErrorDot, st1)
    | (none, st1) => (none, st1)

/-- Embeds `PermissionService.RemovePermissionFromRole`. -/
def RemovePermissionFromRole (s : PermissionService σ) (st : σ) (roleID permissionID : Nat) :
    Option GoError × σ :=
  if roleID ≤ 0 || permissionID ≤ 0 then
    (some (errors.NewAppError errors.CodeBadRequest "Invalid role or permission id"), st)
  else
    match s.PermissionRepo.RemovePermissionFromRole st roleID permissionID with
    | (some _, st1) => (some internalErrorDot, st1)
    | (none, st1) => (none, st1)

/-- Embeds `PermissionService.GetPermissionsByRoleID`. -/
def GetPermissionsByRoleID (s : PermissionService σ) (st : σ) (roleID : Nat) :
    (List model.Permission × Option GoError) × σ :=
  if roleID ≤ 0 then
    (([], some (errors.NewAppError errors.CodeBadRequest "Invalid role id")), st)
  else
    match s.PermissionRepo.GetPermissionsByRoleID st roleID with
    | ((_, some _), st1) => (([], some internalErrorDot), st1)
    | ((permissions, none), st1) => ((permissions, none), st1)

/-- Embeds `PermissionService.GetRolesByPermissionID`. -/
def GetRolesByPermissionID (s : PermissionService σ) (st : σ) (permissionID : Nat) :
    (List model.Role × Option GoError) × σ :=
  if permissionID ≤ 0 then
    (([], some (errors.NewAppError errors.CodeBadRequest "Invalid permission id")), st)
  else
    match s.PermissionRepo.GetRolesByPermissionID st permissionID with
    | ((_, some _), st1) => (([], some internalErrorDot), st1)
    | ((roles, none), st1) => ((roles, none), st1)

/-- Embeds `PermissionService.AddMultiplePermissionsToRole`. -/
def AddMultiplePermissionsToRole (s : PermissionService σ) (st : σ) (roleID : Nat)
    (permissionIDs : List Nat) : Option GoError × σ :=
  if roleID ≤ 0 || permissionIDs.length == 0 then
    (some (errors.NewAppError errors.CodeBadRequest "Invalid role id or empty permissions"), st)
  else
    match s.PermissionRepo.AddMultiplePermissionsToRole st roleID permissionIDs with
    | (some _, st1) => (some internalErrorDot, st1)
    | (none, st1) => (none, st1)

/-- Embeds `PermissionService.RemoveMultiplePermissionsFromRole`. -/
def RemoveMultiplePermissionsFromRole (s : PermissionService σ) (st : σ) (roleID : Nat)
    (permissionIDs : List Nat) : Option GoError × σ :=
  if roleID ≤ 0 || permissionIDs.length == 0 then
    (some (errors.NewAppError errors.CodeBadRequest "Invalid role id or empty permissions"), st)
  else
    match s.PermissionRepo.RemoveMultiplePermissionsFromRole st roleID permissionIDs with
    | (some _, st1) => (some internalErrorDot, st1)
    | (none, st1) => (none, st1)

end PermissionService

/-- The error values the three services make themselves. -/
def serviceErrors : List GoError :=
  [ GoError.AppError 400 "Invalid user data",
    GoError.AppError 500 "An unexpected error occurred",
    GoError.AppError 400 "Username already exists",
    GoError.AppError 500 "Internal server error occurred",
    GoError.AppError 400 "User ID cannot be zero",
    GoError.AppError 404 "User not found",
    GoError.AppError 400 "role cannot be nil",
    GoError.AppError 400 "role name length must be between 3 and 255 characters",
    GoError.AppError 400 "invalid role id",
    GoError.AppError 400 "user id cannot be zero",
    GoError.AppError 400 "role id cannot be zero",
    GoError.AppError 400 "role name must be at least 2 characters long",
    GoError.AppError 500 "Internal server error occurred.",
    GoError.AppError 400 "Invalid permission id",
    GoError.AppError 400 "Permission cannot be nil",
    GoError.AppError 400 "Permission name cannot be less than three characters",
    GoError.AppError 400 "Permission name must be less than 256 characters",
    GoError.AppError 400 "Invalid role or permission id",
    GoError.AppError 400 "Invalid role id",
    GoError.AppError 400 "Invalid role id or empty permissions" ]

/-- What a service may return as its error: nil, or one of the values the services
make themselves. -/
def Made (e : Option GoError) : Prop :=
  ∀ x, e = some x → x ∈ serviceErrors

/-- An error is an AppError with one of the three codes of the error package. -/
def isAppError (e : GoError) : Bool :=
  match e with
  | GoError.AppError code _ =>
    code == errors.CodeBadRequest || code == errors.CodeNotFound
      || code == errors.CodeInternalServerError
  | _ => false

end service

/-! ## Update and deletion of users (user_repository.go, user_service.go) -/

namespace gorm

/-- The query `SELECT * FROM users WHERE id = ? AND deleted_at IS NULL ORDER BY id
LIMIT 1` of `First(&user, id)`. -/
def firstUserByID (t : Tables) (id : Nat) : Option model.User :=
  leastBy (fun u => u.ID) (t.users.filter (fun u => u.ID == id && !u.Deleted))

/-- The statement `UPDATE users SET deleted_at = ? WHERE id = ? AND deleted_at IS
NULL`, which `Delete(&model.User{}, id)` issues for a model with a `DeletedAt`
column. -/
def softDeleteUser (id : Nat) (t : Tables) : Tables :=
  { t with users := t.users.map (fun u =>
      if u.ID == id && !u.Deleted then { u with Deleted := true } else u) }

/-- The constraints of the columns of `users` that a written row has to meet, given
the rows with another primary key. -/
def userRowError (others : List model.User) (row : model.User) : Option GoError :=
  if others.any (fun u => u.Username == row.Username) then
    some (constraintError "users_username_key")
  else if others.any (fun u => u.Email == row.Email) then
    some (constraintError "users_email_key")
  else if 255 < row.Username.length || 255 < row.PasswordHash.length
      || 255 < row.Email.length then
    some (constraintError "value too long for type character varying(255)")
  else
    none

/-- The tables after the row of `users` with the primary key of `user` was replaced
by `user`, or after `user` was added when no row has that key. -/
def putUser (user : model.User) (t : Tables) : Tables :=
  if t.users.any (fun u => u.ID == user.ID) then
    { t with users := t.users.map (fun u => if u.ID == user.ID then user else u) }
  else
    { t with users := t.users ++ [user] }

end gorm

namespace userRepository

/-- Embeds `userRepository.GetUserByID`: the identifier is encoded, and then the query
is one round trip; as in `GetUserByUsername`, `First` reports
`gorm.ErrRecordNotFound` when no row matches. -/
def GetUserByID (w : World) (id : Nat) : (Option model.User × Option GoError) × World :=
  match sql.encodeArgs [id] with
  | some e => ((none, some e), w)
  | none =>
    match w.roundTrip with
    | (some e, w1) => ((none, some e), w1)
    | (none, w1) =>
      match gorm.firstUserByID w1.tables id with
      | none => ((none, some GoError.ErrRecordNotFound), w1)
      | some user => ((some user, none), w1)

/-- Embeds `userRepository.UpdateUser`: `r.db.Save(user).Error`. With a zero primary
key `Save` is `Create`. Otherwise it issues `UPDATE users SET ... WHERE id = ? AND
deleted_at IS NULL` with every column of the struct, the identifier encoded first,
and when that statement affects no row it goes on with `INSERT ... ON CONFLICT (id) DO
UPDATE`. Each statement is one round trip. The second component is the struct behind
the pointer after the call. -/
def UpdateUser (w : World) (user : model.User) : (Option GoError × model.User) × World :=
  if user.ID = 0 then
    CreateUser w user
  else
    match sql.encodeArgs [user.ID] with
    | some e => ((some e, user), w)
    | none =>
      match w.roundTrip with
      | (some e, w1) => ((some e, user), w1)
      | (none, w1) =>
        if w1.tables.users.any (fun u => u.ID == user.ID && !u.Deleted) then
          match gorm.userRowError (w1.tables.users.filter (fun u => u.ID != user.ID))
              user with
          | some e => ((some e, user), w1)
          | none => ((none, user), World.mk (gorm.putUser user w1.tables) w1.faults)
        else
          match w1.roundTrip with
          | (some e, w2) => ((some e, user), w2)
          | (none, w2) =>
            match gorm.userRowError (w2.tables.users.filter (fun u => u.ID != user.ID))
                user with
            | some e => ((some e, user), w2)
            | none => ((none, user), World.mk (gorm.putUser user w2.tables) w2.faults)

/-- Embeds `userRepository.DeleteUser`: the identifier is encoded, and then the update
is one round trip; it matches any number of rows and reports no error when it matches
none. -/
def DeleteUser (w : World) (id : Nat) : Option GoError × World :=
  match sql.encodeArgs [id] with
  | some e => (some e, w)
  | none =>
    match w.roundTrip with
    | (some e, w1) => (some e, w1)
    | (none, w1) => (none, World.mk (gorm.softDeleteUser id w1.tables) w1.faults)

end userRepository

namespace UserService

/-- Embeds `UserService.UpdateUser` for a pointer that is not nil (the method reads
`user.ID` first). The second component is the struct behind the pointer after the
call. -/
def UpdateUser (lower : Char → Char) (w : World) (user : model.User) :
    (Option GoError × model.User) × World :=
  if user.ID = 0 then
    ((some (errors.NewAppError errors.CodeBadRequest "User ID cannot be zero"), user), w)
  else
    match validateInput (some user) with
    | some _ =>
      ((some (errors.NewAppError errors.CodeInternalServerError
        "Internal server error occurred"), user), w)
    | none =>
      let u := sanitizeInput lower user
      match userRepository.GetUserByUsername w u.Username with
      | ((_, some _), w1) =>
        ((some (errors.NewAppError errors.CodeInternalServerError
          "Internal server error occurred"), u), w1)
      | ((existingUser, none), w1) =>
        if existingUser.any (fun x => x.ID != u.ID) then
          ((some (errors.NewAppError errors.CodeBadRequest "Username already exists"), u), w1)
        else
          match userRepository.UpdateUser w1 u with
          | ((some _, u1), w2) =>
            ((some (errors.NewAppError errors.CodeInternalServerError
              "Internal server error occurred"), u1), w2)
          | ((none, u1), w2) => ((none, u1), w2)

/-- Embeds `UserService.DeleteUser`. -/
def DeleteUser (w : World) (id : Nat) : Option GoError × World :=
  if id = 0 then
    (some (errors.NewAppError errors.CodeBadRequest "User ID cannot be zero"), w)
  else
    match userRepository.GetUserByID w id with
    | ((_, some _), w1) =>
      (some (errors.NewAppError errors.CodeInternalServerError
        "Internal server error occurred"), w1)
    | ((none, none), w1) =>
      (some (errors.NewAppError errors.CodeNotFound "User not found"), w1)
    | ((some _, none), w1) =>
      match userRepository.DeleteUser w1 id with
      | (some _, w2) =>
        (some (errors.NewAppError errors.CodeInternalServerError
          "Internal server error occurred"), w2)
      | (none, w2) => (none, w2)

end UserService

/-! ## Creation of roles and permissions (role_repository.go, permission_repository.go,
role_service.go, permission_service.go) -/

namespace gorm

/-- The statement `INSERT INTO roles` that `db.Create(&role)` issues: a zero `ID` is
drawn from the sequence; the primary key and the `unique` column `role_name` are
checked against every row of the table, the `size:255` column against its length. -/
def insertRole (t : Tables) (role : model.Role) : Except GoError (model.Role × Tables) :=
  let row : model.Role :=
    if role.ID = 0 then { role with ID := nextID (t.roles.map (fun r => r.ID)) } else role
  if t.roles.any (fun r => r.ID == row.ID) then
    Except.error (constraintError "roles_pkey")
  else if t.roles.any (fun r => r.RoleName == row.RoleName) then
    Except.error (constraintError "roles_role_name_key")
  else if 255 < row.RoleName.length then
    Except.error (constraintError "value too long for type character varying(255)")
  else
    Except.ok (row, { t with roles := t.roles ++ [row] })

/-- The statement `INSERT INTO permissions` that `db.Create(&permission)` issues. -/
def insertPermission (t : Tables) (permission : model.Permission) :
    Except GoError (model.Permission × Tables) :=
  let row : model.Permission :=
    if permission.ID = 0 then
      { permission with ID := nextID (t.permissions.map (fun q => q.ID)) }
    else permission
  if t.permissions.any (fun q => q.ID == row.ID) then
    Except.error (constraintError "permissions_pkey")
  else if t.permissions.any (fun q => q.PermissionName == row.PermissionName) then
    Except.error (constraintError "permissions_permission_name_key")
  else if 255 < row.PermissionName.length then
    Except.error (constraintError "value too long for type character varying(255)")
  else
    Except.ok (row, { t with permissions := t.permissions ++ [row] })

end gorm

namespace roleRepository

/-- Embeds `roleRepository.CreateRole`: an identifier the caller has set is encoded,
and then the insert is one round trip; an error comes with a nil role, otherwise the
pointer is returned, whose struct has the primary key set. -/
def CreateRole (w : World) (role : model.Role) : (Option model.Role × Option GoError) × World :=
  match sql.encodeArgs [role.ID] with
  | some e => ((none, some e), w)
  | none =>
    match w.roundTrip with
    | (some e, w1) => ((none, some e), w1)
    | (none, w1) =>
      match gorm.insertRole w1.tables role with
      | Except.error e => ((none, some e), w1)
      | Except.ok (row, t) => ((some row, none), World.mk t w1.faults)

end roleRepository

namespace permissionRepository

/-- Embeds `permissionRepository.CreatePermission`: an identifier the caller has set
is encoded, and then the insert is one round trip; an error comes with the zero value
`model.Permission{}`. -/
def CreatePermission (w : World) (permission : model.Permission) :
    (model.Permission × Option GoError) × World :=
  match sql.encodeArgs [permission.ID] with
  | some e => ((model.Permission.mk 0 "" false, some e), w)
  | none =>
    match w.roundTrip with
    | (some e, w1) => ((model.Permission.mk 0 "" false, some e), w1)
    | (none, w1) =>
      match gorm.insertPermission w1.tables permission with
      | Except.error e => ((model.Permission.mk 0 "" false, some e), w1)
      | Except.ok (row, t) => ((row, none), World.mk t w1.faults)

end permissionRepository

namespace RoleService

/-- Embeds `RoleService.CreateRole`. -/
def CreateRole (w : World) (role : Option model.Role) :
    (Option model.Role × Option GoError) × World :=
  match validateAndSanitizeRole role with
  | (some err, _) => ((none, some err), w)
  | (none, none) => ((none, none), w)
  | (none, some r) =>
    match roleRepository.CreateRole w r with
    | ((_, some _), w1) =>
      ((none, some (errors.NewAppError errors.CodeInternalServerError
        "Internal server error occurred")), w1)
    | ((newRole, none), w1) => ((newRole, none), w1)

end RoleService

namespace PermissionService

/-- Embeds `PermissionService.CreatePermission`; the permission is passed by value. -/
def CreatePermission (lower : Char → Char) (w : World) (permission : model.Permission) :
    (model.Permission × Option GoError) × World :=
  match validateAndSanitizePermission lower (some permission) with
  | (some err, _) => ((model.Permission.mk 0 "" false, some err), w)
  | (none, none) => ((model.Permission.mk 0 "" false, none), w)
  | (none, some p) =>
    match permissionRepository.CreatePermission w p with
    | ((_, some _), w1) =>
      ((model.Permission.mk 0 "" false,
        some (errors.NewAppError errors.CodeInternalServerError
          "Internal server error occurred.")), w1)
    | ((created, none), w1) => ((created, none), w1)

end PermissionService

/-! ## The batch as the specification words it -/

/-- Follows the specification's wording of `addMultiplePermissionsToRole`, "performs
the single-pair operation once per id": the error of the first call
`PermissionService.AssignPermissionToRole(roleID, id)`, in the order of the list, that
fails on the given engine, and nil when none does. -/
def firstFailingAssign (w : World) (roleID : Nat) : List Nat → Option GoError
  | [] => none
  | permissionID :: rest =>
    match (PermissionService.AssignPermissionToRole w roleID permissionID).1 with
    | some e => some e
    | none => firstFailingAssign w roleID rest

/-! ## RemovePermissionFromRole (permission_repository.go) -/

namespace gorm

/-- The query `SELECT * FROM role_permissions WHERE role_id = ? AND permission_id = ?
AND deleted_at IS NULL ORDER BY id LIMIT 1`. -/
def firstRolePermission (t : Tables) (roleID permissionID : Nat) :
    Option model.RolePermission :=
  leastBy (fun rp => rp.ID) (t.role_permissions.filter (fun rp =>
    rp.RoleID == roleID && rp.PermissionID == permissionID && !rp.Deleted))

/-- The statement `UPDATE role_permissions SET deleted_at = ? WHERE id = ? AND
deleted_at IS NULL`, which `Delete(&rolePermission)` issues for a struct whose
primary key is set. -/
def softDeleteRolePermission (id : Nat) (t : Tables) : Tables :=
  { t with role_permissions := t.role_permissions.map (fun rp =>
      if rp.ID == id && !rp.Deleted then { rp with Deleted := true } else rp) }

/-- Embeds `tx.Where("role_id = ? AND permission_id = ?", roleID, permissionID)
.First(&rolePermission).Error` together with the struct it fills: skipped on a handle
that carries an error; otherwise the two identifiers are encoded, and then one round
trip, and `gorm.ErrRecordNotFound` when no row matches. -/
def Tx.FirstRolePermission (tx : Tx) (w : World) (roleID permissionID : Nat) :
    Except GoError model.RolePermission × World :=
  match tx.Error with
  | some e => (Except.error e, w)
  | none =>
    match sql.encodeArgs [roleID, permissionID] with
    | some e => (Except.error e, w)
    | none =>
      match w.roundTrip with
      | (some e, w1) => (Except.error e, w1)
      | (none, w1) =>
        match firstRolePermission (tx.pending w1.tables) roleID permissionID with
        | none => (Except.error GoError.ErrRecordNotFound, w1)
        | some rp => (Except.ok rp, w1)

/-- Embeds `tx.Delete(&rolePermission).Error` for a struct with the primary key `id`. -/
def Tx.DeleteRolePermission (tx : Tx) (w : World) (id : Nat) :
    (Option GoError × Tx) × World :=
  match tx.Error with
  | some e => ((some e, tx), w)
  | none =>
    match w.roundTrip with
    | (some e, w1) => ((some e, tx), w1)
    | (none, w1) =>
      ((none, Tx.mk none (fun t => softDeleteRolePermission id (tx.pending t))), w1)

end gorm

namespace permissionRepository

/-- Embeds `permissionRepository.RemovePermissionFromRole`. -/
def RemovePermissionFromRole (w : World) (roleID permissionID : Nat) : Option GoError × World :=
  match gorm.Begin w with
  | (tx, w0) =>
    match tx.FirstRolePermission w0 roleID permissionID with
    | (Except.error e, w1) => (some e, (gorm.Rollback tx w1).2)
    | (Except.ok rolePermission, w1) =>
      match tx.DeleteRolePermission w1 rolePermission.ID with
      | ((some e, tx1), w2) => (some e, (gorm.Rollback tx1 w2).2)
      | ((none, tx1), w2) => gorm.Commit tx1 w2

end permissionRepository

/-! ## GetPermissionsByRoleID and DeletePermission (permission_repository.go) -/

namespace gorm

/-- The query `SELECT * FROM role_permissions WHERE role_id = ? AND deleted_at IS
NULL` of `Where("role_id = ?", roleID).Find(&rolePermissions)`; without `ORDER BY`
the rows come in the order of the table. -/
def rolePermissionsByRole (t : Tables) (roleID : Nat) : List model.RolePermission :=
  t.role_permissions.filter (fun rp => rp.RoleID == roleID && !rp.Deleted)

/-- The query `SELECT * FROM permissions WHERE id = ? AND deleted_at IS NULL ORDER BY
id LIMIT 1` of `First(&permission, id)`. -/
def firstPermissionByID (t : Tables) (id : Nat) : Option model.Permission :=
  leastBy (fun q => q.ID) (t.permissions.filter (fun q => q.ID == id && !q.Deleted))

/-- The statement `UPDATE permissions SET deleted_at = ? WHERE id = ? AND deleted_at
IS NULL`, which `Delete(&model.Permission{}, permissionID)` issues for a model with a
`DeletedAt` column. The rows of `role_permissions` are not touched. -/
def softDeletePermission (id : Nat) (t : Tables) : Tables :=
  { t with permissions := t.permissions.map (fun q =>
      if q.ID == id && !q.Deleted then { q with Deleted := true } else q) }

end gorm

/-- The next `n` round trips to the engine are executed. -/
def World.executes (w : World) (n : Nat) : Bool :=
  (w.faults.take n).all (fun f => f.isNone)

namespace permissionRepository

/-- The loop of `GetPermissionsByRoleID`: one `First` per association row, each a
round trip; `permissions` is the slice built so far. The first error ends the call
with a nil slice. The identifier handed to `First` is the one read from the row, a
value of a `bigint` column. -/
def firstEach : List model.RolePermission → List model.Permission → World →
    (List model.Permission × Option GoError) × World
  | [], permissions, w => ((permissions, none), w)
  | rolePermission :: rest, permissions, w =>
    match w.roundTrip with
    | (some e, w1) => (([], some e), w1)
    | (none, w1) =>
      match gorm.firstPermissionByID w1.tables rolePermission.PermissionID with
      | none => (([], some GoError.ErrRecordNotFound), w1)
      | some permission => firstEach rest (permissions ++ [permission]) w1

/-- Embeds the first statement of `GetPermissionsByRoleID`,
`repo.DBConn.Where("role_id = ?", roleID).Find(&rolePermissions).Error`, together with
the slice it fills: the role identifier is encoded, and then the query is one round
trip. -/
def findRolePermissions (w : World) (roleID : Nat) :
    (List model.RolePermission × Option GoError) × World :=
  match sql.encodeArgs [roleID] with
  | some e => (([], some e), w)
  | none =>
    match w.roundTrip with
    | (some e, w1) => (([], some e), w1)
    | (none, w1) => ((gorm.rolePermissionsByRole w1.tables roleID, none), w1)

/-- Embeds `permissionRepository.GetPermissionsByRoleID`. -/
def GetPermissionsByRoleID (w : World) (roleID : Nat) :
    (List model.Permission × Option GoError) × World :=
  match findRolePermissions w roleID with
  | ((_, some e), w1) => (([], some e), w1)
  | ((rolePermissions, none), w1) => firstEach rolePermissions [] w1

/-- Embeds `permissionRepository.DeletePermission`: the identifier is encoded, and
then the update is one round trip. -/
def DeletePermission (w : World) (permissionID : Nat) : Option GoError × World :=
  match sql.encodeArgs [permissionID] with
  | some e => (some e, w)
  | none =>
    match w.roundTrip with
    | (some e, w1) => (some e, w1)
    | (none, w1) =>
      (none, World.mk (gorm.softDeletePermission permissionID w1.tables) w1.faults)

end permissionRepository

/-! ## Examples used below -/

/-- The ASCII part of `unicode.ToLower`. -/
def asciiLower (c : Char) : Char := c.toLower

def noTables : Tables := Tables.mk [] [] [] [] []

def alice : model.User := model.User.mk 0 "alice" "secret1" "alice@x.com" false

def alice2 : model.User := model.User.mk 0 "alice" "secret2" "other@x.com" false

/-- A stored user named alice, with identifier 1. -/
def storedAlice : model.User := model.User.mk 1 "alice" "secret1" "alice@x.com" false

def aliceTables : Tables := Tables.mk [storedAlice] [] [] [] []

/-- A key of 32 bytes. -/
def key7 : List UInt8 := List.replicate 32 7

/-- Another key of 32 bytes. -/
def key9 : List UInt8 := List.replicate 32 9

/-- The claims of alice as a login at clock value 1000 stamps them. -/
def aliceClaims : Claims := Claims.mk "1" "alice" "alice@x.com" 1900 1000 1000

/-- A stand-in for `json.Marshal`: the bytes of the user name. -/
def toyMarshal (c : Claims) : List UInt8 :=
  c.Username.data.map (fun (ch : Char) => UInt8.ofNat ch.toNat)

/-- A stand-in for the libraries: tokens made under `key7` read "v2.local.seven" and
open under `key7` alone, tokens made under any other key read "v2.local.other" and
open under no key. -/
def toyPaseto : Paseto where
  Marshal := fun c => Except.ok (toyMarshal c)
  Encrypt := fun key _ _ =>
    Except.ok (if key = key7 then "v2.local.seven" else "v2.local.other")
  Decrypt := fun token key =>
    if token = "v2.local.seven" ∧ key = key7 then Except.ok aliceClaims
    else Except.error (GoError.Paseto "invalid token authentication")

/-- A stand-in for bcrypt: the hash of a password is the password. -/
def toyCheckPassword (hashedPassword password : String) : Bool :=
  hashedPassword == password

/-- A process whose store holds alice, whose key file holds `key9`, and whose
entropy source delivers `key7`, a nonce, `key9` and a nonce. -/
def process0 : Process :=
  Process.mk (World.reliable aliceTables) (KeyFile.mk (some key9) none)
    (Reader.mk (List.replicate 32 7 ++ List.replicate 24 1 ++ List.replicate 32 9
      ++ List.replicate 24 2))

/-- The process after alice's first login from `process0`: the key file holds `key7`. -/
def process1 : Process :=
  Process.mk (World.reliable aliceTables) (KeyFile.mk (some key7) none)
    (Reader.mk (List.replicate 32 9 ++ List.replicate 24 2))

/-- The process after alice's second login: the key file holds `key9`. -/
def process2 : Process :=
  Process.mk (World.reliable aliceTables) (KeyFile.mk (some key9) none) (Reader.mk [])

/-- A store with alice, the role "admin" (identifier 1) and the permissions 1 and 3. -/
def rbacTables : Tables :=
  Tables.mk [storedAlice] [model.Role.mk 1 "admin" false]
    [model.Permission.mk 1 "read" false, model.Permission.mk 3 "write" false] [] []

/-- A second and a third stored user. -/
def storedBob : model.User := model.User.mk 2 "bob" "secret2" "bob@x.com" false

def storedCarol : model.User := model.User.mk 3 "carol" "secret3" "carol@x.com" false

/-- A store with the three users alice, bob and carol. -/
def threeUsers : Tables := Tables.mk [storedAlice, storedBob, storedCarol] [] [] [] []

/-- A stand-in for `strconv.Atoi` that reads the numerals the examples use. -/
def toyAtoi (s : String) : Option Int :=
  if s = "0" then some 0 else if s = "1" then some 1 else if s = "2" then some 2
  else if s = "100" then some 100 else none

/-- A user whose name is three blanks. -/
def blankUser : model.User := model.User.mk 0 "   " "secret1" "a@x.com" false

/-- A store whose only user has the empty name. -/
def namelessTables : Tables := Tables.mk [model.User.mk 7 "" "secret7" "n@x.com" false] [] [] [] []

/-- An implementation of the user repository, without state, whose every call fails
with the same error of the engine. -/
def brokenUserRepo : repository.UserRepository Unit where
  CreateUser := fun st u => ((some (GoError.Storage "connection refused"), u), st)
  GetUserByUsername := fun st _ => ((none, some (GoError.Storage "connection refused")), st)
  GetUserByID := fun st _ => ((none, some (GoError.Storage "connection refused")), st)
  UpdateUser := fun st u => ((some (GoError.Storage "connection refused"), u), st)
  DeleteUser := fun st _ => (some (GoError.Storage "connection refused"), st)
  ListUsers := fun st _ _ => (([], some (GoError.Storage "connection refused")), st)
  SearchUsers := fun st _ _ _ => (([], some (GoError.Storage "connection refused")), st)
  CountUsers := fun st => ((0, some (GoError.Storage "connection refused")), st)

/-- The role repository whose every call fails. -/
def brokenRoleRepo : repository.RoleRepository Unit where
  CreateRole := fun st _ => ((none, some (GoError.Storage "connection refused")), st)
  GetRoleByID := fun st _ => ((none, some (GoError.Storage "connection refused")), st)
  UpdateRole := fun st _ => ((none, some (GoError.Storage "connection refused")), st)
  DeleteRole := fun st _ => (some (GoError.Storage "connection refused"), st)
  AddUserRole := fun st _ _ => (some (GoError.Storage "connection refused"), st)
  RemoveUserRole := fun st _ _ => (some (GoError.Storage "connection refused"), st)
  GetAllRoles := fun st => (([], some (GoError.Storage "connection refused")), st)
  GetRolesByUserID := fun st _ => (([], some (GoError.Storage "connection refused")), st)
  UserHasRole := fun st _ _ => ((false, some (GoError.Storage "connection refused")), st)

/-- The permission repository whose every call fails. -/
def brokenPermissionRepo : repository.PermissionRepository Unit where
  GetAllPermissions := fun st => (([], some (GoError.Storage "connection refused")), st)
  GetPermissionByID := fun st _ =>
    ((service.zeroPermission, some (GoError.Storage "connection refused")), st)
  CreatePermission := fun st p => ((p, some (GoError.Storage "connection refused")), st)
  UpdatePermission := fun st p => ((p, some (GoError.Storage "connection refused")), st)
  DeletePermission := fun st _ => (some (GoError.Storage "connection refused"), st)
  AssignPermissionToRole := fun st _ _ => (some (GoError.Storage "connection refused"), st)
  RemovePermissionFromRole := fun st _ _ => (some (GoError.Storage "connection refused"), st)
  GetPermissionsByRoleID := fun st _ => (([], some (GoError.Storage "connection refused")), st)
  GetRolesByPermissionID := fun st _ => (([], some (GoError.Storage "connection refused")), st)
  AddMultiplePermissionsToRole := fun st _ _ =>
    (some (GoError.Storage "connection refused"), st)
  RemoveMultiplePermissionsFromRole := fun st _ _ =>
    (some (GoError.Storage "connection refused"), st)

/-- The store of `rbacTables` after the role 1 was given to alice twice and the
permission 3 to the role 1 twice. -/
def twiceTables : Tables :=
  Tables.mk [storedAlice] [model.Role.mk 1 "admin" false]
    [model.Permission.mk 1 "read" false, model.Permission.mk 3 "write" false]
    [model.UserRole.mk 1 1 1 false, model.UserRole.mk 2 1 1 false]
    [model.RolePermission.mk 1 1 3 false, model.RolePermission.mk 2 1 3 false]

/-- A store without users: the role "admin" and the permissions 1 and 3. -/
def noUsersTables : Tables :=
  Tables.mk [] [model.Role.mk 1 "admin" false]
    [model.Permission.mk 1 "read" false, model.Permission.mk 3 "write" false] [] []

/-- A store without permissions: alice and the role "admin". -/
def noPermissionsTables : Tables :=
  Tables.mk [storedAlice] [model.Role.mk 1 "admin" false] [] [] []

/-- A store that holds the permission "read" and nothing else. -/
def permissionsOnlyTables : Tables :=
  Tables.mk [] [] [model.Permission.mk 1 "read" false] [] []

/-! ## The storage engine: basic facts -/

/-- The arguments of a statement are encoded exactly when each of them is below
2 ^ 63. -/
theorem sql.encodeArgs_eq_none (args : List Nat) :
    sql.encodeArgs args = none ↔ ∀ x ∈ args, x < 2 ^ 63 := by
  unfold sql.encodeArgs sql.maxInt64
  constructor
  · intro h x hx
    by_contra hlt
    have hany : (args.any (fun x => decide (x > 2 ^ 63 - 1))) = true := by
      rw [List.any_eq_true]
      exact ⟨x, hx, by simp only [decide_eq_true_eq]; omega⟩
    rw [if_pos hany] at h
    exact absurd h (by simp)
  · intro h
    rw [if_neg]
    rw [List.any_eq_true]
    rintro ⟨x, hx, hgt⟩
    have := h x hx
    simp only [decide_eq_true_eq] at hgt
    omega

/-- An argument of 2 ^ 63 or more is refused. -/
theorem sql.encodeArgs_of_large (args : List Nat) (h : ∃ x ∈ args, 2 ^ 63 ≤ x) :
    sql.encodeArgs args = some sql.ErrOutOfRange := by
  cases hc : sql.encodeArgs args with
  | none =>
    obtain ⟨x, hx, hge⟩ := h
    have := (sql.encodeArgs_eq_none args).1 hc x hx
    omega
  | some e =>
    unfold sql.encodeArgs at hc
    split at hc
    · exact hc.symm
    · exact absurd hc (by simp)

theorem World.roundTrip_tables (w : World) : w.roundTrip.2.tables = w.tables := by
  unfold World.roundTrip
  cases w.faults <;> rfl

theorem World.roundTrip_reliable (t : Tables) :
    (World.reliable t).roundTrip = (none, World.reliable t) := rfl

theorem gorm.leastBy_eq_none {α : Type} (key : α → Nat) (l : List α) :
    gorm.leastBy key l = none ↔ l = [] := by
  cases l with
  | nil => simp [gorm.leastBy]
  | cons r rest =>
    simp only [gorm.leastBy]
    cases gorm.leastBy key rest with
    | none => simp
    | some b => by_cases h : key b < key r <;> simp [h]

theorem gorm.leastBy_mem {α : Type} (key : α → Nat) (l : List α) (r : α)
    (h : gorm.leastBy key l = some r) : r ∈ l := by
  induction l generalizing r with
  | nil => simp [gorm.leastBy] at h
  | cons a rest ih =>
    simp only [gorm.leastBy] at h
    cases hb : gorm.leastBy key rest with
    | none =>
      rw [hb] at h
      simp only [Option.some.injEq] at h
      simp [h]
    | some b =>
      rw [hb] at h
      by_cases hlt : key b < key a
      · simp only [hlt, if_true, Option.some.injEq] at h
        subst h
        exact List.mem_cons_of_mem _ (ih b hb)
      · simp only [hlt, if_false, Option.some.injEq] at h
        simp [h]

theorem gorm.firstUserByUsername_eq_none (t : Tables) (username : String) :
    gorm.firstUserByUsername t username = none ↔
      ∀ x ∈ t.users, x.Deleted = false → x.Username ≠ username := by
  unfold gorm.firstUserByUsername
  rw [gorm.leastBy_eq_none, List.filter_eq_nil_iff]
  constructor
  · intro h x hx hd heq
    have := h x hx
    simp [heq, hd] at this
  · intro h x hx
    by_cases hd : x.Deleted = false
    · have := h x hx hd
      simp [this]
    · simp at hd
      simp [hd]

theorem gorm.firstUserByUsername_some (t : Tables) (username : String) (u : model.User)
    (h : gorm.firstUserByUsername t username = some u) :
    u ∈ t.users ∧ u.Username = username ∧ u.Deleted = false := by
  unfold gorm.firstUserByUsername at h
  have hm := gorm.leastBy_mem _ _ _ h
  rw [List.mem_filter] at hm
  obtain ⟨h1, h2⟩ := hm
  simp at h2
  exact ⟨h1, h2.1, h2.2⟩

/-- The lookup never answers `nil, nil`: it reports an error or a user. -/
theorem userRepository.GetUserByUsername_result (w : World) (username : String) :
    (∃ e, (userRepository.GetUserByUsername w username).1 = (none, some e)) ∨
    (∃ u, (userRepository.GetUserByUsername w username).1 = (some u, none)) := by
  unfold userRepository.GetUserByUsername
  rcases hrt : w.roundTrip with ⟨f, w1⟩
  cases f with
  | some e => exact Or.inl ⟨e, rfl⟩
  | none =>
    cases hf : gorm.firstUserByUsername w1.tables username with
    | none => exact Or.inl ⟨GoError.ErrRecordNotFound, by simp [hf]⟩
    | some u => exact Or.inr ⟨u, by simp [hf]⟩

theorem userRepository.GetUserByUsername_tables (w : World) (username : String) :
    (userRepository.GetUserByUsername w username).2.tables = w.tables := by
  unfold userRepository.GetUserByUsername
  have ht := World.roundTrip_tables w
  rcases hrt : w.roundTrip with ⟨f, w1⟩
  rw [hrt] at ht
  cases f with
  | some e => exact ht
  | none =>
    cases hf : gorm.firstUserByUsername w1.tables username <;> simpa [hf] using ht

/-- When no live row bears the name, the lookup reports an error. -/
theorem userRepository.GetUserByUsername_absent (w : World) (username : String)
    (hfree : ∀ x ∈ w.tables.users, x.Deleted = false → x.Username ≠ username) :
    ∃ e, (userRepository.GetUserByUsername w username).1 = (none, some e) := by
  unfold userRepository.GetUserByUsername
  have ht := World.roundTrip_tables w
  rcases hrt : w.roundTrip with ⟨f, w1⟩
  rw [hrt] at ht
  cases f with
  | some e => exact ⟨e, rfl⟩
  | none =>
    simp only at ht
    have := (gorm.firstUserByUsername_eq_none w1.tables username).2 (by rw [ht]; exact hfree)
    exact ⟨GoError.ErrRecordNotFound, by simp [this]⟩

/-- When the round trip is executed and a live row bears the name, the lookup
returns a user and no error. -/
theorem userRepository.GetUserByUsername_present (w : World) (username : String)
    (hrt : w.roundTrip.1 = none)
    (hheld : ∃ x ∈ w.tables.users, x.Deleted = false ∧ x.Username = username) :
    ∃ u, (userRepository.GetUserByUsername w username).1 = (some u, none) := by
  unfold userRepository.GetUserByUsername
  have ht := World.roundTrip_tables w
  rcases hrt2 : w.roundTrip with ⟨f, w1⟩
  rw [hrt2] at ht hrt
  simp only at ht hrt
  subst hrt
  cases hf : gorm.firstUserByUsername w1.tables username with
  | none =>
    exfalso
    obtain ⟨x, hx, hd, hn⟩ := hheld
    exact (gorm.firstUserByUsername_eq_none w1.tables username).1 hf x (by rw [ht]; exact hx) hd hn
  | some u => exact ⟨u, by simp [hf]⟩

/-! ## UserService.CreateUser -/

/-- The service never reaches the insert: whatever the lookup answers, an error is
returned and the tables stay as they were. -/
theorem UserService.CreateUser_never_succeeds (lower : Char → Char) (w : World)
    (user : Option model.User) :
    (UserService.CreateUser lower w user).1.1 ≠ none ∧
    (UserService.CreateUser lower w user).2.tables = w.tables := by
  unfold UserService.CreateUser
  cases hv : validateInput user with
  | some e => simp
  | none =>
    cases user with
    | none => simp
    | some u0 =>
      simp only
      have ht := userRepository.GetUserByUsername_tables w (sanitizeInput lower u0).Username
      rcases userRepository.GetUserByUsername_result w (sanitizeInput lower u0).Username with
        ⟨e, he⟩ | ⟨u, hu⟩
      · rcases hr : userRepository.GetUserByUsername w (sanitizeInput lower u0).Username with
          ⟨⟨a, b⟩, w1⟩
        rw [hr] at he ht
        simp only [Prod.mk.injEq] at he
        obtain ⟨rfl, rfl⟩ := he
        exact ⟨by simp, ht⟩
      · rcases hr : userRepository.GetUserByUsername w (sanitizeInput lower u0).Username with
          ⟨⟨a, b⟩, w1⟩
        rw [hr] at hu ht
        simp only [Prod.mk.injEq] at hu
        obtain ⟨rfl, rfl⟩ := hu
        exact ⟨by simp, ht⟩

/-- C1 (the code departs from the claim). For every user that passes validation and
whose sanitized username no stored live user holds, on every storage engine,
`UserService.CreateUser` returns the error InternalServerError "An unexpected error
occurred" and stores nothing: the lookup reports the missing row as
`gorm.ErrRecordNotFound`, which the service takes for a failure. -/
theorem CreateUser_fresh_username_is_refused (lower : Char → Char) (w : World)
    (u : model.User) (hv : validateInput (some u) = none)
    (hfree : ∀ x ∈ w.tables.users, x.Deleted = false →
      x.Username ≠ (sanitizeInput lower u).Username) :
    (UserService.CreateUser lower w (some u)).1.1
      = some (GoError.AppError 500 "An unexpected error occurred") ∧
    (UserService.CreateUser lower w (some u)).2.tables = w.tables := by
  refine ⟨?_, (UserService.CreateUser_never_succeeds lower w (some u)).2⟩
  unfold UserService.CreateUser
  rw [hv]
  simp only
  obtain ⟨e, he⟩ := userRepository.GetUserByUsername_absent w _ hfree
  rcases hr : userRepository.GetUserByUsername w (sanitizeInput lower u).Username with
    ⟨⟨a, b⟩, w1⟩
  rw [hr] at he
  simp only [Prod.mk.injEq] at he
  obtain ⟨rfl, rfl⟩ := he
  rfl

/-- C1 at the scenario of the specification: creating alice in an empty store, on an
engine that executes every statement, fails with InternalServerError, and a lookup
of "alice" afterwards finds no user. -/
theorem CreateUser_fresh_username_is_refused_witness :
    validateInput (some alice) = none ∧
    ((UserService.CreateUser asciiLower (World.reliable noTables) (some alice)).1.1
      = some (GoError.AppError 500 "An unexpected error occurred") ∧
    (UserService.CreateUser asciiLower (World.reliable noTables) (some alice)).2.tables
      = noTables) ∧
    (UserService.GetUserByUsername
      (UserService.CreateUser asciiLower (World.reliable noTables) (some alice)).2 "alice").1.1
      = none :=
  ⟨by decide,
   CreateUser_fresh_username_is_refused asciiLower (World.reliable noTables) alice
     (by decide) (by intro x hx; cases hx),
   by decide⟩

/-- C2 (as stated, refuted). Two valid users sharing the username "alice", created
one after the other from an empty store: both calls fail, each with
InternalServerError, so there is no success and no failure of a DuplicateKey kind. -/
theorem CreateUser_shared_username_both_fail :
    validateInput (some alice) = none ∧ validateInput (some alice2) = none ∧
    (UserService.CreateUser asciiLower (World.reliable noTables) (some alice)).1.1
      = some (GoError.AppError errors.CodeInternalServerError "An unexpected error occurred") ∧
    (UserService.CreateUser asciiLower
      (UserService.CreateUser asciiLower (World.reliable noTables) (some alice)).2
      (some alice2)).1.1
      = some (GoError.AppError errors.CodeInternalServerError "An unexpected error occurred") := by
  decide

/-- Validation looks at the e-mail address only for the sign "@". -/
theorem validateInput_email (u : model.User) (email : String)
    (hv : validateInput (some u) = none) (he : strings.Contains email "@" = true) :
    validateInput (some { u with Email := email }) = none := by
  unfold validateInput at hv ⊢
  simp only at hv ⊢
  by_cases h1 : (decide (len u.Username < 3) || decide (len u.Username > 255)) = true
  · rw [if_pos h1] at hv
    simp at hv
  · rw [if_neg h1] at hv ⊢
    by_cases h2 : len u.PasswordHash < 6
    · rw [if_pos h2] at hv
      simp at hv
    · rw [if_neg h2] at hv ⊢
      simp [he]

/-- A username that a stored live user holds is answered with BadRequest. -/
theorem UserService.CreateUser_held (lower : Char → Char) (w : World)
    (u : model.User) (hv : validateInput (some u) = none)
    (hrt : w.roundTrip.1 = none)
    (hheld : ∃ x ∈ w.tables.users, x.Deleted = false ∧
      x.Username = (sanitizeInput lower u).Username) :
    (UserService.CreateUser lower w (some u)).1.1
      = some (GoError.AppError errors.CodeBadRequest "Username already exists") := by
  unfold UserService.CreateUser
  rw [hv]
  simp only
  obtain ⟨x, hx⟩ := userRepository.GetUserByUsername_present w _ hrt hheld
  rcases hr : userRepository.GetUserByUsername w (sanitizeInput lower u).Username with
    ⟨⟨a, b⟩, w1⟩
  rw [hr] at hx
  simp only [Prod.mk.injEq] at hx
  obtain ⟨rfl, rfl⟩ := hx
  rfl

/-- C2 (amended). For every user that passes validation and whose sanitized username
a stored live user already holds, when the lookup is executed
`UserService.CreateUser` fails with the AppError of code BadRequest (400) and message
"Username already exists" and stores nothing; BadRequest is one of the three codes
the error package declares, of which none is a DuplicateKey code; and the answer is
the same whatever e-mail address (with an "@") the user carries: the service looks
up the username only. -/
theorem CreateUser_held_username_is_bad_request (lower : Char → Char) (w : World)
    (u : model.User) (hv : validateInput (some u) = none)
    (hrt : w.roundTrip.1 = none)
    (hheld : ∃ x ∈ w.tables.users, x.Deleted = false ∧
      x.Username = (sanitizeInput lower u).Username) :
    (UserService.CreateUser lower w (some u)).1.1
      = some (GoError.AppError errors.CodeBadRequest "Username already exists") ∧
    (UserService.CreateUser lower w (some u)).2.tables = w.tables ∧
    errors.CodeBadRequest = 400 ∧ errors.CodeBadRequest ≠ errors.CodeInternalServerError ∧
    errors.CodeBadRequest ≠ errors.CodeNotFound ∧
    ∀ email, strings.Contains email "@" = true →
      (UserService.CreateUser lower w (some { u with Email := email })).1.1
        = (UserService.CreateUser lower w (some u)).1.1 := by
  refine ⟨UserService.CreateUser_held lower w u hv hrt hheld,
    (UserService.CreateUser_never_succeeds lower w (some u)).2, rfl,
    by decide, by decide, fun email he => ?_⟩
  rw [UserService.CreateUser_held lower w u hv hrt hheld,
    UserService.CreateUser_held lower w { u with Email := email }
      (validateInput_email u email hv he) hrt hheld]

/-- C2 (amended) at a concrete input: a second alice against a store that holds alice. -/
theorem CreateUser_held_username_is_bad_request_witness :
    (UserService.CreateUser asciiLower (World.reliable aliceTables) (some alice2)).1.1
      = some (GoError.AppError errors.CodeBadRequest "Username already exists") ∧
    (UserService.CreateUser asciiLower (World.reliable aliceTables) (some alice2)).2.tables
      = aliceTables :=
  have h := CreateUser_held_username_is_bad_request asciiLower (World.reliable aliceTables)
    alice2 (by decide) rfl ⟨storedAlice, by decide, by decide, by decide⟩
  ⟨h.1, h.2.1⟩

/-! ## Token service -/

theorem GeneratePasetoToken_of_size (lib : Paseto) (now : Int) (nonce : List UInt8)
    (claims : Claims) (key : List UInt8) (hkey : key.length = 32) :
    GeneratePasetoToken lib now nonce claims key =
      match lib.Marshal (stamp now claims) with
      | Except.error e => (("", some e), stamp now claims)
      | Except.ok jsonClaims =>
        match lib.Encrypt key jsonClaims nonce with
        | Except.error e => (("", some e), stamp now claims)
        | Except.ok token => ((token, none), stamp now claims) := by
  unfold GeneratePasetoToken
  simp [hkey, chacha20poly1305.KeySize]

theorem VerifyAndExtractClaims_of_size (lib : Paseto) (now : Int) (token : String)
    (key : List UInt8) (hkey : key.length = 32) :
    VerifyAndExtractClaims lib now token key =
      match lib.Decrypt token key with
      | Except.error e => (none, some e)
      | Except.ok claims =>
        if now < claims.NotBefore then
          (none, some (errors.New "token is not valid yet"))
        else if now > claims.ExpiresAt then
          (none, some (errors.New "token is expired"))
        else
          (some claims, none) := by
  unfold VerifyAndExtractClaims
  simp [hkey, chacha20poly1305.KeySize]

/-- A returned error comes with nil claims, a returned claims value with a nil error. -/
theorem VerifyAndExtractClaims_closed (lib : Paseto) (now : Int) (token : String)
    (key : List UInt8) :
    ((VerifyAndExtractClaims lib now token key).2 ≠ none →
      (VerifyAndExtractClaims lib now token key).1 = none) ∧
    ((VerifyAndExtractClaims lib now token key).1 ≠ none →
      (VerifyAndExtractClaims lib now token key).2 = none) := by
  unfold VerifyAndExtractClaims
  split
  · simp
  · split
    · simp
    · split
      · simp
      · split <;> simp

/-- C3. Round trip: for every claims value, every key of 32 bytes and every clock
value `now`, if the library serializes the stamped claims, seals the payload under
the key, and opens under the same key what it sealed, then `GeneratePasetoToken`
returns the token and `VerifyAndExtractClaims` with the same key, at the same clock
value and at every later one up to `now + 900`, succeeds and returns claims with the
UserID, Username and Email of the input (and the three time stamps of the issue). -/
theorem token_round_trip (lib : Paseto) (claims : Claims) (key nonce : List UInt8)
    (now later : Int) (payload : List UInt8) (token : String)
    (hkey : key.length = 32)
    (hmarshal : lib.Marshal (stamp now claims) = Except.ok payload)
    (hseal : lib.Encrypt key payload nonce = Except.ok token)
    (hopen : lib.Decrypt token key = Except.ok (stamp now claims))
    (hnow : now ≤ later) (hlater : later ≤ now + 900) :
    (GeneratePasetoToken lib now nonce claims key).1 = (token, none) ∧
    VerifyAndExtractClaims lib now token key = (some (stamp now claims), none) ∧
    VerifyAndExtractClaims lib later token key = (some (stamp now claims), none) ∧
    (stamp now claims).UserID = claims.UserID ∧
    (stamp now claims).Username = claims.Username ∧
    (stamp now claims).Email = claims.Email := by
  refine ⟨?_, ?_, ?_, rfl, rfl, rfl⟩
  · rw [GeneratePasetoToken_of_size lib now nonce claims key hkey, hmarshal]
    simp only [hseal]
  · rw [VerifyAndExtractClaims_of_size lib now token key hkey, hopen]
    simp [stamp]
  · rw [VerifyAndExtractClaims_of_size lib later token key hkey, hopen]
    have h1 : ¬ later < now := not_lt.mpr hnow
    have h2 : ¬ later > now + 900 := not_lt.mpr hlater
    simp [stamp, h1, h2]

/-- C3 at a concrete input: alice's claims under `key7` at clock value 1000. -/
theorem token_round_trip_witness :
    (GeneratePasetoToken toyPaseto 1000 [] (loginClaims storedAlice) key7).1
      = ("v2.local.seven", none) ∧
    VerifyAndExtractClaims toyPaseto 1000 "v2.local.seven" key7 = (some aliceClaims, none) :=
  have h := token_round_trip toyPaseto (loginClaims storedAlice) key7 [] 1000 1000
    (toyMarshal (stamp 1000 (loginClaims storedAlice))) "v2.local.seven" (by decide) rfl rfl
    rfl (by decide) (by decide)
  ⟨h.1, h.2.1⟩

/-- C4. For every claims value and every key of 32 bytes, `GeneratePasetoToken`
called at clock value `now` leaves in the claims IssuedAt = now, NotBefore = now and
ExpiresAt = now + 900 and the caller's UserID, Username and Email; the payload that
is serialized and sealed is this claims value; and the outcome does not depend on
the time stamps the caller passed in. -/
theorem token_time_stamps (lib : Paseto) (claims : Claims) (key nonce : List UInt8)
    (now exp iat nbf : Int) (hkey : key.length = 32) :
    (GeneratePasetoToken lib now nonce claims key).2.IssuedAt = now ∧
    (GeneratePasetoToken lib now nonce claims key).2.NotBefore = now ∧
    (GeneratePasetoToken lib now nonce claims key).2.ExpiresAt = now + 900 ∧
    (GeneratePasetoToken lib now nonce claims key).2
      = Claims.mk claims.UserID claims.Username claims.Email (now + 900) now now ∧
    (GeneratePasetoToken lib now nonce claims key).1 =
      (match lib.Marshal (Claims.mk claims.UserID claims.Username claims.Email
          (now + 900) now now) with
        | Except.error e => ("", some e)
        | Except.ok payload =>
          match lib.Encrypt key payload nonce with
          | Except.error e => ("", some e)
          | Except.ok token => (token, none)) ∧
    GeneratePasetoToken lib now nonce
        { claims with ExpiresAt := exp, IssuedAt := iat, NotBefore := nbf } key
      = GeneratePasetoToken lib now nonce claims key := by
  have hs : stamp now claims
      = Claims.mk claims.UserID claims.Username claims.Email (now + 900) now now := rfl
  have hg := GeneratePasetoToken_of_size lib now nonce claims key hkey
  have hg2 := GeneratePasetoToken_of_size lib now nonce
    { claims with ExpiresAt := exp, IssuedAt := iat, NotBefore := nbf } key hkey
  have hs2 : stamp now { claims with ExpiresAt := exp, IssuedAt := iat, NotBefore := nbf }
      = stamp now claims := rfl
  rw [hs2] at hg2
  rw [hg2, hg, hs]
  cases hm : lib.Marshal (Claims.mk claims.UserID claims.Username claims.Email
      (now + 900) now now) with
  | error e => simp
  | ok payload =>
    cases he : lib.Encrypt key payload nonce with
    | error e => simp [he]
    | ok token => simp [he]

/-- C4 at a concrete input: stale time stamps are overwritten at clock value 1000. -/
theorem token_time_stamps_witness :
    (GeneratePasetoToken toyPaseto 1000 [] (Claims.mk "1" "alice" "alice@x.com" 5 6 7)
      key7).2 = aliceClaims :=
  (token_time_stamps toyPaseto (Claims.mk "1" "alice" "alice@x.com" 5 6 7) key7 [] 1000
    0 0 0 (by decide)).2.2.2.1

/-- C5. For every token that opens under a key of 32 bytes to claims `c` and every
clock value `now`: `VerifyAndExtractClaims` returns `c` with no error exactly when
`c.NotBefore ≤ now ≤ c.ExpiresAt`; when `now < c.NotBefore` it returns nil claims and
the error "token is not valid yet"; when `c.NotBefore ≤ now` and `now > c.ExpiresAt`
it returns nil claims and the error "token is expired"; and whenever it returns an
error the claims are nil. -/
theorem verify_validity_window (lib : Paseto) (token : String) (key : List UInt8)
    (c : Claims) (now : Int) (hkey : key.length = 32)
    (hopen : lib.Decrypt token key = Except.ok c) :
    (VerifyAndExtractClaims lib now token key = (some c, none)
      ↔ c.NotBefore ≤ now ∧ now ≤ c.ExpiresAt) ∧
    (now < c.NotBefore → VerifyAndExtractClaims lib now token key
      = (none, some (GoError.New "token is not valid yet"))) ∧
    (c.NotBefore ≤ now → c.ExpiresAt < now → VerifyAndExtractClaims lib now token key
      = (none, some (GoError.New "token is expired"))) ∧
    ((VerifyAndExtractClaims lib now token key).2 ≠ none →
      (VerifyAndExtractClaims lib now token key).1 = none) := by
  refine ⟨?_, ?_, ?_, (VerifyAndExtractClaims_closed lib now token key).1⟩
  · rw [VerifyAndExtractClaims_of_size lib now token key hkey, hopen]
    by_cases h1 : now < c.NotBefore
    · simp [h1]
    · by_cases h2 : now > c.ExpiresAt
      · simp [h1, h2]
      · simp only [h1, h2, if_false, true_iff]
        exact ⟨not_lt.mp h1, not_lt.mp h2⟩
  · intro h1
    rw [VerifyAndExtractClaims_of_size lib now token key hkey, hopen]
    simp [h1, errors.New]
  · intro h1 h2
    rw [VerifyAndExtractClaims_of_size lib now token key hkey, hopen]
    have h1' : ¬ now < c.NotBefore := not_lt.mpr h1
    simp [h1', h2, errors.New]

/-- C5 at a concrete input: alice's token is refused at 999 and at 1901 and accepted at
1900. -/
theorem verify_validity_window_witness :
    VerifyAndExtractClaims toyPaseto 999 "v2.local.seven" key7
      = (none, some (GoError.New "token is not valid yet")) ∧
    VerifyAndExtractClaims toyPaseto 1901 "v2.local.seven" key7
      = (none, some (GoError.New "token is expired")) ∧
    VerifyAndExtractClaims toyPaseto 1900 "v2.local.seven" key7 = (some aliceClaims, none) :=
  ⟨(verify_validity_window toyPaseto "v2.local.seven" key7 aliceClaims 999 (by decide)
      rfl).2.1 (by decide),
   (verify_validity_window toyPaseto "v2.local.seven" key7 aliceClaims 1901 (by decide)
      rfl).2.2.1 (by decide) (by decide),
   (verify_validity_window toyPaseto "v2.local.seven" key7 aliceClaims 1900 (by decide)
      rfl).1.2 (by decide)⟩

/-- A token that `GeneratePasetoToken` returns was sealed by the library under the
key, from the payload of the stamped claims. -/
theorem GeneratePasetoToken_sealed (lib : Paseto) (now : Int) (nonce : List UInt8)
    (claims : Claims) (key : List UInt8) (token : String)
    (h : (GeneratePasetoToken lib now nonce claims key).1 = (token, none)) :
    key.length = 32 ∧ ∃ payload, lib.Marshal (stamp now claims) = Except.ok payload ∧
      lib.Encrypt key payload nonce = Except.ok token := by
  unfold GeneratePasetoToken at h
  by_cases hk : key.length = 32
  · refine ⟨hk, ?_⟩
    simp only [hk, chacha20poly1305.KeySize, ne_eq, not_true_eq_false, if_false] at h
    cases hm : lib.Marshal (stamp now claims) with
    | error e => rw [hm] at h; simp at h
    | ok payload =>
      rw [hm] at h
      simp only at h
      cases he : lib.Encrypt key payload nonce with
      | error e => rw [he] at h; simp at h
      | ok t =>
        rw [he] at h
        simp only [Prod.mk.injEq, and_true] at h
        exact ⟨payload, rfl, by rw [he, h]⟩
  · simp [hk, chacha20poly1305.KeySize] at h

/-- C6. For every claims value and every two distinct keys `k1`, `k2` of 32 bytes: if
the library refuses, under `k2`, the token it sealed under `k1` (the authentication
of the sealed box), then `VerifyAndExtractClaims` with `k2` on the token that
`GeneratePasetoToken` returned for `k1` returns nil claims and the library's error,
at every clock value. -/
theorem foreign_key_is_refused (lib : Paseto) (claims : Claims) (k1 k2 nonce : List UInt8)
    (issued now : Int) (token : String)
    (hk2 : k2.length = 32) (hne : k1 ≠ k2)
    (hgen : (GeneratePasetoToken lib issued nonce claims k1).1 = (token, none))
    (hauth : ∀ payload, lib.Encrypt k1 payload nonce = Except.ok token → k1 ≠ k2 →
      ∃ e, lib.Decrypt token k2 = Except.error e) :
    ∃ e, lib.Decrypt token k2 = Except.error e ∧
      VerifyAndExtractClaims lib now token k2 = (none, some e) := by
  obtain ⟨_, payload, _, hseal⟩ := GeneratePasetoToken_sealed lib issued nonce claims k1 token hgen
  obtain ⟨e, he⟩ := hauth payload hseal hne
  refine ⟨e, he, ?_⟩
  rw [VerifyAndExtractClaims_of_size lib now token k2 hk2, he]

/-- C6 at a concrete input: a token issued under `key7` is refused under `key9`. -/
theorem foreign_key_is_refused_witness :
    (GeneratePasetoToken toyPaseto 1000 [] (loginClaims storedAlice) key7).1
      = ("v2.local.seven", none) ∧
    VerifyAndExtractClaims toyPaseto 1000 "v2.local.seven" key9
      = (none, some (GoError.Paseto "invalid token authentication")) := by
  obtain ⟨e, he, hv⟩ := foreign_key_is_refused toyPaseto (loginClaims storedAlice) key7 key9
    [] 1000 1000 "v2.local.seven" (by decide) (by decide) (by decide)
    (fun _ _ _ => ⟨GoError.Paseto "invalid token authentication", rfl⟩)
  have hd : toyPaseto.Decrypt "v2.local.seven" key9
      = Except.error (GoError.Paseto "invalid token authentication") := rfl
  rw [hd] at he
  injection he with he
  subst he
  exact ⟨by decide, hv⟩

/-- C7. For every key whose length is not 32, `GeneratePasetoToken` returns the empty
token with the error "incorrect key size" and leaves the claims as they were, and
`VerifyAndExtractClaims` returns nil claims with the same error, whatever the
libraries would have answered; for a key of 32 bytes every error either function
returns is an error of the libraries or one of the two validity errors; and
`GenerateKey` returns keys of 32 bytes only, and returns one whenever the entropy
source delivers 32 bytes. -/
theorem key_size_is_checked_first (lib : Paseto) (now : Int) (nonce key : List UInt8)
    (claims : Claims) (token : String) (r : Reader) :
    (key.length ≠ 32 →
      GeneratePasetoToken lib now nonce claims key
        = (("", some (GoError.New "incorrect key size")), claims) ∧
      VerifyAndExtractClaims lib now token key
        = (none, some (GoError.New "incorrect key size"))) ∧
    (key.length = 32 →
      (∀ e, (GeneratePasetoToken lib now nonce claims key).1.2 = some e →
        lib.Marshal (stamp now claims) = Except.error e ∨
        ∃ payload, lib.Marshal (stamp now claims) = Except.ok payload ∧
          lib.Encrypt key payload nonce = Except.error e) ∧
      (∀ e, (VerifyAndExtractClaims lib now token key).2 = some e →
        lib.Decrypt token key = Except.error e ∨
        e = GoError.New "token is not valid yet" ∨ e = GoError.New "token is expired")) ∧
    (∀ k r1, GenerateKey r = Outcome.returned (k, r1) → k.length = 32) ∧
    (32 ≤ r.bytes.length → ∃ k r1, GenerateKey r = Outcome.returned (k, r1)) := by
  refine ⟨?_, ?_, ?_, ?_⟩
  · intro hk
    constructor
    · unfold GeneratePasetoToken
      simp [hk, chacha20poly1305.KeySize, errors.New]
    · unfold VerifyAndExtractClaims
      simp [hk, chacha20poly1305.KeySize, errors.New]
  · intro hk
    constructor
    · intro e he
      rw [GeneratePasetoToken_of_size lib now nonce claims key hk] at he
      cases hm : lib.Marshal (stamp now claims) with
      | error e1 =>
        rw [hm] at he
        simp only [Option.some.injEq] at he
        exact Or.inl (by rw [he])
      | ok payload =>
        rw [hm] at he
        simp only at he
        cases hs : lib.Encrypt key payload nonce with
        | error e1 =>
          rw [hs] at he
          simp only [Option.some.injEq] at he
          exact Or.inr ⟨payload, rfl, by rw [hs, he]⟩
        | ok t => rw [hs] at he; simp at he
    · intro e he
      rw [VerifyAndExtractClaims_of_size lib now token key hk] at he
      cases hd : lib.Decrypt token key with
      | error e1 =>
        rw [hd] at he
        simp only [Option.some.injEq] at he
        exact Or.inl (by rw [he])
      | ok c =>
        rw [hd] at he
        simp only at he
        by_cases h1 : now < c.NotBefore
        · simp only [h1, if_true, Option.some.injEq, errors.New] at he
          exact Or.inr (Or.inl he.symm)
        · by_cases h2 : now > c.ExpiresAt
          · simp only [h1, h2, if_true, if_false, Option.some.injEq, errors.New] at he
            exact Or.inr (Or.inr he.symm)
          · simp [h1, h2] at he
  · intro k r1 h
    unfold GenerateKey Reader.ReadFull at h
    by_cases hl : chacha20poly1305.KeySize ≤ r.bytes.length
    · simp only [hl, if_true, Outcome.returned.injEq, Prod.mk.injEq] at h
      rw [← h.1, List.length_take]
      exact Nat.min_eq_left hl
    · simp [hl] at h
  · intro hl
    unfold GenerateKey Reader.ReadFull
    have hl2 : chacha20poly1305.KeySize ≤ r.bytes.length := hl
    exact ⟨r.bytes.take chacha20poly1305.KeySize,
      Reader.mk (r.bytes.drop chacha20poly1305.KeySize), by simp only [hl2, if_true]⟩

/-- C7 at a concrete input: the three-byte key of the unused middleware is refused by
both functions. -/
theorem key_size_is_checked_first_witness :
    GeneratePasetoToken toyPaseto 1000 [] aliceClaims [107, 101, 121]
      = (("", some (GoError.New "incorrect key size")), aliceClaims) ∧
    VerifyAndExtractClaims toyPaseto 1000 "v2.local.seven" [107, 101, 121]
      = (none, some (GoError.New "incorrect key size")) :=
  (key_size_is_checked_first toyPaseto 1000 [] [107, 101, 121] aliceClaims
    "v2.local.seven" (Reader.mk [])).1 (by decide)

/-! ## Login and the key file -/

/-- C8 (as stated, refuted). Alice logs in twice. After the first login the key file
holds `key7` and the token of that login is accepted by the private routes; the
second login succeeds and replaces the stored key by `key9`, after which the token
of the first login is refused. -/
theorem login_replaces_stored_key :
    LoginUser toyCheckPassword toyPaseto 1000 process0 "alice" "secret1"
      = Outcome.returned (Response.mk 200 (some "v2.local.seven"), process1) ∧
    process1.keyfile.content = some key7 ∧
    privateRoutes toyPaseto 1001 process1 "v2.local.seven"
      = Outcome.returned (some aliceClaims, none) ∧
    LoginUser toyCheckPassword toyPaseto 1002 process1 "alice" "secret1"
      = Outcome.returned (Response.mk 200 (some "v2.local.other"), process2) ∧
    process2.keyfile.content = some key9 ∧
    process2.keyfile.content ≠ process1.keyfile.content ∧
    privateRoutes toyPaseto 1003 process2 "v2.local.seven"
      = Outcome.returned (none, some (GoError.Paseto "invalid token authentication")) := by
  refine ⟨by decide, by decide, by decide, by decide, by decide, by decide, by decide⟩

/-- C8 (amended). Every login that is answered with status 200 has drawn a new key of
32 bytes from the entropy source and written it to the key file, whatever the file
held before; the token in the answer was sealed under that key, and the private
routes accept it at every clock value inside the validity window of the claims the
library opens it to under that key. -/
theorem login_stores_a_fresh_key (CheckPassword : String → String → Bool) (lib : Paseto)
    (now : Int) (p p1 : Process) (username password : String) (resp : Response)
    (h : LoginUser CheckPassword lib now p username password = Outcome.returned (resp, p1))
    (hok : resp.status = 200) :
    ∃ key r1 user token,
      GenerateKey p.rand = Outcome.returned (key, r1) ∧ key.length = 32 ∧
      p1.keyfile.content = some key ∧
      RetrieveKeyInFile p1.keyfile = Outcome.returned key ∧
      resp.token = some token ∧
      (GeneratePasetoToken lib now (r1.bytes.take 24) (loginClaims user) key).1
        = (token, none) ∧
      ∀ later c, lib.Decrypt token key = Except.ok c → c.NotBefore ≤ later →
        later ≤ c.ExpiresAt →
        privateRoutes lib later p1 token = Outcome.returned (some c, none) := by
  unfold LoginUser at h
  rcases hg : UserService.GetUserByUsername p.world username with ⟨⟨u, e⟩, w1⟩
  rw [hg] at h
  cases e with
  | some e =>
    simp only [Outcome.returned.injEq, Prod.mk.injEq] at h
    rw [← h.1] at hok
    simp at hok
  | none =>
    cases u with
    | none =>
      simp only [Outcome.returned.injEq, Prod.mk.injEq] at h
      rw [← h.1] at hok
      simp at hok
    | some user =>
      simp only at h
      by_cases hc : CheckPassword user.PasswordHash password = true
      · simp only [hc, Bool.not_true, Bool.false_eq_true, if_false] at h
        cases hk : GenerateKey p.rand with
        | panicked m => rw [hk] at h; simp at h
        | exited n => rw [hk] at h; simp at h
        | returned kr =>
          rcases kr with ⟨key, r1⟩
          rw [hk] at h
          simp only at h
          cases hs : StoreKeyInFile p.keyfile key with
          | panicked m => rw [hs] at h; simp at h
          | exited n => rw [hs] at h; simp at h
          | returned f1 =>
            rw [hs] at h
            simp only at h
            have hlen : key.length = 32 := by
              unfold GenerateKey Reader.ReadFull at hk
              by_cases hl : chacha20poly1305.KeySize ≤ p.rand.bytes.length
              · simp only [hl, if_true, Outcome.returned.injEq, Prod.mk.injEq] at hk
                rw [← hk.1, List.length_take]
                exact Nat.min_eq_left hl
              · simp [hl] at hk
            have hf1 : f1.content = some key := by
              unfold StoreKeyInFile at hs
              cases hw : p.keyfile.writeError with
              | some e => rw [hw] at hs; simp at hs
              | none =>
                rw [hw] at hs
                simp only [Outcome.returned.injEq] at hs
                rw [← hs]
            rcases hgen : GeneratePasetoToken lib now (r1.bytes.take 24) (loginClaims user) key
              with ⟨⟨token, err⟩, c1⟩
            rw [hgen] at h
            cases err with
            | some e =>
              simp only [Outcome.returned.injEq, Prod.mk.injEq] at h
              rw [← h.1] at hok
              simp at hok
            | none =>
              simp only [Outcome.returned.injEq, Prod.mk.injEq] at h
              obtain ⟨hresp, hp1⟩ := h
              have hkf : p1.keyfile = f1 := by rw [← hp1]
              have hret : RetrieveKeyInFile p1.keyfile = Outcome.returned key := by
                unfold RetrieveKeyInFile
                rw [hkf, hf1]
              refine ⟨key, r1, user, token, rfl, hlen, by rw [hkf, hf1], hret,
                by rw [← hresp], by rw [hgen], ?_⟩
              intro later c hopen hnbf hexp
              unfold privateRoutes
              rw [hret]
              simp only
              rw [VerifyAndExtractClaims_of_size lib later token key hlen, hopen]
              have h1 : ¬ later < c.NotBefore := not_lt.mpr hnbf
              have h2 : ¬ later > c.ExpiresAt := not_lt.mpr hexp
              simp [h1, h2]
      · simp only [Bool.not_eq_true] at hc
        simp only [hc, Bool.not_false, if_true, Outcome.returned.injEq, Prod.mk.injEq] at h
        rw [← h.1] at hok
        simp at hok

/-- C8 (amended) at a concrete input: alice's login from `process0`, whose key file
held `key9`, leaves `key7` in the key file, and the private routes accept the token
of that login one second later. -/
theorem login_stores_a_fresh_key_witness :
    process0.keyfile.content = some key9 ∧
    process1.keyfile.content = some key7 ∧
    privateRoutes toyPaseto 1001 process1 "v2.local.seven"
      = Outcome.returned (some aliceClaims, none) := by
  obtain ⟨key, r1, user, token, _, _, hc, _, ht, _, hall⟩ :=
    login_stores_a_fresh_key toyCheckPassword toyPaseto 1000 process0 process1 "alice"
      "secret1" (Response.mk 200 (some "v2.local.seven")) (by decide) rfl
  have hk : some key7 = some key := hc
  have htk : some "v2.local.seven" = some token := ht
  injection hk with hk
  injection htk with htk
  subst hk
  subst htk
  exact ⟨rfl, rfl, hall 1001 aliceClaims rfl (by decide) (by decide)⟩

/-! ## Transactions -/

theorem World.roundTrip_of_reliable (w : World) (h : w.faults = []) :
    w.roundTrip = (none, w) := by
  unfold World.roundTrip
  rw [h]

theorem gorm.Begin_tables (w : World) : (gorm.Begin w).2.tables = w.tables := by
  unfold gorm.Begin
  have ht := World.roundTrip_tables w
  rcases hrt : w.roundTrip with ⟨f, w1⟩
  rw [hrt] at ht
  cases f <;> exact ht

theorem gorm.Begin_pending (w : World) (t : Tables) : (gorm.Begin w).1.pending t = t := by
  unfold gorm.Begin
  rcases hrt : w.roundTrip with ⟨f, w1⟩
  cases f <;> rfl

theorem gorm.Begin_of_reliable (w : World) (h : w.faults = []) :
    (gorm.Begin w).1.Error = none ∧ (gorm.Begin w).2 = w := by
  unfold gorm.Begin
  rw [World.roundTrip_of_reliable w h]
  exact ⟨rfl, rfl⟩

theorem gorm.Rollback_tables (tx : gorm.Tx) (w : World) :
    (gorm.Rollback tx w).2.tables = w.tables := by
  unfold gorm.Rollback
  cases tx.Error with
  | some e => rfl
  | none =>
    have ht := World.roundTrip_tables w
    rcases hrt : w.roundTrip with ⟨f, w1⟩
    rw [hrt] at ht
    cases f <;> exact ht

/-- A commit that reports an error commits nothing; one that reports none commits
the pending writes. -/
theorem gorm.Commit_tables (tx : gorm.Tx) (w : World) :
    ((gorm.Commit tx w).1 ≠ none ∧ (gorm.Commit tx w).2.tables = w.tables) ∨
    ((gorm.Commit tx w).1 = none ∧ tx.Error = none ∧
      (gorm.Commit tx w).2.tables = tx.pending w.tables) := by
  unfold gorm.Commit
  cases hE : tx.Error with
  | some e => exact Or.inl ⟨by simp, rfl⟩
  | none =>
    have ht := World.roundTrip_tables w
    rcases hrt : w.roundTrip with ⟨f, w1⟩
    rw [hrt] at ht
    simp only at ht
    cases f with
    | some e => exact Or.inl ⟨by simp, ht⟩
    | none => exact Or.inr ⟨rfl, rfl, by simp [ht]⟩

theorem gorm.Commit_of_reliable (tx : gorm.Tx) (w : World) (h : w.faults = [])
    (hE : tx.Error = none) :
    gorm.Commit tx w = (none, World.mk (tx.pending w.tables) w.faults) := by
  unfold gorm.Commit
  rw [hE, World.roundTrip_of_reliable w h]

theorem withRolePermissions_nil (t : Tables) : withRolePermissions t [] = t := by
  unfold withRolePermissions
  simp

theorem withRolePermissions_append (t : Tables) (a b : List model.RolePermission) :
    withRolePermissions (withRolePermissions t a) b = withRolePermissions t (a ++ b) := by
  unfold withRolePermissions
  simp

theorem gorm.rolePermissionRefs_with (t : Tables) (rows : List model.RolePermission)
    (roleID permissionID : Nat) :
    gorm.rolePermissionRefs (withRolePermissions t rows) roleID permissionID
      = gorm.rolePermissionRefs t roleID permissionID := rfl

/-- One `tx.Create` of an association row, on every engine: the committed tables are
untouched; on success the handle has one more pending row, with the two identifiers. -/
theorem gorm.Tx.CreateRolePermission_spec (tx : gorm.Tx) (w : World)
    (roleID permissionID : Nat) :
    (tx.CreateRolePermission w roleID permissionID).2.tables = w.tables ∧
    ((tx.CreateRolePermission w roleID permissionID).1.1 = none →
      gorm.rolePermissionRefs (tx.pending w.tables) roleID permissionID = true ∧
      (tx.CreateRolePermission w roleID permissionID).1.2.Error = none ∧
      ∃ row : model.RolePermission,
        row.RoleID = roleID ∧ row.PermissionID = permissionID ∧ row.Deleted = false ∧
        ∀ t, (tx.CreateRolePermission w roleID permissionID).1.2.pending t
          = withRolePermissions (tx.pending t) [row]) := by
  unfold gorm.Tx.CreateRolePermission
  cases hE : tx.Error with
  | some e => exact ⟨rfl, by simp⟩
  | none =>
    have ht := World.roundTrip_tables w
    rcases hrt : w.roundTrip with ⟨f, w1⟩
    rw [hrt] at ht
    simp only at ht
    cases f with
    | some e => exact ⟨ht, by simp⟩
    | none =>
      simp only
      by_cases hr : gorm.rolePermissionRefs (tx.pending w1.tables) roleID permissionID = true
      · rw [if_pos hr]
        refine ⟨ht, fun _ => ⟨by rw [← ht]; exact hr, rfl, ?_⟩⟩
        exact ⟨gorm.newRolePermission (tx.pending w1.tables) roleID permissionID,
          rfl, rfl, rfl, fun t => rfl⟩
      · rw [if_neg hr]
        exact ⟨ht, by simp⟩

/-- One `tx.Create` on an engine that executes every round trip. -/
theorem gorm.Tx.CreateRolePermission_of_reliable (tx : gorm.Tx) (w : World)
    (roleID permissionID : Nat) (h : w.faults = []) (hE : tx.Error = none) :
    (tx.CreateRolePermission w roleID permissionID).2 = w ∧
    ((tx.CreateRolePermission w roleID permissionID).1.1 = none ↔
      gorm.rolePermissionRefs (tx.pending w.tables) roleID permissionID = true) := by
  unfold gorm.Tx.CreateRolePermission
  rw [hE, World.roundTrip_of_reliable w h]
  simp only
  by_cases hr : gorm.rolePermissionRefs (tx.pending w.tables) roleID permissionID = true
  · simp [hr]
  · simp [hr]

/-! ## AddMultiplePermissionsToRole -/

/-- The loop on every engine: the committed tables are untouched; when it ends
without an error every insert found its foreign keys and the handle has one more
pending row per identifier, in the order of the list. -/
theorem permissionRepository.createEach_spec (roleID : Nat) (ids : List Nat) :
    ∀ (tx : gorm.Tx) (w : World),
    (permissionRepository.createEach roleID ids tx w).2.tables = w.tables ∧
    ((permissionRepository.createEach roleID ids tx w).1.1 = none →
      (∀ p ∈ ids, gorm.rolePermissionRefs (tx.pending w.tables) roleID p = true) ∧
      (permissionRepository.createEach roleID ids tx w).1.2.Error = tx.Error ∧
      ∃ rows : List model.RolePermission,
        rows.map (fun r => (r.RoleID, r.PermissionID, r.Deleted))
          = ids.map (fun p => (roleID, p, false)) ∧
        ∀ t, (permissionRepository.createEach roleID ids tx w).1.2.pending t
          = withRolePermissions (tx.pending t) rows) := by
  induction ids with
  | nil =>
    intro tx w
    refine ⟨rfl, fun _ => ⟨by simp, rfl, [], rfl, fun t => ?_⟩⟩
    rw [withRolePermissions_nil]
    rfl
  | cons p rest ih =>
    intro tx w
    have hc := gorm.Tx.CreateRolePermission_spec tx w roleID p
    unfold permissionRepository.createEach
    rcases hr : tx.CreateRolePermission w roleID p with ⟨⟨e, tx1⟩, w1⟩
    rw [hr] at hc
    simp only at hc
    cases e with
    | some e => exact ⟨hc.1, by simp⟩
    | none =>
      simp only
      obtain ⟨ht, hs⟩ := hc
      obtain ⟨hrefs, hE1, row, hrow1, hrow2, hrow3, hpend⟩ := hs rfl
      obtain ⟨iht, ihs⟩ := ih tx1 w1
      refine ⟨by rw [iht, ht], fun hnone => ?_⟩
      obtain ⟨hall, hE2, rows, hrows, hp2⟩ := ihs hnone
      have hE : tx.Error = none := by
        unfold gorm.Tx.CreateRolePermission at hr
        cases hE0 : tx.Error with
        | none => rfl
        | some e0 => rw [hE0] at hr; simp at hr
      refine ⟨?_, by rw [hE2, hE1, hE], row :: rows, ?_, fun t => ?_⟩
      · intro q hq
        rcases List.mem_cons.1 hq with rfl | hq
        · exact hrefs
        · have := hall q hq
          rw [hpend, ht, gorm.rolePermissionRefs_with] at this
          exact this
      · simp [hrows, hrow1, hrow2, hrow3]
      · rw [hp2, hpend, withRolePermissions_append]
        rfl

/-- The loop on an engine that executes every round trip: it ends without an error
when every insert finds its foreign keys. -/
theorem permissionRepository.createEach_of_reliable (roleID : Nat) (ids : List Nat) :
    ∀ (tx : gorm.Tx) (w : World), w.faults = [] → tx.Error = none →
    (∀ p ∈ ids, gorm.rolePermissionRefs (tx.pending w.tables) roleID p = true) →
    (permissionRepository.createEach roleID ids tx w).1.1 = none ∧
    (permissionRepository.createEach roleID ids tx w).2 = w := by
  induction ids with
  | nil => intro tx w _ _ _; exact ⟨rfl, rfl⟩
  | cons p rest ih =>
    intro tx w hw hE hall
    have hrel := gorm.Tx.CreateRolePermission_of_reliable tx w roleID p hw hE
    have hc := gorm.Tx.CreateRolePermission_spec tx w roleID p
    unfold permissionRepository.createEach
    rcases hr : tx.CreateRolePermission w roleID p with ⟨⟨e, tx1⟩, w1⟩
    rw [hr] at hc hrel
    simp only at hc hrel
    obtain ⟨hw1, hiff⟩ := hrel
    have he : e = none := hiff.2 (hall p (List.mem_cons_self _ _))
    subst he
    subst hw1
    simp only
    obtain ⟨_, hE1, row, _, _, _, hpend⟩ := hc.2 rfl
    apply ih tx1 w1 hw hE1
    intro q hq
    rw [hpend, gorm.rolePermissionRefs_with]
    exact hall q (List.mem_cons_of_mem _ hq)

/-- The repository call on every engine: either an error and the committed tables
as before, or no error and one more committed row per identifier. -/
theorem permissionRepository.AddMultiplePermissionsToRole_spec (w : World) (roleID : Nat)
    (ids : List Nat) :
    ((permissionRepository.AddMultiplePermissionsToRole w roleID ids).1 ≠ none ∧
      (permissionRepository.AddMultiplePermissionsToRole w roleID ids).2.tables = w.tables) ∨
    ((permissionRepository.AddMultiplePermissionsToRole w roleID ids).1 = none ∧
      (∀ p ∈ ids, gorm.rolePermissionRefs w.tables roleID p = true) ∧
      ∃ rows : List model.RolePermission,
        rows.map (fun r => (r.RoleID, r.PermissionID, r.Deleted))
          = ids.map (fun p => (roleID, p, false)) ∧
        (permissionRepository.AddMultiplePermissionsToRole w roleID ids).2.tables
          = withRolePermissions w.tables rows) := by
  unfold permissionRepository.AddMultiplePermissionsToRole
  have hb := gorm.Begin_tables w
  have hbp := gorm.Begin_pending w
  rcases hbeg : gorm.Begin w with ⟨tx, w0⟩
  rw [hbeg] at hb hbp
  simp only at hb hbp
  have hs := permissionRepository.createEach_spec roleID ids tx w0
  rcases hce : permissionRepository.createEach roleID ids tx w0 with ⟨⟨e, tx1⟩, w1⟩
  simp only [hce]
  rw [hce] at hs
  simp only at hs
  obtain ⟨ht, hsucc⟩ := hs
  cases e with
  | some e =>
    refine Or.inl ⟨by simp, ?_⟩
    simp only
    rw [gorm.Rollback_tables, ht, hb]
  | none =>
    simp only
    obtain ⟨hall, hE, rows, hrows, hpend⟩ := hsucc rfl
    rcases gorm.Commit_tables tx1 w1 with ⟨hne, htab⟩ | ⟨hnone, _, htab⟩
    · exact Or.inl ⟨hne, by rw [htab, ht, hb]⟩
    · refine Or.inr ⟨hnone, ?_, rows, hrows, ?_⟩
      · intro p hp
        have := hall p hp
        rw [hbp, hb] at this
        exact this
      · rw [htab, hpend, hbp, ht, hb]

/-- The repository call on an engine that executes every round trip succeeds when
every insert finds its foreign keys. -/
theorem permissionRepository.AddMultiplePermissionsToRole_of_reliable (w : World)
    (roleID : Nat) (ids : List Nat) (hw : w.faults = [])
    (hall : ∀ p ∈ ids, gorm.rolePermissionRefs w.tables roleID p = true) :
    (permissionRepository.AddMultiplePermissionsToRole w roleID ids).1 = none := by
  unfold permissionRepository.AddMultiplePermissionsToRole
  obtain ⟨hbE, hbw⟩ := gorm.Begin_of_reliable w hw
  have hbp := gorm.Begin_pending w
  rcases hbeg : gorm.Begin w with ⟨tx, w0⟩
  rw [hbeg] at hbE hbw hbp
  simp only at hbE hbw hbp
  subst hbw
  have hrel := permissionRepository.createEach_of_reliable roleID ids tx w0 hw hbE
    (by intro p hp; rw [hbp]; exact hall p hp)
  have hs := permissionRepository.createEach_spec roleID ids tx w0
  rcases hce : permissionRepository.createEach roleID ids tx w0 with ⟨⟨e, tx1⟩, w1⟩
  simp only [hce]
  rw [hce] at hrel hs
  simp only at hrel hs
  obtain ⟨he, hw1⟩ := hrel
  subst he
  subst hw1
  simp only
  obtain ⟨_, hE, _⟩ := hs.2 rfl
  rw [gorm.Commit_of_reliable tx1 w1 hw (by rw [hE, hbE])]

/-- The service rejects a zero role identifier and an empty list before it calls the
repository; otherwise it passes the call on and reports an error exactly when the
repository does. -/
theorem PermissionService.AddMultiplePermissionsToRole_cases (w : World) (roleID : Nat)
    (ids : List Nat) :
    ((roleID = 0 ∨ ids = []) →
      PermissionService.AddMultiplePermissionsToRole w roleID ids
        = (some (GoError.AppError 400 "Invalid role id or empty permissions"), w)) ∧
    (roleID ≠ 0 → ids ≠ [] →
      (PermissionService.AddMultiplePermissionsToRole w roleID ids).2
        = (permissionRepository.AddMultiplePermissionsToRole w roleID ids).2 ∧
      ((PermissionService.AddMultiplePermissionsToRole w roleID ids).1 = none ↔
        (permissionRepository.AddMultiplePermissionsToRole w roleID ids).1 = none)) := by
  unfold PermissionService.AddMultiplePermissionsToRole
  constructor
  · intro h
    have hc : (decide (roleID ≤ 0) || ids.length == 0) = true := by
      rcases h with h | h
      · simp [h]
      · simp [h]
    rw [if_pos hc]
    rfl
  · intro h1 h2
    have hc : ¬ (decide (roleID ≤ 0) || ids.length == 0) = true := by
      simp [h1, h2]
    rw [if_neg hc]
    rcases permissionRepository.AddMultiplePermissionsToRole w roleID ids with ⟨e, w1⟩
    cases e <;> simp

/-- C9. All-or-nothing bulk assignment, for every role identifier and every list of
permission identifiers.
(1) If the insert for some identifier of the list fails, because a foreign key of
the row has no target or because the loop of inserts ends with an error for any
other reason, then the repository and the service return an error and the committed
tables are those before the call.
(2) If no insert fails, on an engine that executes every round trip and in a store
whose roles have non-zero identifiers, the committed rows of `role_permissions` are
those before the call followed by exactly one new row per element of the list, with
the role and the permission identifier of that element, and no error is returned
(for the empty list the service answers BadRequest and commits no row).
(3) On every engine the service either returns an error and leaves the committed
tables as they were, or returns no error and commits one new row per element. -/
theorem add_multiple_permissions_all_or_nothing (w : World) (roleID : Nat)
    (ids : List Nat) :
    (((∃ p ∈ ids, gorm.rolePermissionRefs w.tables roleID p = false) ∨
        (permissionRepository.createEach roleID ids (gorm.Begin w).1 (gorm.Begin w).2).1.1
          ≠ none) →
      (permissionRepository.AddMultiplePermissionsToRole w roleID ids).1 ≠ none ∧
      (permissionRepository.AddMultiplePermissionsToRole w roleID ids).2.tables = w.tables ∧
      (PermissionService.AddMultiplePermissionsToRole w roleID ids).1 ≠ none ∧
      (PermissionService.AddMultiplePermissionsToRole w roleID ids).2.tables = w.tables) ∧
    (w.faults = [] → (∀ r ∈ w.tables.roles, r.ID ≠ 0) →
      (∀ p ∈ ids, gorm.rolePermissionRefs w.tables roleID p = true) →
      (permissionRepository.AddMultiplePermissionsToRole w roleID ids).1 = none ∧
      (ids ≠ [] → (PermissionService.AddMultiplePermissionsToRole w roleID ids).1 = none) ∧
      ∃ rows : List model.RolePermission,
        rows.map (fun r => (r.RoleID, r.PermissionID, r.Deleted))
          = ids.map (fun p => (roleID, p, false)) ∧
        (permissionRepository.AddMultiplePermissionsToRole w roleID ids).2.tables
          = withRolePermissions w.tables rows ∧
        (PermissionService.AddMultiplePermissionsToRole w roleID ids).2.tables
          = withRolePermissions w.tables rows) ∧
    (((PermissionService.AddMultiplePermissionsToRole w roleID ids).1 ≠ none ∧
        (PermissionService.AddMultiplePermissionsToRole w roleID ids).2.tables = w.tables) ∨
      ((PermissionService.AddMultiplePermissionsToRole w roleID ids).1 = none ∧
        ∃ rows : List model.RolePermission,
          rows.map (fun r => (r.RoleID, r.PermissionID, r.Deleted))
            = ids.map (fun p => (roleID, p, false)) ∧
          (PermissionService.AddMultiplePermissionsToRole w roleID ids).2.tables
            = withRolePermissions w.tables rows)) := by
  have hsvc := PermissionService.AddMultiplePermissionsToRole_cases w roleID ids
  have hrepo := permissionRepository.AddMultiplePermissionsToRole_spec w roleID ids
  -- the service on every engine
  have h3 : ((PermissionService.AddMultiplePermissionsToRole w roleID ids).1 ≠ none ∧
        (PermissionService.AddMultiplePermissionsToRole w roleID ids).2.tables = w.tables) ∨
      ((PermissionService.AddMultiplePermissionsToRole w roleID ids).1 = none ∧
        (permissionRepository.AddMultiplePermissionsToRole w roleID ids).1 = none ∧
        ∃ rows : List model.RolePermission,
          rows.map (fun r => (r.RoleID, r.PermissionID, r.Deleted))
            = ids.map (fun p => (roleID, p, false)) ∧
          (PermissionService.AddMultiplePermissionsToRole w roleID ids).2.tables
            = withRolePermissions w.tables rows) := by
    by_cases hv : roleID = 0 ∨ ids = []
    · rw [hsvc.1 hv]
      exact Or.inl ⟨by simp, rfl⟩
    · have h1 : roleID ≠ 0 := fun h => hv (Or.inl h)
      have h2 : ids ≠ [] := fun h => hv (Or.inr h)
      obtain ⟨hw, hiff⟩ := hsvc.2 h1 h2
      rcases hrepo with ⟨hne, htab⟩ | ⟨hnone, _, rows, hrows, htab⟩
      · exact Or.inl ⟨fun h => hne (hiff.1 h), by rw [hw, htab]⟩
      · exact Or.inr ⟨hiff.2 hnone, hnone, rows, hrows, by rw [hw, htab]⟩
  refine ⟨?_, ?_, ?_⟩
  · intro hfail
    have hrne : (permissionRepository.AddMultiplePermissionsToRole w roleID ids).1 ≠ none := by
      rcases hfail with ⟨p, hp, href⟩ | hloop
      · rcases hrepo with ⟨hne, _⟩ | ⟨_, hall, _⟩
        · exact hne
        · rw [hall p hp] at href
          simp at href
      · unfold permissionRepository.AddMultiplePermissionsToRole
        rcases hce : permissionRepository.createEach roleID ids (gorm.Begin w).1 (gorm.Begin w).2
          with ⟨⟨e, tx1⟩, w1⟩
        rw [hce] at hloop
        cases e with
        | none => simp at hloop
        | some e => simp [hce]
    have hrt : (permissionRepository.AddMultiplePermissionsToRole w roleID ids).2.tables
        = w.tables := by
      rcases hrepo with ⟨_, htab⟩ | ⟨hnone, _⟩
      · exact htab
      · exact absurd hnone hrne
    refine ⟨hrne, hrt, ?_⟩
    rcases h3 with ⟨hne, htab⟩ | ⟨_, hnone, _⟩
    · exact ⟨hne, htab⟩
    · exact absurd hnone hrne
  · intro hw hinv hall
    have hnone := permissionRepository.AddMultiplePermissionsToRole_of_reliable w roleID ids
      hw hall
    rcases hrepo with ⟨hne, _⟩ | ⟨_, _, rows, hrows, htab⟩
    · exact absurd hnone hne
    · by_cases hids : ids = []
      · subst hids
        have hr : rows = [] := by simpa using hrows
        subst hr
        refine ⟨hnone, fun h => absurd rfl h, [], rfl, htab, ?_⟩
        rw [hsvc.1 (Or.inr rfl), withRolePermissions_nil]
      · have hrole : roleID ≠ 0 := by
          intro h0
          obtain ⟨p, hp⟩ := List.exists_mem_of_ne_nil ids hids
          have href := hall p hp
          unfold gorm.rolePermissionRefs at href
          simp only [Bool.and_eq_true, List.any_eq_true, beq_iff_eq] at href
          obtain ⟨⟨r, hr, hid⟩, _⟩ := href
          exact hinv r hr (by rw [hid, h0])
        obtain ⟨hw2, hiff⟩ := hsvc.2 hrole hids
        exact ⟨hnone, fun _ => hiff.2 hnone, rows, hrows, htab, by rw [hw2, htab]⟩
  · rcases h3 with h | ⟨h1, _, h2⟩
    · exact Or.inl h
    · exact Or.inr ⟨h1, h2⟩

/-- C9 at the scenario of the specification: role 1 and the permissions 1, 2, 3 of
which 2 does not exist; the call fails and no row is committed. -/
theorem add_multiple_permissions_all_or_nothing_witness :
    (PermissionService.AddMultiplePermissionsToRole (World.reliable rbacTables) 1
      [1, 2, 3]).1 ≠ none ∧
    (PermissionService.AddMultiplePermissionsToRole (World.reliable rbacTables) 1
      [1, 2, 3]).2.tables = rbacTables :=
  have h := (add_multiple_permissions_all_or_nothing (World.reliable rbacTables) 1
    [1, 2, 3]).1 (Or.inl ⟨2, by decide, by decide⟩)
  ⟨h.2.2.1, h.2.2.2⟩

/-! ## AddUserRole and UserHasRole -/

theorem String.length_le_len (s : String) : s.length ≤ len s := by
  obtain ⟨l⟩ := s
  show l.length ≤ String.utf8ByteSize.go l
  induction l with
  | nil => simp [String.utf8ByteSize.go]
  | cons c cs ih =>
    simp only [String.utf8ByteSize.go, List.length_cons]
    have := Char.utf8Size_pos c
    omega

/-- The repository call on an engine that executes every round trip: the row is
committed when its foreign keys have targets, and refused otherwise. -/
theorem roleRepository.AddUserRole_of_reliable (w : World) (userID roleID : Nat)
    (hw : w.faults = []) :
    roleRepository.AddUserRole w userID roleID =
      if gorm.userRoleRefs w.tables userID roleID then
        (none, World.mk (withUserRoles w.tables [gorm.newUserRole w.tables userID roleID])
          w.faults)
      else
        (some (gorm.constraintError "user_roles: foreign key violation"), w) := by
  simp only [roleRepository.AddUserRole, gorm.Begin, World.roundTrip_of_reliable w hw,
    gorm.Tx.CreateUserRole, id]
  by_cases hr : gorm.userRoleRefs w.tables userID roleID = true
  · simp only [hr, if_true, gorm.Commit, World.roundTrip_of_reliable w hw]
    rfl
  · have hf : gorm.userRoleRefs w.tables userID roleID = false := by simpa using hr
    simp only [hf, Bool.false_eq_true, if_false, gorm.Rollback,
      World.roundTrip_of_reliable w hw]

/-- The count of the join is positive as soon as one live association row of the
user points to a row of `roles` with the name. -/
theorem gorm.countUserRolesByName_pos (t : Tables) (userID : Nat) (roleName : String)
    (ur : model.UserRole) (role : model.Role)
    (hur : ur ∈ t.user_roles) (hu : ur.UserID = userID) (hd : ur.Deleted = false)
    (hrole : role ∈ t.roles) (hid : role.ID = ur.RoleID) (hn : role.RoleName = roleName) :
    gorm.countUserRolesByName t userID roleName > 0 := by
  unfold gorm.countUserRolesByName
  have h1 : ur ∈ t.user_roles.filter (fun ur => ur.UserID == userID && !ur.Deleted) := by
    rw [List.mem_filter]
    exact ⟨hur, by simp [hu, hd]⟩
  have h2 : role ∈ t.roles.filter (fun r => r.ID == ur.RoleID && r.RoleName == roleName) := by
    rw [List.mem_filter]
    exact ⟨hrole, by simp [hid, hn]⟩
  have h3 : 0 < (t.roles.filter
      (fun r => r.ID == ur.RoleID && r.RoleName == roleName)).length :=
    List.length_pos_of_mem h2
  have h4 : (t.roles.filter (fun r => r.ID == ur.RoleID && r.RoleName == roleName)).length
      ∈ (t.user_roles.filter (fun ur => ur.UserID == userID && !ur.Deleted)).map
        (fun ur => (t.roles.filter
          (fun r => r.ID == ur.RoleID && r.RoleName == roleName)).length) :=
    List.mem_map.2 ⟨ur, h1, rfl⟩
  have h5 := List.single_le_sum (fun x _ => Nat.zero_le x) _ h4
  have h6 : 0 < ((t.user_roles.filter (fun ur => ur.UserID == userID && !ur.Deleted)).map
        (fun ur => (t.roles.filter
          (fun r => r.ID == ur.RoleID && r.RoleName == roleName)).length)).sum :=
    Nat.lt_of_lt_of_le h3 h5
  exact_mod_cast h6

/-- What holds when the commit is not in doubt. For every user identifier that can be
encoded and every stored role with identifier `roleID` and a name of at least two
characters, on an engine that executes every round trip: if `RoleService.AddUserRole
userID roleID` returns no error, then `RoleService.UserHasRole` for the user and the
name of the role, called on the resulting store, returns true and no error. (A call
that returns no error has a non-zero user and role identifier.) -/
theorem user_has_role_after_add (w : World) (userID roleID : Nat) (role : model.Role)
    (hw : w.faults = []) (hsmall : userID < 2 ^ 63) (hrole : role ∈ w.tables.roles)
    (hid : role.ID = roleID) (hname : 2 ≤ role.RoleName.length)
    (hadd : (RoleService.AddUserRole w userID roleID).1 = none) :
    (RoleService.UserHasRole (RoleService.AddUserRole w userID roleID).2 userID
      role.RoleName).1 = (true, none) ∧
    0 < userID ∧ 0 < roleID := by
  unfold RoleService.AddUserRole at hadd ⊢
  by_cases hu : userID = 0
  · simp [hu] at hadd
  · by_cases hr : roleID = 0
    · simp [hu, hr] at hadd
    · simp only [hu, hr, if_false] at hadd ⊢
      rw [roleRepository.AddUserRole_of_reliable w userID roleID hw] at hadd ⊢
      by_cases href : gorm.userRoleRefs w.tables userID roleID = true
      · simp only [href, if_true]
        refine ⟨?_, Nat.pos_of_ne_zero hu, Nat.pos_of_ne_zero hr⟩
        unfold RoleService.UserHasRole
        have hlen : ¬ len role.RoleName < 2 :=
          not_lt.mpr (le_trans hname (String.length_le_len role.RoleName))
        simp only [hu, hlen, if_false]
        unfold roleRepository.UserHasRole
        rw [(sql.encodeArgs_eq_none [userID]).2 (by simpa using hsmall)]
        simp only
        rw [World.roundTrip_of_reliable (World.mk
          (withUserRoles w.tables [gorm.newUserRole w.tables userID roleID]) w.faults) hw]
        simp only
        have hpos := gorm.countUserRolesByName_pos
          (withUserRoles w.tables [gorm.newUserRole w.tables userID roleID]) userID
          role.RoleName (gorm.newUserRole w.tables userID roleID) role
          (by simp [withUserRoles]) rfl rfl hrole (by rw [hid]; rfl) rfl
        simp [hpos]
      · simp [href] at hadd

/-- The scenario of the specification on an engine that executes every round trip:
alice (1) is given the role "admin" (1) and has it immediately afterwards. -/
theorem user_has_role_after_add_witness :
    (RoleService.AddUserRole (World.reliable rbacTables) 1 1).1 = none ∧
    (RoleService.UserHasRole (RoleService.AddUserRole (World.reliable rbacTables) 1 1).2 1
      "admin").1 = (true, none) :=
  ⟨by decide,
   (user_has_role_after_add (World.reliable rbacTables) 1 1 (model.Role.mk 1 "admin" false)
     rfl (by decide) (by decide) rfl (by decide) (by decide)).1⟩

/-! ## RemoveUserRole and UserHasRole -/

/-- The repository call on an engine that executes every round trip: identifiers
that cannot be encoded are refused and the engine is as before; otherwise every live
row of the pair is marked deleted and no error is returned. -/
theorem roleRepository.RemoveUserRole_of_reliable (w : World) (userID roleID : Nat)
    (hw : w.faults = []) :
    roleRepository.RemoveUserRole w userID roleID =
      match sql.encodeArgs [userID, roleID] with
      | some e => (some e, w)
      | none =>
        (none, World.mk (gorm.softDeleteUserRoles userID roleID w.tables) w.faults) := by
  simp only [roleRepository.RemoveUserRole, gorm.Begin, World.roundTrip_of_reliable w hw,
    gorm.Tx.DeleteUserRoles, id]
  cases sql.encodeArgs [userID, roleID] with
  | some e => simp only [gorm.Rollback, World.roundTrip_of_reliable w hw]
  | none => simp only [World.roundTrip_of_reliable w hw, gorm.Commit]

/-- The count of the join is zero when every role of the name has the identifier
`roleID` and no live association row of the user points to it. -/
theorem gorm.countUserRolesByName_eq_zero (t : Tables) (userID roleID : Nat)
    (roleName : String)
    (hunique : ∀ r ∈ t.roles, r.RoleName = roleName → r.ID = roleID)
    (hnone : ∀ ur ∈ t.user_roles, ur.UserID = userID → ur.Deleted = false →
      ur.RoleID ≠ roleID) :
    gorm.countUserRolesByName t userID roleName = 0 := by
  unfold gorm.countUserRolesByName
  have hz : ((t.user_roles.filter (fun ur => ur.UserID == userID && !ur.Deleted)).map
      (fun ur => (t.roles.filter
        (fun r => r.ID == ur.RoleID && r.RoleName == roleName)).length)).sum = 0 := by
    apply List.sum_eq_zero
    intro x hx
    obtain ⟨ur, hur, rfl⟩ := List.mem_map.1 hx
    rw [List.mem_filter] at hur
    obtain ⟨hmem, hcond⟩ := hur
    simp only [Bool.and_eq_true, beq_iff_eq, Bool.not_eq_true'] at hcond
    have hne := hnone ur hmem hcond.1 hcond.2
    rw [List.length_eq_zero, List.filter_eq_nil_iff]
    intro r hr hc
    simp only [Bool.and_eq_true, beq_iff_eq] at hc
    exact hne (by rw [← hc.1]; exact hunique r hr hc.2)
  rw [hz]
  rfl

/-- After the update no live row of the pair is left. -/
theorem gorm.softDeleteUserRoles_spec (userID roleID : Nat) (t : Tables) :
    (gorm.softDeleteUserRoles userID roleID t).roles = t.roles ∧
    ∀ ur ∈ (gorm.softDeleteUserRoles userID roleID t).user_roles,
      ur.UserID = userID → ur.Deleted = false → ur.RoleID ≠ roleID := by
  refine ⟨rfl, ?_⟩
  intro ur hur hu hd hr
  unfold gorm.softDeleteUserRoles at hur
  simp only [List.mem_map] at hur
  obtain ⟨x, _, hx⟩ := hur
  by_cases hc : (x.UserID == userID && x.RoleID == roleID && !x.Deleted) = true
  · rw [if_pos hc] at hx
    rw [← hx] at hd
    simp at hd
  · rw [if_neg hc] at hx
    subst hx
    simp [hu, hr, hd] at hc

/-- What holds when the commit is not in doubt. For every user identifier, every role
identifier `roleID` and every name `n` of at least two characters that no stored role
with another identifier bears, on an engine that executes every round trip: if
`RoleService.RemoveUserRole userID roleID` returns no error, then
`RoleService.UserHasRole userID n`, called on the resulting store, returns false and
no error, however many rows of the pair the store held. (A call that returns no error
has a non-zero user and role identifier.) -/
theorem user_lacks_role_after_remove (w : World) (userID roleID : Nat) (n : String)
    (hw : w.faults = []) (hname : 2 ≤ n.length)
    (hunique : ∀ r ∈ w.tables.roles, r.RoleName = n → r.ID = roleID)
    (hrem : (RoleService.RemoveUserRole w userID roleID).1 = none) :
    (RoleService.UserHasRole (RoleService.RemoveUserRole w userID roleID).2 userID n).1
      = (false, none) ∧
    0 < userID ∧ 0 < roleID := by
  unfold RoleService.RemoveUserRole at hrem ⊢
  by_cases hu : userID = 0
  · simp [hu] at hrem
  · by_cases hr : roleID = 0
    · simp [hu, hr] at hrem
    · simp only [hu, hr, if_false] at hrem ⊢
      rw [roleRepository.RemoveUserRole_of_reliable w userID roleID hw] at hrem ⊢
      cases henc : sql.encodeArgs [userID, roleID] with
      | some e =>
        rw [henc] at hrem
        simp at hrem
      | none =>
      have hsmall : sql.encodeArgs [userID] = none := by
        rw [sql.encodeArgs_eq_none] at henc ⊢
        intro x hx
        exact henc x (by simp at hx; simp [hx])
      simp only
      refine ⟨?_, Nat.pos_of_ne_zero hu, Nat.pos_of_ne_zero hr⟩
      unfold RoleService.UserHasRole
      have hlen : ¬ len n < 2 := not_lt.mpr (le_trans hname (String.length_le_len n))
      simp only [hu, hlen, if_false]
      unfold roleRepository.UserHasRole
      rw [hsmall]
      simp only
      rw [World.roundTrip_of_reliable (World.mk
        (gorm.softDeleteUserRoles userID roleID w.tables) w.faults) hw]
      simp only
      obtain ⟨hroles, hgone⟩ := gorm.softDeleteUserRoles_spec userID roleID w.tables
      have hzero := gorm.countUserRolesByName_eq_zero
        (gorm.softDeleteUserRoles userID roleID w.tables) userID roleID n
        (by rw [hroles]; exact hunique) hgone
      simp [hzero]

/-- The scenario of the specification on an engine that executes every round trip,
with the pair added twice: alice (1) is given the role "admin" (1) two times, the role
is removed once, and she does not have it afterwards. -/
theorem user_lacks_role_after_remove_witness :
    (RoleService.AddUserRole (World.reliable rbacTables) 1 1).2.tables.user_roles.length = 1 ∧
    (RoleService.AddUserRole (RoleService.AddUserRole (World.reliable rbacTables) 1 1).2
      1 1).2.tables.user_roles.length = 2 ∧
    (RoleService.UserHasRole (RoleService.RemoveUserRole
      (RoleService.AddUserRole (RoleService.AddUserRole (World.reliable rbacTables) 1 1).2
        1 1).2 1 1).2 1 "admin").1 = (false, none) :=
  ⟨by decide, by decide,
   (user_lacks_role_after_remove
     (RoleService.AddUserRole (RoleService.AddUserRole (World.reliable rbacTables) 1 1).2
       1 1).2 1 1 "admin" (by decide) (by decide) (by decide) (by decide)).1⟩

/-! ## The transaction handler -/

theorem gorm.BeginSession_spec (w : World) :
    (gorm.BeginSession w).2.tables = w.tables ∧
    (gorm.BeginSession w).1.done = false ∧
    ((gorm.BeginSession w).1.begun = false → (gorm.BeginSession w).1.Error ≠ none) ∧
    ((gorm.BeginSession w).1.Error = none → (gorm.BeginSession w).1.begun = true) := by
  unfold gorm.BeginSession
  have ht := World.roundTrip_tables w
  rcases hrt : w.roundTrip with ⟨f, w1⟩
  rw [hrt] at ht
  cases f with
  | some e => exact ⟨ht, rfl, by simp, by simp⟩
  | none => exact ⟨ht, rfl, by simp, by simp⟩

theorem gorm.AddError_ne_none (old : Option GoError) (err : GoError) :
    some (gorm.AddError old err) ≠ none := by
  simp

/-- A commit on the kept handle never changes the committed tables and keeps the
flag `begun`; on a handle that is not active it leaves an error on the handle and
does not contact the engine. -/
theorem gorm.Session.Commit_spec (s : gorm.Session) (w : World) :
    (s.Commit w).2.tables = w.tables ∧ (s.Commit w).1.begun = s.begun ∧
    ((s.begun && !s.done) = false →
      (s.Commit w).2 = w ∧ (s.Commit w).1.Error ≠ none ∧ (s.Commit w).1.done = s.done) := by
  unfold gorm.Session.Commit
  by_cases hb : s.begun = true
  · by_cases hd : s.done = true
    · simp [hb, hd]
    · have ht := World.roundTrip_tables w
      rcases hrt : w.roundTrip with ⟨f, w1⟩
      rw [hrt] at ht
      simp only at ht
      cases f <;> simp [hb, hd, ht]
  · simp [hb]

/-- A rollback on the kept handle never changes the committed tables and keeps the
flag `begun`; on a handle that is not active it does not contact the engine, and it
leaves an error on the handle when the handle had one or was finished. -/
theorem gorm.Session.Rollback_spec (s : gorm.Session) (w : World) :
    (s.Rollback w).2.tables = w.tables ∧ (s.Rollback w).1.begun = s.begun ∧
    ((s.begun && !s.done) = false →
      (s.Rollback w).2 = w ∧ (s.Rollback w).1.done = s.done ∧
      ((s.begun = false → s.Error ≠ none) → (s.Rollback w).1.Error ≠ none)) := by
  unfold gorm.Session.Rollback
  by_cases hb : s.begun = true
  · by_cases hd : s.done = true
    · simp [hb, hd]
    · have ht := World.roundTrip_tables w
      rcases hrt : w.roundTrip with ⟨f, w1⟩
      rw [hrt] at ht
      simp only at ht
      cases f <;> simp [hb, hd, ht]
  · simp [hb]

theorem TransactionHandler.StartTransaction_spec (h : TransactionHandler) (w : World) :
    (h.StartTransaction w).2.tables = w.tables ∧
    (h.StartTransaction w).1.2.calls = h.calls ++ [gorm.Call.Begin] ∧
    (h.StartTransaction w).1.2.Tx = some (gorm.BeginSession w).1 ∧
    ((h.StartTransaction w).1.1 = none ↔ (gorm.BeginSession w).1.Error = none) := by
  unfold TransactionHandler.StartTransaction
  have hb := (gorm.BeginSession_spec w).1
  rcases hbs : gorm.BeginSession w with ⟨s, w1⟩
  rw [hbs] at hb
  simp only at hb ⊢
  cases hE : s.Error <;> simp [hb]

theorem TransactionHandler.CommitTransaction_tables (h : TransactionHandler) (w : World) :
    (h.CommitTransaction w).2.tables = w.tables := by
  unfold TransactionHandler.CommitTransaction
  cases hT : h.Tx with
  | none => rfl
  | some s =>
    have hc := (gorm.Session.Commit_spec s w).1
    simp only
    cases hE : (s.Commit w).1.Error <;> simp [hc]

theorem TransactionHandler.RollbackTransaction_tables (h : TransactionHandler) (w : World) :
    (h.RollbackTransaction w).2.tables = w.tables := by
  unfold TransactionHandler.RollbackTransaction
  cases hT : h.Tx with
  | none => rfl
  | some s =>
    have hc := (gorm.Session.Rollback_spec s w).1
    simp only
    cases hE : (s.Rollback w).1.Error <;> simp [hc]

/-- C13. On a TransactionHandler whose `Tx` is nil, as `NewTransactionHandler` makes
it and as it stays until `StartTransaction` is called, `CommitTransaction` and
`RollbackTransaction` both return the error "no transaction found", call no method
of `*gorm.DB`, leave the storage engine untouched and leave `Tx` nil. -/
theorem idle_commit_and_rollback_are_refused (h : TransactionHandler) (w : World)
    (hidle : h.Tx = none) :
    h.CommitTransaction w = ((some (GoError.New "no transaction found"), h), w) ∧
    h.RollbackTransaction w = ((some (GoError.New "no transaction found"), h), w) ∧
    (h.CommitTransaction w).1.2.Tx = none ∧ (h.RollbackTransaction w).1.2.Tx = none ∧
    (h.CommitTransaction w).1.2.calls = h.calls ∧
    (h.RollbackTransaction w).1.2.calls = h.calls ∧
    NewTransactionHandler.Tx = none := by
  have hc : h.CommitTransaction w = ((some (GoError.New "no transaction found"), h), w) := by
    unfold TransactionHandler.CommitTransaction
    rw [hidle]
    rfl
  have hr : h.RollbackTransaction w = ((some (GoError.New "no transaction found"), h), w) := by
    unfold TransactionHandler.RollbackTransaction
    rw [hidle]
    rfl
  rw [hc, hr]
  exact ⟨rfl, rfl, hidle, hidle, rfl, rfl, rfl⟩

/-- C13 at a concrete input: a new handler, on an engine whose next round trip would
fail. -/
theorem idle_commit_and_rollback_are_refused_witness :
    NewTransactionHandler.CommitTransaction
        (World.mk rbacTables [some (GoError.Storage "connection reset")])
      = ((some (GoError.New "no transaction found"), NewTransactionHandler),
        World.mk rbacTables [some (GoError.Storage "connection reset")]) ∧
    NewTransactionHandler.RollbackTransaction
        (World.mk rbacTables [some (GoError.Storage "connection reset")])
      = ((some (GoError.New "no transaction found"), NewTransactionHandler),
        World.mk rbacTables [some (GoError.Storage "connection reset")]) :=
  have h := idle_commit_and_rollback_are_refused NewTransactionHandler
    (World.mk rbacTables [some (GoError.Storage "connection reset")]) rfl
  ⟨h.1, h.2.1⟩

theorem TransactionHandler.CommitTransaction_some (h : TransactionHandler) (w : World)
    (s : gorm.Session) (hT : h.Tx = some s) :
    (h.CommitTransaction w).1.2 = TransactionHandler.mk (some (s.Commit w).1)
      (h.calls ++ [gorm.Call.Commit]) ∧
    (h.CommitTransaction w).2 = (s.Commit w).2 ∧
    (h.CommitTransaction w).1.1
      = ((s.Commit w).1.Error).map (fun e => GoError.Wrap e "commit transaction failed") := by
  unfold TransactionHandler.CommitTransaction
  rw [hT]
  simp only
  cases hE : (s.Commit w).1.Error <;> simp [errors.Wrap]

theorem TransactionHandler.RollbackTransaction_some (h : TransactionHandler) (w : World)
    (s : gorm.Session) (hT : h.Tx = some s) :
    (h.RollbackTransaction w).1.2 = TransactionHandler.mk (some (s.Rollback w).1)
      (h.calls ++ [gorm.Call.Rollback]) ∧
    (h.RollbackTransaction w).2 = (s.Rollback w).2 ∧
    (h.RollbackTransaction w).1.1
      = ((s.Rollback w).1.Error).map
        (fun e => GoError.Wrap e "rollback transaction failed") := by
  unfold TransactionHandler.RollbackTransaction
  rw [hT]
  simp only
  cases hE : (s.Rollback w).1.Error <;> simp [errors.Wrap]

/-- On every reachable state, a kept handle without a transaction carries the error
of the failed `Begin`. -/
theorem TransactionHandler.Reachable.error_of_not_begun (h : TransactionHandler)
    (hr : TransactionHandler.Reachable h) :
    ∀ s, h.Tx = some s → s.begun = false → s.Error ≠ none := by
  induction hr with
  | new => intro s hs; simp [NewTransactionHandler] at hs
  | start h w _ _ =>
    intro s hs hb
    rw [(TransactionHandler.StartTransaction_spec h w).2.2.1] at hs
    injection hs with hs
    subst hs
    exact (gorm.BeginSession_spec w).2.2.1 hb
  | commit h w _ ih =>
    intro s hs hb
    cases hT : h.Tx with
    | none =>
      have : (h.CommitTransaction w).1.2 = h := by
        unfold TransactionHandler.CommitTransaction
        rw [hT]
      rw [this, hT] at hs
      simp at hs
    | some s0 =>
      rw [(TransactionHandler.CommitTransaction_some h w s0 hT).1] at hs
      simp only [Option.some.injEq] at hs
      subst hs
      obtain ⟨_, hbeg, hna⟩ := gorm.Session.Commit_spec s0 w
      rw [hbeg] at hb
      exact (hna (by simp [hb])).2.1
  | rollback h w _ ih =>
    intro s hs hb
    cases hT : h.Tx with
    | none =>
      have : (h.RollbackTransaction w).1.2 = h := by
        unfold TransactionHandler.RollbackTransaction
        rw [hT]
      rw [this, hT] at hs
      simp at hs
    | some s0 =>
      rw [(TransactionHandler.RollbackTransaction_some h w s0 hT).1] at hs
      simp only [Option.some.injEq] at hs
      subst hs
      obtain ⟨_, hbeg, hna⟩ := gorm.Session.Rollback_spec s0 w
      rw [hbeg] at hb
      exact (hna (by simp [hb])).2.2 (ih s0 hT)

/-- C14 (as stated, refuted). A handler that has started and committed a transaction
is asked to commit again: the handler calls `Commit` on the kept handle once more and
returns "commit transaction failed" around `sql.ErrTxDone`, not the error "no
transaction found"; a rollback at that point is answered likewise; and after a
`StartTransaction` that failed, `CommitTransaction` calls `Commit` on the handle and
returns "commit transaction failed" as well. -/
theorem finished_commit_reaches_the_handle :
    ((NewTransactionHandler.StartTransaction (World.reliable rbacTables)).1.2.CommitTransaction
      (World.reliable rbacTables)).1
      = (none, TransactionHandler.mk (some (gorm.Session.mk none true true))
          [gorm.Call.Begin, gorm.Call.Commit]) ∧
    ((TransactionHandler.mk (some (gorm.Session.mk none true true))
        [gorm.Call.Begin, gorm.Call.Commit]).CommitTransaction (World.reliable rbacTables)).1
      = (some (GoError.Wrap sql.ErrTxDone "commit transaction failed"),
          TransactionHandler.mk (some (gorm.Session.mk (some sql.ErrTxDone) true true))
            [gorm.Call.Begin, gorm.Call.Commit, gorm.Call.Commit]) ∧
    ((TransactionHandler.mk (some (gorm.Session.mk none true true))
        [gorm.Call.Begin, gorm.Call.Commit]).RollbackTransaction (World.reliable rbacTables)).1
      = (some (GoError.Wrap sql.ErrTxDone "rollback transaction failed"),
          TransactionHandler.mk (some (gorm.Session.mk (some sql.ErrTxDone) true true))
            [gorm.Call.Begin, gorm.Call.Commit, gorm.Call.Rollback]) ∧
    ((NewTransactionHandler.StartTransaction
        (World.mk rbacTables [some (GoError.Storage "connection refused")])).1.2.CommitTransaction
      (World.reliable rbacTables)).1
      = (some (GoError.Wrap (GoError.Join (GoError.Storage "connection refused")
            GoError.ErrInvalidTransaction) "commit transaction failed"),
          TransactionHandler.mk (some (gorm.Session.mk
            (some (GoError.Join (GoError.Storage "connection refused")
              GoError.ErrInvalidTransaction)) false false))
            [gorm.Call.Begin, gorm.Call.Commit]) ∧
    GoError.Wrap sql.ErrTxDone "commit transaction failed"
      ≠ GoError.New "no transaction found" := by
  refine ⟨by decide, by decide, by decide, by decide, by decide⟩

/-- C14 (amended). `CommitTransaction` and `RollbackTransaction` succeed only from the
Active state: on every reachable state of a TransactionHandler that is not Active
both return an error, the storage engine is not contacted and nothing is committed.
When `Tx` is nil the error is the handler's own "no transaction found" (C13); when a
handle is kept (after a completed commit or rollback, or after a `StartTransaction`
that failed) the handler does call `Commit`, respectively `Rollback`, on that handle
and returns the error the handle then carries, wrapped as "commit transaction
failed", respectively "rollback transaction failed"; the state stays not Active. -/
theorem commit_and_rollback_need_an_active_transaction (h : TransactionHandler) (w : World)
    (hr : TransactionHandler.Reachable h) (hna : h.Active = false) :
    (h.CommitTransaction w).1.1 ≠ none ∧ (h.RollbackTransaction w).1.1 ≠ none ∧
    (h.CommitTransaction w).2 = w ∧ (h.RollbackTransaction w).2 = w ∧
    (h.CommitTransaction w).1.2.Active = false ∧
    (h.RollbackTransaction w).1.2.Active = false ∧
    (h.Tx = none →
      (h.CommitTransaction w).1.1 = some (GoError.New "no transaction found") ∧
      (h.RollbackTransaction w).1.1 = some (GoError.New "no transaction found")) ∧
    (∀ s, h.Tx = some s →
      (∃ e, (h.CommitTransaction w).1.1
        = some (GoError.Wrap e "commit transaction failed")) ∧
      (h.CommitTransaction w).1.2.calls = h.calls ++ [gorm.Call.Commit] ∧
      (∃ e, (h.RollbackTransaction w).1.1
        = some (GoError.Wrap e "rollback transaction failed")) ∧
      (h.RollbackTransaction w).1.2.calls = h.calls ++ [gorm.Call.Rollback]) := by
  cases hT : h.Tx with
  | none =>
    have hc : h.CommitTransaction w = ((some (GoError.New "no transaction found"), h), w) := by
      unfold TransactionHandler.CommitTransaction
      rw [hT]
      rfl
    have hrb : h.RollbackTransaction w
        = ((some (GoError.New "no transaction found"), h), w) := by
      unfold TransactionHandler.RollbackTransaction
      rw [hT]
      rfl
    rw [hc, hrb]
    exact ⟨by simp, by simp, rfl, rfl, hna, hna, fun _ => ⟨rfl, rfl⟩,
      fun s hs => by simp at hs⟩
  | some s =>
    have hact : (s.begun && !s.done) = false := by
      unfold TransactionHandler.Active at hna
      rw [hT] at hna
      exact hna
    obtain ⟨hc1, hc2, hc3⟩ := TransactionHandler.CommitTransaction_some h w s hT
    obtain ⟨hr1, hr2, hr3⟩ := TransactionHandler.RollbackTransaction_some h w s hT
    obtain ⟨_, hcb, hcn⟩ := gorm.Session.Commit_spec s w
    obtain ⟨_, hrbb, hrn⟩ := gorm.Session.Rollback_spec s w
    obtain ⟨hcw, hce, hcd⟩ := hcn hact
    obtain ⟨hrw, hrd, hre⟩ := hrn hact
    have hre2 := hre (TransactionHandler.Reachable.error_of_not_begun h hr s hT)
    obtain ⟨ec, hec⟩ := Option.ne_none_iff_exists'.1 hce
    obtain ⟨er, her⟩ := Option.ne_none_iff_exists'.1 hre2
    have hcerr : (h.CommitTransaction w).1.1
        = some (GoError.Wrap ec "commit transaction failed") := by
      rw [hc3, hec]
      rfl
    have hrerr : (h.RollbackTransaction w).1.1
        = some (GoError.Wrap er "rollback transaction failed") := by
      rw [hr3, her]
      rfl
    refine ⟨by rw [hcerr]; simp, by rw [hrerr]; simp, by rw [hc2, hcw], by rw [hr2, hrw],
      ?_, ?_, fun hn => by simp at hn, ?_⟩
    · rw [hc1]
      unfold TransactionHandler.Active
      simp only
      rw [hcb, hcd]
      exact hact
    · rw [hr1]
      unfold TransactionHandler.Active
      simp only
      rw [hrbb, hrd]
      exact hact
    · intro s2 _
      exact ⟨⟨ec, hcerr⟩, by rw [hc1], ⟨er, hrerr⟩, by rw [hr1]⟩

/-- C14 (amended) at a concrete input: the handler that has committed once. -/
theorem commit_and_rollback_need_an_active_transaction_witness :
    ((NewTransactionHandler.StartTransaction
        (World.reliable rbacTables)).1.2.CommitTransaction
      (World.reliable rbacTables)).1.2.Active = false ∧
    (((NewTransactionHandler.StartTransaction
        (World.reliable rbacTables)).1.2.CommitTransaction
      (World.reliable rbacTables)).1.2.CommitTransaction (World.reliable rbacTables)).1.1
      ≠ none ∧
    (((NewTransactionHandler.StartTransaction
        (World.reliable rbacTables)).1.2.CommitTransaction
      (World.reliable rbacTables)).1.2.RollbackTransaction (World.reliable rbacTables)).1.1
      ≠ none :=
  have h := commit_and_rollback_need_an_active_transaction
    ((NewTransactionHandler.StartTransaction
        (World.reliable rbacTables)).1.2.CommitTransaction (World.reliable rbacTables)).1.2
    (World.reliable rbacTables)
    (TransactionHandler.Reachable.commit _ _
      (TransactionHandler.Reachable.start _ _ TransactionHandler.Reachable.new))
    (by decide)
  ⟨by decide, h.1, h.2.1⟩

/-! ## AssignPermissionToRole with a zero identifier -/

/-- C12 (as stated, refuted). The handler flow for role identifier 0 and permission
identifier 1, from a new transaction handler: `StartTransaction` has called `Begin`
on the engine before the service validates (and `RollbackTransaction` has called
`Rollback` after it), two round trips were made, and the answer carries status 500
with the message of the validation error; when the engine refuses the `Begin`, the
answer is "start transaction failed" and the identifiers are never validated. -/
theorem assign_with_zero_id_starts_a_transaction :
    PermissionHandler.AssignPermissionToRole NewTransactionHandler
        (World.mk rbacTables [none, none]) 0 1
      = ((Answer.mk 500 "Invalid role or permission id",
          TransactionHandler.mk (some (gorm.Session.mk none true true))
            [gorm.Call.Begin, gorm.Call.Rollback]),
        World.mk rbacTables []) ∧
    (PermissionHandler.AssignPermissionToRole NewTransactionHandler
        (World.mk rbacTables [some (GoError.Storage "connection refused")]) 0 1).1.1
      = Answer.mk 500 "start transaction failed: connection refused" := by
  refine ⟨by decide, by decide⟩

/-- C12 (amended). When roleId = 0 or permissionId = 0,
`PermissionService.AssignPermissionToRole` returns the AppError BadRequest (400)
"Invalid role or permission id" without calling the repository: the storage engine is
left exactly as it was, so no `Begin` of the repository and no statement were issued.
In the handler flow the transaction handler's `StartTransaction` has run before the
service is called: the flow calls `Begin` first; when that fails the answer is the
start error, otherwise the answer is status 500 with the validation message and the
handler's transaction is rolled back. In every case the committed tables are
unchanged. -/
theorem assign_with_zero_id_is_refused_by_the_service (h : TransactionHandler) (w : World)
    (roleID permissionID : Nat) (hz : roleID = 0 ∨ permissionID = 0) :
    PermissionService.AssignPermissionToRole w roleID permissionID
      = (some (GoError.AppError errors.CodeBadRequest "Invalid role or permission id"), w) ∧
    (PermissionHandler.AssignPermissionToRole h w roleID permissionID).2.tables = w.tables ∧
    (PermissionHandler.AssignPermissionToRole h w roleID permissionID).1.1.status = 500 ∧
    ((h.StartTransaction w).1.1 ≠ none →
      (PermissionHandler.AssignPermissionToRole h w roleID permissionID).1.2.calls
        = h.calls ++ [gorm.Call.Begin]) ∧
    ((h.StartTransaction w).1.1 = none →
      (PermissionHandler.AssignPermissionToRole h w roleID permissionID).1.1
        = Answer.mk 500 "Invalid role or permission id" ∧
      (PermissionHandler.AssignPermissionToRole h w roleID permissionID).1.2.calls
        = h.calls ++ [gorm.Call.Begin, gorm.Call.Rollback]) := by
  have hsvc : ∀ w0 : World, PermissionService.AssignPermissionToRole w0 roleID permissionID
      = (some (GoError.AppError errors.CodeBadRequest "Invalid role or permission id"),
        w0) := by
    intro w0
    unfold PermissionService.AssignPermissionToRole
    have hc : (decide (roleID ≤ 0) || decide (permissionID ≤ 0)) = true := by
      rcases hz with h0 | h0 <;> simp [h0]
    rw [if_pos hc]
    rfl
  refine ⟨hsvc w, ?_⟩
  obtain ⟨hst, hsc, hsT, _⟩ := TransactionHandler.StartTransaction_spec h w
  unfold PermissionHandler.AssignPermissionToRole
  rcases hs : h.StartTransaction w with ⟨⟨e, h1⟩, w1⟩
  rw [hs] at hst hsc hsT
  simp only at hst hsc hsT
  cases e with
  | some e => exact ⟨hst, rfl, fun _ => hsc, fun hn => by simp at hn⟩
  | none =>
    dsimp only
    rw [hsvc w1]
    dsimp only
    have hrt := TransactionHandler.RollbackTransaction_tables h1 w1
    have hrs := TransactionHandler.RollbackTransaction_some h1 w1 _ hsT
    rcases hrb : h1.RollbackTransaction w1 with ⟨⟨e2, h2⟩, w3⟩
    rw [hrb] at hrt hrs
    simp only at hrt hrs
    refine ⟨by rw [hrt, hst], rfl, fun hn => absurd rfl hn, fun _ => ⟨rfl, ?_⟩⟩
    rw [hrs.1, hsc]
    simp

/-- C12 (amended) at a concrete input: role identifier 0 from a new handler. -/
theorem assign_with_zero_id_is_refused_by_the_service_witness :
    PermissionService.AssignPermissionToRole (World.mk rbacTables [none, none]) 0 1
      = (some (GoError.AppError 400 "Invalid role or permission id"),
        World.mk rbacTables [none, none]) ∧
    (PermissionHandler.AssignPermissionToRole NewTransactionHandler
      (World.mk rbacTables [none, none]) 0 1).2.tables = rbacTables :=
  have h := assign_with_zero_id_is_refused_by_the_service NewTransactionHandler
    (World.mk rbacTables [none, none]) 0 1 (Or.inl rfl)
  ⟨h.1, h.2.1⟩

/-! ## The flow of RoleHandler.AddUserRole -/

theorem gorm.Tx.CreateUserRole_tables (tx : gorm.Tx) (w : World) (userID roleID : Nat) :
    (tx.CreateUserRole w userID roleID).2.tables = w.tables := by
  unfold gorm.Tx.CreateUserRole
  cases hE : tx.Error with
  | some e => rfl
  | none =>
    have ht := World.roundTrip_tables w
    rcases hrt : w.roundTrip with ⟨f, w1⟩
    rw [hrt] at ht
    simp only at ht
    cases f with
    | some e => exact ht
    | none =>
      simp only
      by_cases hr : gorm.userRoleRefs (tx.pending w1.tables) userID roleID = true
      · rw [if_pos hr]
        exact ht
      · rw [if_neg hr]
        exact ht

/-- A repository call that returns an error has committed nothing, on every engine. -/
theorem roleRepository.AddUserRole_error_tables (w : World) (userID roleID : Nat)
    (herr : (roleRepository.AddUserRole w userID roleID).1 ≠ none) :
    (roleRepository.AddUserRole w userID roleID).2.tables = w.tables := by
  unfold roleRepository.AddUserRole at herr ⊢
  have hb := gorm.Begin_tables w
  rcases hbeg : gorm.Begin w with ⟨tx, w0⟩
  rw [hbeg] at hb herr
  simp only at hb herr ⊢
  have hc := gorm.Tx.CreateUserRole_tables tx w0 userID roleID
  rcases hcr : tx.CreateUserRole w0 userID roleID with ⟨⟨e, tx1⟩, w1⟩
  rw [hcr] at hc herr
  simp only at hc
  cases e with
  | some e =>
    simp only
    rw [gorm.Rollback_tables, hc, hb]
  | none => simp at herr

/-- A service call that returns an error has committed nothing, on every engine. -/
theorem RoleService.AddUserRole_error_keeps_tables (w : World) (userID roleID : Nat)
    (herr : (RoleService.AddUserRole w userID roleID).1 ≠ none) :
    (RoleService.AddUserRole w userID roleID).2.tables = w.tables := by
  unfold RoleService.AddUserRole at herr ⊢
  by_cases hu : userID = 0
  · simp [hu]
  · by_cases hr : roleID = 0
    · simp [hu, hr]
    · simp only [hu, hr, if_false] at herr ⊢
      have hrepo := roleRepository.AddUserRole_error_tables w userID roleID
      rcases hres : roleRepository.AddUserRole w userID roleID with ⟨e, w1⟩
      rw [hres] at hrepo herr
      cases e with
      | some e => exact hrepo (by simp)
      | none => simp at herr

/-- C15 (as stated, refuted). The flow for alice (1) and the role "admin" (1) on an
engine whose fifth round trip, the commit of the transaction handler, fails: the
answer is the error "commit transaction failed", yet the association row that the
repository committed in its own transaction is in the committed table, which was
empty before the flow. -/
theorem failed_flow_keeps_the_association :
    rbacTables.user_roles = [] ∧
    (RoleHandler.AddUserRole NewTransactionHandler
      (World.mk rbacTables [none, none, none, none,
        some (GoError.Storage "connection reset")]) 1 1).1.1
      = Answer.mk 500 "commit transaction failed: connection reset" ∧
    (RoleHandler.AddUserRole NewTransactionHandler
      (World.mk rbacTables [none, none, none, none,
        some (GoError.Storage "connection reset")]) 1 1).2.tables.user_roles
      = [model.UserRole.mk 1 1 1 false] := by
  refine ⟨by decide, by decide, by decide⟩

/-- C15 (amended). In the flow StartTransaction, `RoleService.AddUserRole`, then
CommitTransaction or RollbackTransaction: when `StartTransaction` fails or the
service call returns an error, the answer has status 500 and the committed tables
are those before the flow; when the service call returns no error, the committed
tables after the flow are those the service call left, whether `CommitTransaction`
then succeeds or fails, because the repository works in a transaction of its own
and the handler's transaction holds no write. -/
theorem flow_keeps_what_the_service_committed (h : TransactionHandler) (w : World)
    (userID roleID : Nat) :
    ((h.StartTransaction w).1.1 ≠ none →
      (RoleHandler.AddUserRole h w userID roleID).1.1.status = 500 ∧
      (RoleHandler.AddUserRole h w userID roleID).2.tables = w.tables) ∧
    ((h.StartTransaction w).1.1 = none →
      (RoleService.AddUserRole (h.StartTransaction w).2 userID roleID).1 ≠ none →
      (RoleHandler.AddUserRole h w userID roleID).1.1.status = 500 ∧
      (RoleHandler.AddUserRole h w userID roleID).2.tables = w.tables) ∧
    ((h.StartTransaction w).1.1 = none →
      (RoleHandler.AddUserRole h w userID roleID).2.tables
        = (RoleService.AddUserRole (h.StartTransaction w).2 userID roleID).2.tables) := by
  have hst := (TransactionHandler.StartTransaction_spec h w).1
  unfold RoleHandler.AddUserRole
  rcases hs : h.StartTransaction w with ⟨⟨e, h1⟩, w1⟩
  rw [hs] at hst
  simp only at hst
  cases e with
  | some e => exact ⟨fun _ => ⟨rfl, hst⟩, fun hn => by simp at hn, fun hn => by simp at hn⟩
  | none =>
    dsimp only
    have herr := RoleService.AddUserRole_error_keeps_tables w1 userID roleID
    rcases hsv : RoleService.AddUserRole w1 userID roleID with ⟨e2, w2⟩
    rw [hsv] at herr
    simp only at herr
    cases e2 with
    | some e2 =>
      dsimp only
      have hrt := TransactionHandler.RollbackTransaction_tables h1 w2
      rcases hrb : h1.RollbackTransaction w2 with ⟨⟨e3, h2⟩, w3⟩
      rw [hrb] at hrt
      simp only at hrt
      have hw2 := herr (by simp)
      exact ⟨fun hn => absurd rfl hn, fun _ _ => ⟨rfl, by rw [hrt, hw2, hst]⟩,
        fun _ => hrt⟩
    | none =>
      dsimp only
      have hct := TransactionHandler.CommitTransaction_tables h1 w2
      rcases hcm : h1.CommitTransaction w2 with ⟨⟨e3, h2⟩, w3⟩
      rw [hcm] at hct
      simp only at hct
      cases e3 with
      | some e3 =>
        exact ⟨fun hn => absurd rfl hn, fun _ hn => absurd rfl hn, fun _ => hct⟩
      | none =>
        exact ⟨fun hn => absurd rfl hn, fun _ hn => absurd rfl hn, fun _ => hct⟩

/-- C15 (amended) at a concrete input: the role 2 does not exist, the service call
fails and no row is committed. -/
theorem flow_keeps_what_the_service_committed_witness :
    (RoleHandler.AddUserRole NewTransactionHandler (World.reliable rbacTables) 1 2).1.1.status
      = 500 ∧
    (RoleHandler.AddUserRole NewTransactionHandler (World.reliable rbacTables) 1 2).2.tables
      = rbacTables :=
  (flow_keeps_what_the_service_committed NewTransactionHandler (World.reliable rbacTables)
    1 2).2.1 (by decide) (by decide)

/-! ## Pagination -/

theorem wrapInt64_of_range (x : Int) (h1 : -(2 ^ 63) ≤ x) (h2 : x < 2 ^ 63) :
    wrapInt64 x = x := by
  unfold wrapInt64
  rw [Int.emod_eq_of_lt (by omega) (by omega)]
  omega

/-- Without overflow the offset handed to `Offset` is `(page - 1) * pageSize`. -/
theorem userRepository.pageOffset_eq (page pageSize : Int) (hp : 0 ≤ page)
    (hs : 0 < pageSize) (hs2 : pageSize < 2 ^ 63) (hb : page * pageSize < 2 ^ 63) :
    userRepository.pageOffset page pageSize = (page - 1) * pageSize := by
  unfold userRepository.pageOffset
  have hps : page ≤ page * pageSize := by nlinarith
  rw [wrapInt64_of_range (page - 1) (by omega) (by omega)]
  have h1 : (page - 1) * pageSize = page * pageSize - pageSize := by ring
  rw [wrapInt64_of_range ((page - 1) * pageSize) (by rw [h1]; nlinarith) (by rw [h1]; omega)]

theorem gorm.offsetLimit_of_nonpos {α : Type} (rows : List α) (offset limit : Int)
    (h : offset ≤ 0) : gorm.offsetLimit rows offset limit = gorm.offsetLimit rows 0 limit := by
  unfold gorm.offsetLimit
  have h1 : ¬ offset > 0 := by omega
  simp [h1]

/-- C16 (the code departs from the claim). For every page ≥ 0 and pageSize > 0 (within
the range of `int`), `ListUsers` and `SearchUsers` hand `(page - 1) * pageSize` to
`Offset`, not `page * pageSize`: for page 0 this is the negative number `-pageSize`,
and page 1 is answered with the same rows as page 0, the first `pageSize` rows. -/
theorem page_offset_is_one_page_behind (like : String → String → Bool) (w : World)
    (query : String) (page pageSize : Int) (hp : 0 ≤ page) (hs : 0 < pageSize)
    (hs2 : pageSize < 2 ^ 63) (hb : page * pageSize < 2 ^ 63) :
    userRepository.pageOffset page pageSize = (page - 1) * pageSize ∧
    userRepository.pageOffset page pageSize ≠ page * pageSize ∧
    userRepository.pageOffset 0 pageSize = -pageSize ∧
    userRepository.pageOffset 0 pageSize < 0 ∧
    UserService.ListUsers w 1 pageSize = UserService.ListUsers w 0 pageSize ∧
    UserService.SearchUsers like w query 1 pageSize
      = UserService.SearchUsers like w query 0 pageSize := by
  have h0 := userRepository.pageOffset_eq 0 pageSize (le_refl 0) hs hs2 (by omega)
  have h1 := userRepository.pageOffset_eq 1 pageSize (by omega) hs hs2 (by omega)
  have hpo := userRepository.pageOffset_eq page pageSize hp hs hs2 hb
  have h0' : userRepository.pageOffset 0 pageSize = -pageSize := by rw [h0]; ring
  have h1' : userRepository.pageOffset 1 pageSize = 0 := by rw [h1]; ring
  refine ⟨hpo, ?_, h0', by rw [h0']; omega, ?_, ?_⟩
  · rw [hpo]
    intro h
    have : (page - 1) * pageSize = page * pageSize - pageSize := by ring
    omega
  · unfold UserService.ListUsers userRepository.ListUsers
    have hol : ∀ rows : List model.User,
        gorm.offsetLimit rows (userRepository.pageOffset 0 pageSize) pageSize
          = gorm.offsetLimit rows 0 pageSize :=
      fun rows => gorm.offsetLimit_of_nonpos rows _ _ (by rw [h0']; omega)
    simp only [h1', hol]
    have hc1 : ((decide ((1 : Int) < 0)) || decide (pageSize ≤ 0)) = false := by
      simp; omega
    have hc0 : ((decide ((0 : Int) < 0)) || decide (pageSize ≤ 0)) = false := by
      simp; omega
    simp only [hc1, hc0]
  · unfold UserService.SearchUsers userRepository.SearchUsers
    have hol : ∀ rows : List model.User,
        gorm.offsetLimit rows (userRepository.pageOffset 0 pageSize) pageSize
          = gorm.offsetLimit rows 0 pageSize :=
      fun rows => gorm.offsetLimit_of_nonpos rows _ _ (by rw [h0']; omega)
    simp only [h1', hol]
    have hc1 : ((decide ((1 : Int) < 0)) || decide (pageSize ≤ 0)) = false := by
      simp; omega
    have hc0 : ((decide ((0 : Int) < 0)) || decide (pageSize ≤ 0)) = false := by
      simp; omega
    simp only [hc1, hc0]

/-- C16 at a concrete input: three stored users and a page size of 1. The request
without parameters asks for page 0 with 100 rows and hands -100 to `Offset`; page 0
and page 1 both return alice, and bob comes with page 2. -/
theorem page_offset_is_one_page_behind_witness :
    getPaginationParams toyAtoi none none = (0, 100) ∧
    userRepository.pageOffset 0 100 = -100 ∧
    (UserService.ListUsers (World.reliable threeUsers) 0 1).1 = ([storedAlice], none) ∧
    (UserService.ListUsers (World.reliable threeUsers) 1 1).1 = ([storedAlice], none) ∧
    (UserService.ListUsers (World.reliable threeUsers) 2 1).1 = ([storedBob], none) ∧
    UserService.ListUsers (World.reliable threeUsers) 1 1
      = UserService.ListUsers (World.reliable threeUsers) 0 1 :=
  ⟨by decide, by decide, by decide, by decide, by decide,
   (page_offset_is_one_page_behind (fun _ _ => true) (World.reliable threeUsers) "" 1 1
     (by decide) (by decide) (by decide) (by decide)).2.2.2.2.1⟩

/-! ## Validation of roles and permissions -/

/-- C17 (the code departs from the claim). `validateAndSanitizeRole` measures the name
before it trims it: the role named by three blanks is accepted and leaves an empty
RoleName, and the role named " ab " is accepted and leaves the two-byte name "ab";
`validateAndSanitizePermission`, which trims first, rejects the blank name. -/
theorem blank_role_name_is_accepted :
    validateAndSanitizeRole (some (model.Role.mk 0 "   " false))
      = (none, some (model.Role.mk 0 "" false)) ∧
    strings.TrimSpace "   " = "" ∧
    validateAndSanitizeRole (some (model.Role.mk 0 " ab " false))
      = (none, some (model.Role.mk 0 "ab" false)) ∧
    len "ab" = 2 ∧
    (validateAndSanitizePermission asciiLower (some (model.Permission.mk 0 "   " false))).1
      = some (GoError.AppError errors.CodeBadRequest
          "Permission name cannot be less than three characters") := by
  refine ⟨by decide, by decide, by decide, by decide, by decide⟩

/-- Trimming at both ends a list that was trimmed at both ends changes nothing. -/
theorem List.trim_trim {α : Type} (p : α → Bool) (l : List α) :
    ((((l.dropWhile p).reverse.dropWhile p).reverse.dropWhile p).reverse.dropWhile p).reverse
      = ((l.dropWhile p).reverse.dropWhile p).reverse := by
  have hpre : ((l.dropWhile p).reverse.dropWhile p).reverse <+: l.dropWhile p := by
    rw [← List.reverse_suffix, List.reverse_reverse]
    exact List.dropWhile_suffix p
  have h1 : (((l.dropWhile p).reverse.dropWhile p).reverse).dropWhile p
      = ((l.dropWhile p).reverse.dropWhile p).reverse := by
    obtain ⟨c, hc⟩ := hpre
    cases hb : ((l.dropWhile p).reverse.dropWhile p).reverse with
    | nil => rfl
    | cons x r =>
      rw [hb] at hc
      have hne : l.dropWhile p ≠ [] := by rw [← hc]; simp
      have hx := List.head_dropWhile_not p l hne
      have hhead : (l.dropWhile p).head hne = x := by
        have : (l.dropWhile p).head? = some x := by rw [← hc]; rfl
        rw [List.head?_eq_head hne] at this
        exact Option.some.inj this
      rw [hhead] at hx
      exact List.dropWhile_cons_of_neg (by simp [hx])
  rw [h1, List.reverse_reverse, List.dropWhile_idempotent]

theorem List.mem_of_mem_trim {α : Type} (p : α → Bool) (l : List α) (x : α)
    (hx : x ∈ ((l.dropWhile p).reverse.dropWhile p).reverse) : x ∈ l := by
  rw [List.mem_reverse] at hx
  have h1 := (List.dropWhile_sublist p (l := (l.dropWhile p).reverse)).subset hx
  rw [List.mem_reverse] at h1
  exact (List.dropWhile_sublist p (l := l)).subset h1

theorem strings.TrimSpace_TrimSpace (s : String) :
    strings.TrimSpace (strings.TrimSpace s) = strings.TrimSpace s := by
  unfold strings.TrimSpace
  simp only [List.trim_trim]

/-- Lower-casing a trimmed lower-cased string changes nothing, for a case table
whose images are their own images. -/
theorem strings.ToLower_TrimSpace_ToLower (lower : Char → Char)
    (hlower : ∀ c, lower (lower c) = lower c) (s : String) :
    strings.ToLower lower (strings.TrimSpace (strings.ToLower lower s))
      = strings.TrimSpace (strings.ToLower lower s) := by
  unfold strings.ToLower strings.TrimSpace
  simp only
  congr 1
  have hfix : ∀ x ∈ (((s.data.map lower).dropWhile strings.IsSpace).reverse.dropWhile
      strings.IsSpace).reverse, lower x = id x := by
    intro x hx
    have hm := List.mem_of_mem_trim strings.IsSpace (s.data.map lower) x hx
    obtain ⟨c, _, rfl⟩ := List.mem_map.1 hm
    exact hlower c
  rw [List.map_congr_left hfix, List.map_id]

/-- C18. For every permission: `validateAndSanitizePermission` returns no error exactly
when `TrimSpace(ToLower(name))` has a length between 1 and 255, and then the stored
PermissionName is `TrimSpace(ToLower(name))`; on a nil permission, and when that
length is 0 or above 255, it returns an AppError of code BadRequest; and, for a case
table whose images are their own images, a second application to a successful
result returns no error and changes nothing. -/
theorem permission_name_is_normalised (lower : Char → Char) (p : model.Permission) :
    ((validateAndSanitizePermission lower (some p)).1 = none ↔
      1 ≤ len (strings.TrimSpace (strings.ToLower lower p.PermissionName)) ∧
      len (strings.TrimSpace (strings.ToLower lower p.PermissionName)) ≤ 255) ∧
    ((validateAndSanitizePermission lower (some p)).1 = none →
      (validateAndSanitizePermission lower (some p)).2 = some { p with
        PermissionName := strings.TrimSpace (strings.ToLower lower p.PermissionName) }) ∧
    (∃ m, (validateAndSanitizePermission lower none).1
      = some (GoError.AppError errors.CodeBadRequest m)) ∧
    ((len (strings.TrimSpace (strings.ToLower lower p.PermissionName)) = 0 ∨
      255 < len (strings.TrimSpace (strings.ToLower lower p.PermissionName))) →
      ∃ m, (validateAndSanitizePermission lower (some p)).1
        = some (GoError.AppError errors.CodeBadRequest m)) ∧
    ((∀ c, lower (lower c) = lower c) →
      (validateAndSanitizePermission lower (some p)).1 = none →
      validateAndSanitizePermission lower (validateAndSanitizePermission lower (some p)).2
        = (none, (validateAndSanitizePermission lower (some p)).2)) := by
  have hval : ∀ q : model.Permission,
      1 ≤ len (strings.TrimSpace (strings.ToLower lower q.PermissionName)) →
      len (strings.TrimSpace (strings.ToLower lower q.PermissionName)) ≤ 255 →
      validateAndSanitizePermission lower (some q) = (none, some { q with
        PermissionName := strings.TrimSpace (strings.ToLower lower q.PermissionName) }) := by
    intro q h1 h2
    unfold validateAndSanitizePermission
    have c1 : ¬ len (strings.TrimSpace (strings.ToLower lower q.PermissionName)) ≤ 0 := by
      omega
    have c2 : ¬ len (strings.TrimSpace (strings.ToLower lower q.PermissionName)) > 255 := by
      omega
    simp only [c1, c2, if_false]
  have hbad : (len (strings.TrimSpace (strings.ToLower lower p.PermissionName)) = 0 ∨
      255 < len (strings.TrimSpace (strings.ToLower lower p.PermissionName))) →
      ∃ m, (validateAndSanitizePermission lower (some p)).1
        = some (GoError.AppError errors.CodeBadRequest m) := by
    intro h
    unfold validateAndSanitizePermission
    by_cases c1 : len (strings.TrimSpace (strings.ToLower lower p.PermissionName)) ≤ 0
    · simp only [c1, if_true]
      exact ⟨_, rfl⟩
    · have c2 : len (strings.TrimSpace (strings.ToLower lower p.PermissionName)) > 255 := by
        omega
      simp only [c1, c2, if_true, if_false]
      exact ⟨_, rfl⟩
  have hiff : (validateAndSanitizePermission lower (some p)).1 = none ↔
      1 ≤ len (strings.TrimSpace (strings.ToLower lower p.PermissionName)) ∧
      len (strings.TrimSpace (strings.ToLower lower p.PermissionName)) ≤ 255 := by
    constructor
    · intro hnone
      by_contra hcon
      obtain ⟨m, hm⟩ := hbad (by omega)
      rw [hm] at hnone
      simp at hnone
    · intro ⟨h1, h2⟩
      rw [hval p h1 h2]
  refine ⟨hiff, ?_, ⟨_, rfl⟩, hbad, ?_⟩
  · intro hnone
    obtain ⟨h1, h2⟩ := hiff.1 hnone
    rw [hval p h1 h2]
  · intro hlower hnone
    obtain ⟨h1, h2⟩ := hiff.1 hnone
    rw [hval p h1 h2]
    have hfix : strings.TrimSpace (strings.ToLower lower
        (strings.TrimSpace (strings.ToLower lower p.PermissionName)))
        = strings.TrimSpace (strings.ToLower lower p.PermissionName) := by
      rw [strings.ToLower_TrimSpace_ToLower lower hlower, strings.TrimSpace_TrimSpace]
    have h := hval { p with
      PermissionName := strings.TrimSpace (strings.ToLower lower p.PermissionName) }
      (by simp only; rw [hfix]; exact h1) (by simp only; rw [hfix]; exact h2)
    rw [h]
    simp only [hfix]

theorem toNat_ofNat_of_small (n : Nat) (h : n < 55296) : (Char.ofNat n).toNat = n := by
  unfold Char.ofNat
  have hv : n.isValidChar := Or.inl h
  rw [dif_pos hv]
  rfl

/-- The ASCII case table maps its images to themselves. -/
theorem asciiLower_asciiLower (c : Char) : asciiLower (asciiLower c) = asciiLower c := by
  unfold asciiLower
  by_cases h : c.toNat ≥ 65 ∧ c.toNat ≤ 90
  · have h1 : c.toLower = Char.ofNat (c.toNat + 32) := by
      unfold Char.toLower
      simp only [h, and_self, if_true]
    rw [h1]
    have h2 : (Char.ofNat (c.toNat + 32)).toNat = c.toNat + 32 :=
      toNat_ofNat_of_small _ (by omega)
    unfold Char.toLower
    simp only [h2]
    have h3 : ¬ (c.toNat + 32 ≥ 65 ∧ c.toNat + 32 ≤ 90) := by omega
    simp only [h3, if_false]
  · have h1 : c.toLower = c := by
      unfold Char.toLower
      simp only [h, if_false]
    rw [h1, h1]

/-- C18 at a concrete input: " Read " is stored as "read", and a second application
leaves "read". -/
theorem permission_name_is_normalised_witness :
    validateAndSanitizePermission asciiLower (some (model.Permission.mk 0 " Read " false))
      = (none, some (model.Permission.mk 0 "read" false)) ∧
    validateAndSanitizePermission asciiLower
        (validateAndSanitizePermission asciiLower
          (some (model.Permission.mk 0 " Read " false))).2
      = (none, (validateAndSanitizePermission asciiLower
          (some (model.Permission.mk 0 " Read " false))).2) :=
  ⟨by decide,
   (permission_name_is_normalised asciiLower (model.Permission.mk 0 " Read " false)).2.2.2.2
     asciiLower_asciiLower (by decide)⟩

/-! ## Blank usernames -/

/-- C19 (the code departs from the claim). The user whose name is three blanks passes
`validateInput`, which measures the name before `sanitizeInput` trims it; the
sanitized name is empty, and `UserService.CreateUser` looks it up in the
repository: on an engine whose next round trip fails that round trip is used up,
and in a store that holds a user with the empty name the answer is "Username already
exists". -/
theorem blank_username_reaches_the_repository :
    validateInput (some blankUser) = none ∧
    (sanitizeInput asciiLower blankUser).Username = "" ∧
    UserService.CreateUser asciiLower
        (World.mk noTables [some (GoError.Storage "connection reset")]) (some blankUser)
      = ((some (GoError.AppError 500 "An unexpected error occurred"),
          some (model.User.mk 0 "" "secret1" "a@x.com" false)), World.mk noTables []) ∧
    (UserService.CreateUser asciiLower (World.reliable namelessTables) (some blankUser)).1.1
      = some (GoError.AppError 400 "Username already exists") := by
  refine ⟨by decide, by decide, by decide, by decide⟩

/-! ## The errors of the services -/

theorem service.Made_none : service.Made none := by
  intro x hx
  cases hx

theorem service.Made_some (c : GoError) (h : c ∈ service.serviceErrors) :
    service.Made (some c) := by
  intro x hx
  injection hx with hx
  rw [← hx]
  exact h

theorem validateAndSanitizeRole_made (role : Option model.Role) :
    service.Made (validateAndSanitizeRole role).1 := by
  unfold validateAndSanitizeRole
  split
  · (try dsimp only); exact service.Made_some _ (by decide)
  · split
    · (try dsimp only); exact service.Made_some _ (by decide)
    · (try dsimp only); exact service.Made_none

theorem validateAndSanitizePermission_made (lower : Char → Char)
    (permission : Option model.Permission) :
    service.Made (validateAndSanitizePermission lower permission).1 := by
  unfold validateAndSanitizePermission
  split
  · (try dsimp only); exact service.Made_some _ (by decide)
  · simp only
    split
    · (try dsimp only); exact service.Made_some _ (by decide)
    · split
      · (try dsimp only); exact service.Made_some _ (by decide)
      · (try dsimp only); exact service.Made_none

theorem service.UserService.GetUserByUsername_made {σ : Type} (s : service.UserService σ)
    (st : σ) (username : String) :
    service.Made (s.GetUserByUsername st username).1.2 := by
  unfold service.UserService.GetUserByUsername
  rcases s.UserRepo.GetUserByUsername st username with ⟨⟨v, e⟩, st1⟩
  cases e
  · (try dsimp only); exact service.Made_none
  · (try dsimp only); exact service.Made_some _ (by decide)

theorem service.UserService.GetUserByID_made {σ : Type} (s : service.UserService σ)
    (st : σ) (id : Nat) :
    service.Made (s.GetUserByID st id).1.2 := by
  unfold service.UserService.GetUserByID
  rcases s.UserRepo.GetUserByID st id with ⟨⟨v, e⟩, st1⟩
  cases e
  · (try dsimp only); exact service.Made_none
  · (try dsimp only); exact service.Made_some _ (by decide)

theorem service.UserService.ListUsers_made {σ : Type} (s : service.UserService σ)
    (st : σ) (page pageSize : Int) :
    service.Made (s.ListUsers st page pageSize).1.2 := by
  unfold service.UserService.ListUsers
  split
  · (try dsimp only); exact service.Made_some _ (by decide)
  · rcases s.UserRepo.ListUsers st page pageSize with ⟨⟨v, e⟩, st1⟩
    cases e
    · (try dsimp only); exact service.Made_none
    · (try dsimp only); exact service.Made_some _ (by decide)

theorem service.UserService.SearchUsers_made {σ : Type} (s : service.UserService σ)
    (st : σ) (query : String) (page pageSize : Int) :
    service.Made (s.SearchUsers st query page pageSize).1.2 := by
  unfold service.UserService.SearchUsers
  split
  · (try dsimp only); exact service.Made_some _ (by decide)
  · rcases s.UserRepo.SearchUsers st query page pageSize with ⟨⟨v, e⟩, st1⟩
    cases e
    · (try dsimp only); exact service.Made_none
    · (try dsimp only); exact service.Made_some _ (by decide)

theorem service.UserService.CountUsers_made {σ : Type} (s : service.UserService σ) (st : σ) :
    service.Made (s.CountUsers st).1.2 := by
  unfold service.UserService.CountUsers
  rcases s.UserRepo.CountUsers st with ⟨⟨v, e⟩, st1⟩
  cases e
  · (try dsimp only); exact service.Made_none
  · (try dsimp only); exact service.Made_some _ (by decide)

theorem service.RoleService.GetRoleByID_made {σ : Type} (s : service.RoleService σ)
    (st : σ) (id : Nat) :
    service.Made (s.GetRoleByID st id).1.2 := by
  unfold service.RoleService.GetRoleByID
  split
  · (try dsimp only); exact service.Made_some _ (by decide)
  · rcases s.RoleRepo.GetRoleByID st id with ⟨⟨v, e⟩, st1⟩
    cases e
    · (try dsimp only); exact service.Made_none
    · (try dsimp only); exact service.Made_some _ (by decide)

theorem service.RoleService.DeleteRole_made {σ : Type} (s : service.RoleService σ)
    (st : σ) (id : Nat) :
    service.Made (s.DeleteRole st id).1 := by
  unfold service.RoleService.DeleteRole
  split
  · (try dsimp only); exact service.Made_some _ (by decide)
  · rcases s.RoleRepo.DeleteRole st id with ⟨e, st1⟩
    cases e
    · (try dsimp only); exact service.Made_none
    · (try dsimp only); exact service.Made_some _ (by decide)

theorem service.RoleService.AddUserRole_made {σ : Type} (s : service.RoleService σ)
    (st : σ) (userID roleID : Nat) :
    service.Made (s.AddUserRole st userID roleID).1 := by
  unfold service.RoleService.AddUserRole
  split
  · (try dsimp only); exact service.Made_some _ (by decide)
  · split
    · (try dsimp only); exact service.Made_some _ (by decide)
    · rcases s.RoleRepo.AddUserRole st userID roleID with ⟨e, st1⟩
      cases e
      · (try dsimp only); exact service.Made_none
      · (try dsimp only); exact service.Made_some _ (by decide)

theorem service.RoleService.RemoveUserRole_made {σ : Type} (s : service.RoleService σ)
    (st : σ) (userID roleID : Nat) :
    service.Made (s.RemoveUserRole st userID roleID).1 := by
  unfold service.RoleService.RemoveUserRole
  split
  · (try dsimp only); exact service.Made_some _ (by decide)
  · split
    · (try dsimp only); exact service.Made_some _ (by decide)
    · rcases s.RoleRepo.RemoveUserRole st userID roleID with ⟨e, st1⟩
      cases e
      · (try dsimp only); exact service.Made_none
      · (try dsimp only); exact service.Made_some _ (by decide)

theorem service.RoleService.GetAllRoles_made {σ : Type} (s : service.RoleService σ) (st : σ) :
    service.Made (s.GetAllRoles st).1.2 := by
  unfold service.RoleService.GetAllRoles
  rcases s.RoleRepo.GetAllRoles st with ⟨⟨v, e⟩, st1⟩
  cases e
  · (try dsimp only); exact service.Made_none
  · (try dsimp only); exact service.Made_some _ (by decide)

theorem service.RoleService.GetRolesByUserID_made {σ : Type} (s : service.RoleService σ)
    (st : σ) (userID : Nat) :
    service.Made (s.GetRolesByUserID st userID).1.2 := by
  unfold service.RoleService.GetRolesByUserID
  split
  · (try dsimp only); exact service.Made_some _ (by decide)
  · rcases s.RoleRepo.GetRolesByUserID st userID with ⟨⟨v, e⟩, st1⟩
    cases e
    · (try dsimp only); exact service.Made_none
    · (try dsimp only); exact service.Made_some _ (by decide)

theorem service.RoleService.UserHasRole_made {σ : Type} (s : service.RoleService σ)
    (st : σ) (userID : Nat) (roleName : String) :
    service.Made (s.UserHasRole st userID roleName).1.2 := by
  unfold service.RoleService.UserHasRole
  split
  · (try dsimp only); exact service.Made_some _ (by decide)
  · split
    · (try dsimp only); exact service.Made_some _ (by decide)
    · rcases s.RoleRepo.UserHasRole st userID roleName with ⟨⟨v, e⟩, st1⟩
      cases e
      · (try dsimp only); exact service.Made_none
      · (try dsimp only); exact service.Made_some _ (by decide)

theorem service.PermissionService.GetAllPermissions_made {σ : Type}
    (s : service.PermissionService σ)
    (st : σ) :
    service.Made (s.GetAllPermissions st).1.2 := by
  unfold service.PermissionService.GetAllPermissions
  rcases s.PermissionRepo.GetAllPermissions st with ⟨⟨v, e⟩, st1⟩
  cases e
  · (try dsimp only); exact service.Made_none
  · (try dsimp only); exact service.Made_some _ (by decide)

theorem service.PermissionService.GetPermissionByID_made {σ : Type}
    (s : service.PermissionService σ)
    (st : σ) (permissionID : Nat) :
    service.Made (s.GetPermissionByID st permissionID).1.2 := by
  unfold service.PermissionService.GetPermissionByID
  split
  · (try dsimp only); exact service.Made_some _ (by decide)
  · rcases s.PermissionRepo.GetPermissionByID st permissionID with ⟨⟨v, e⟩, st1⟩
    cases e
    · (try dsimp only); exact service.Made_none
    · (try dsimp only); exact service.Made_some _ (by decide)

theorem service.PermissionService.DeletePermission_made {σ : Type} (s : service.PermissionService σ)
    (st : σ) (permissionID : Nat) :
    service.Made (s.DeletePermission st permissionID).1 := by
  unfold service.PermissionService.DeletePermission
  split
  · (try dsimp only); exact service.Made_some _ (by decide)
  · rcases s.PermissionRepo.DeletePermission st permissionID with ⟨e, st1⟩
    cases e
    · (try dsimp only); exact service.Made_none
    · (try dsimp only); exact service.Made_some _ (by decide)

theorem service.PermissionService.AssignPermissionToRole_made {σ : Type}
    (s : service.PermissionService σ)
    (st : σ) (roleID permissionID : Nat) :
    service.Made (s.AssignPermissionToRole st roleID permissionID).1 := by
  unfold service.PermissionService.AssignPermissionToRole
  split
  · (try dsimp only); exact service.Made_some _ (by decide)
  · rcases s.PermissionRepo.AssignPermissionToRole st roleID permissionID with ⟨e, st1⟩
    cases e
    · (try dsimp only); exact service.Made_none
    · (try dsimp only); exact service.Made_some _ (by decide)

theorem service.PermissionService.RemovePermissionFromRole_made {σ : Type}
    (s : service.PermissionService σ)
    (st : σ) (roleID permissionID : Nat) :
    service.Made (s.RemovePermissionFromRole st roleID permissionID).1 := by
  unfold service.PermissionService.RemovePermissionFromRole
  split
  · (try dsimp only); exact service.Made_some _ (by decide)
  · rcases s.PermissionRepo.RemovePermissionFromRole st roleID permissionID with ⟨e, st1⟩
    cases e
    · (try dsimp only); exact service.Made_none
    · (try dsimp only); exact service.Made_some _ (by decide)

theorem service.PermissionService.GetPermissionsByRoleID_made {σ : Type}
    (s : service.PermissionService σ)
    (st : σ) (roleID : Nat) :
    service.Made (s.GetPermissionsByRoleID st roleID).1.2 := by
  unfold service.PermissionService.GetPermissionsByRoleID
  split
  · (try dsimp only); exact service.Made_some _ (by decide)
  · rcases s.PermissionRepo.GetPermissionsByRoleID st roleID with ⟨⟨v, e⟩, st1⟩
    cases e
    · (try dsimp only); exact service.Made_none
    · (try dsimp only); exact service.Made_some _ (by decide)

theorem service.PermissionService.GetRolesByPermissionID_made {σ : Type}
    (s : service.PermissionService σ)
    (st : σ) (permissionID : Nat) :
    service.Made (s.GetRolesByPermissionID st permissionID).1.2 := by
  unfold service.PermissionService.GetRolesByPermissionID
  split
  · (try dsimp only); exact service.Made_some _ (by decide)
  · rcases s.PermissionRepo.GetRolesByPermissionID st permissionID with ⟨⟨v, e⟩, st1⟩
    cases e
    · (try dsimp only); exact service.Made_none
    · (try dsimp only); exact service.Made_some _ (by decide)

theorem service.PermissionService.AddMultiplePermissionsToRole_made {σ : Type}
    (s : service.PermissionService σ)
    (st : σ) (roleID : Nat) (permissionIDs : List Nat) :
    service.Made (s.AddMultiplePermissionsToRole st roleID permissionIDs).1 := by
  unfold service.PermissionService.AddMultiplePermissionsToRole
  split
  · (try dsimp only); exact service.Made_some _ (by decide)
  · rcases s.PermissionRepo.AddMultiplePermissionsToRole st roleID permissionIDs with ⟨e, st1⟩
    cases e
    · (try dsimp only); exact service.Made_none
    · (try dsimp only); exact service.Made_some _ (by decide)

theorem service.PermissionService.RemoveMultiplePermissionsFromRole_made {σ : Type}
    (s : service.PermissionService σ)
    (st : σ) (roleID : Nat) (permissionIDs : List Nat) :
    service.Made (s.RemoveMultiplePermissionsFromRole st roleID permissionIDs).1 := by
  unfold service.PermissionService.RemoveMultiplePermissionsFromRole
  split
  · (try dsimp only); exact service.Made_some _ (by decide)
  · rcases s.PermissionRepo.RemoveMultiplePermissionsFromRole st roleID permissionIDs with ⟨e, st1⟩
    cases e
    · (try dsimp only); exact service.Made_none
    · (try dsimp only); exact service.Made_some _ (by decide)

theorem service.UserService.CreateUser_made {σ : Type} (s : service.UserService σ)
    (lower : Char → Char) (st : σ) (user : Option model.User) :
    service.Made (s.CreateUser lower st user).1.1 := by
  unfold service.UserService.CreateUser
  split
  · (try dsimp only); exact service.Made_some _ (by decide)
  · (try dsimp only); exact service.Made_some _ (by decide)
  · rename_i u0 _
    simp only
    rcases s.UserRepo.GetUserByUsername st (sanitizeInput lower u0).Username with
      ⟨⟨v, e⟩, st1⟩
    cases v with
    | some v =>
      cases e with
      | some e => (try dsimp only); exact service.Made_some _ (by decide)
      | none => (try dsimp only); exact service.Made_some _ (by decide)
    | none =>
      cases e with
      | some e => (try dsimp only); exact service.Made_some _ (by decide)
      | none =>
        simp only
        rcases s.UserRepo.CreateUser st1 (sanitizeInput lower u0) with ⟨⟨e2, u1⟩, st2⟩
        cases e2
        · (try dsimp only); exact service.Made_none
        · (try dsimp only); exact service.Made_some _ (by decide)

theorem service.UserService.UpdateUser_made {σ : Type} (s : service.UserService σ)
    (lower : Char → Char) (st : σ) (user : model.User) :
    service.Made (s.UpdateUser lower st user).1.1 := by
  unfold service.UserService.UpdateUser
  split
  · (try dsimp only); exact service.Made_some _ (by decide)
  · split
    · (try dsimp only); exact service.Made_some _ (by decide)
    · simp only
      rcases s.UserRepo.GetUserByUsername st (sanitizeInput lower user).Username with
        ⟨⟨v, e⟩, st1⟩
      cases e with
      | some e => (try dsimp only); exact service.Made_some _ (by decide)
      | none =>
        simp only
        split
        · (try dsimp only); exact service.Made_some _ (by decide)
        · rcases s.UserRepo.UpdateUser st1 (sanitizeInput lower user) with ⟨⟨e2, u1⟩, st2⟩
          cases e2
          · (try dsimp only); exact service.Made_none
          · (try dsimp only); exact service.Made_some _ (by decide)

theorem service.UserService.DeleteUser_made {σ : Type} (s : service.UserService σ)
    (st : σ) (id : Nat) : service.Made (s.DeleteUser st id).1 := by
  unfold service.UserService.DeleteUser
  split
  · (try dsimp only); exact service.Made_some _ (by decide)
  · rcases s.UserRepo.GetUserByID st id with ⟨⟨v, e⟩, st1⟩
    cases v with
    | none =>
      cases e with
      | some e => (try dsimp only); exact service.Made_some _ (by decide)
      | none => (try dsimp only); exact service.Made_some _ (by decide)
    | some v =>
      cases e with
      | some e => (try dsimp only); exact service.Made_some _ (by decide)
      | none =>
        simp only
        rcases s.UserRepo.DeleteUser st1 id with ⟨e2, st2⟩
        cases e2
        · (try dsimp only); exact service.Made_none
        · (try dsimp only); exact service.Made_some _ (by decide)

theorem service.RoleService.CreateRole_made {σ : Type} (s : service.RoleService σ)
    (st : σ) (role : Option model.Role) : service.Made (s.CreateRole st role).1.2 := by
  unfold service.RoleService.CreateRole
  have hv := validateAndSanitizeRole_made role
  generalize validateAndSanitizeRole role = res at hv ⊢
  rcases res with ⟨e, r⟩
  cases e with
  | some e => (try dsimp only); exact hv
  | none =>
    cases r with
    | none => (try dsimp only); exact service.Made_none
    | some r =>
      simp only
      rcases s.RoleRepo.CreateRole st r with ⟨⟨v, e2⟩, st1⟩
      cases e2
      · (try dsimp only); exact service.Made_none
      · (try dsimp only); exact service.Made_some _ (by decide)

theorem service.RoleService.UpdateRole_made {σ : Type} (s : service.RoleService σ)
    (st : σ) (role : Option model.Role) : service.Made (s.UpdateRole st role).1.2 := by
  unfold service.RoleService.UpdateRole
  have hv := validateAndSanitizeRole_made role
  generalize validateAndSanitizeRole role = res at hv ⊢
  rcases res with ⟨e, r⟩
  cases e with
  | some e => (try dsimp only); exact hv
  | none =>
    cases r with
    | none => (try dsimp only); exact service.Made_none
    | some r =>
      simp only
      rcases s.RoleRepo.UpdateRole st r with ⟨⟨v, e2⟩, st1⟩
      cases e2
      · (try dsimp only); exact service.Made_none
      · (try dsimp only); exact service.Made_some _ (by decide)

theorem service.PermissionService.CreatePermission_made {σ : Type}
    (s : service.PermissionService σ) (lower : Char → Char) (st : σ)
    (permission : model.Permission) :
    service.Made (s.CreatePermission lower st permission).1.2 := by
  unfold service.PermissionService.CreatePermission
  have hv := validateAndSanitizePermission_made lower (some permission)
  generalize validateAndSanitizePermission lower (some permission) = res at hv ⊢
  rcases res with ⟨e, r⟩
  cases e with
  | some e => (try dsimp only); exact hv
  | none =>
    cases r with
    | none => (try dsimp only); exact service.Made_none
    | some r =>
      simp only
      rcases s.PermissionRepo.CreatePermission st r with ⟨⟨v, e2⟩, st1⟩
      cases e2
      · (try dsimp only); exact service.Made_none
      · (try dsimp only); exact service.Made_some _ (by decide)

theorem service.PermissionService.UpdatePermission_made {σ : Type}
    (s : service.PermissionService σ) (lower : Char → Char) (st : σ)
    (permission : model.Permission) :
    service.Made (s.UpdatePermission lower st permission).1.2 := by
  unfold service.PermissionService.UpdatePermission
  have hv := validateAndSanitizePermission_made lower (some permission)
  generalize validateAndSanitizePermission lower (some permission) = res at hv ⊢
  rcases res with ⟨e, r⟩
  cases e with
  | some e => (try dsimp only); exact hv
  | none =>
    cases r with
    | none => (try dsimp only); exact service.Made_none
    | some r =>
      simp only
      rcases s.PermissionRepo.UpdatePermission st r with ⟨⟨v, e2⟩, st1⟩
      cases e2
      · (try dsimp only); exact service.Made_none
      · (try dsimp only); exact service.Made_some _ (by decide)

/-- Every value the services make is an AppError with the code 400, 404 or 500. -/
theorem service.serviceErrors_are_app_errors (x : GoError) (hx : x ∈ service.serviceErrors) :
    ∃ code message, x = GoError.AppError code message ∧
      (code = 400 ∨ code = 404 ∨ code = 500) := by
  simp only [service.serviceErrors, List.mem_cons, List.mem_singleton, List.not_mem_nil,
    or_false] at hx
  rcases hx with h | h | h | h | h | h | h | h | h | h | h | h | h | h | h | h | h | h | h | h <;>
    exact ⟨_, _, h, by decide⟩

/-- C20. Whatever the repositories are and whatever values and errors they return,
every error returned by a method of UserService, RoleService or PermissionService is
nil or one of the error values the services make themselves, each of which is an
AppError with code 400, 404 or 500; an error value of the repository is therefore
never handed on, only replaced by one of these. -/
theorem service_errors_are_made_by_the_services {σ₁ σ₂ σ₃ : Type}
    (us : service.UserService σ₁) (rs : service.RoleService σ₂)
    (ps : service.PermissionService σ₃) (lower : Char → Char) :
    service.serviceErrors.all service.isAppError = true ∧
    (∀ st user, service.Made (us.CreateUser lower st user).1.1) ∧
    (∀ st username, service.Made (us.GetUserByUsername st username).1.2) ∧
    (∀ st id, service.Made (us.GetUserByID st id).1.2) ∧
    (∀ st user, service.Made (us.UpdateUser lower st user).1.1) ∧
    (∀ st id, service.Made (us.DeleteUser st id).1) ∧
    (∀ st page pageSize, service.Made (us.ListUsers st page pageSize).1.2) ∧
    (∀ st query page pageSize, service.Made (us.SearchUsers st query page pageSize).1.2) ∧
    (∀ st, service.Made (us.CountUsers st).1.2) ∧
    (∀ st role, service.Made (rs.CreateRole st role).1.2) ∧
    (∀ st id, service.Made (rs.GetRoleByID st id).1.2) ∧
    (∀ st role, service.Made (rs.UpdateRole st role).1.2) ∧
    (∀ st id, service.Made (rs.DeleteRole st id).1) ∧
    (∀ st userID roleID, service.Made (rs.AddUserRole st userID roleID).1) ∧
    (∀ st userID roleID, service.Made (rs.RemoveUserRole st userID roleID).1) ∧
    (∀ st, service.Made (rs.GetAllRoles st).1.2) ∧
    (∀ st userID, service.Made (rs.GetRolesByUserID st userID).1.2) ∧
    (∀ st userID roleName, service.Made (rs.UserHasRole st userID roleName).1.2) ∧
    (∀ st, service.Made (ps.GetAllPermissions st).1.2) ∧
    (∀ st id, service.Made (ps.GetPermissionByID st id).1.2) ∧
    (∀ st permission, service.Made (ps.CreatePermission lower st permission).1.2) ∧
    (∀ st permission, service.Made (ps.UpdatePermission lower st permission).1.2) ∧
    (∀ st id, service.Made (ps.DeletePermission st id).1) ∧
    (∀ st roleID id, service.Made (ps.AssignPermissionToRole st roleID id).1) ∧
    (∀ st roleID id, service.Made (ps.RemovePermissionFromRole st roleID id).1) ∧
    (∀ st roleID, service.Made (ps.GetPermissionsByRoleID st roleID).1.2) ∧
    (∀ st id, service.Made (ps.GetRolesByPermissionID st id).1.2) ∧
    (∀ st roleID ids, service.Made (ps.AddMultiplePermissionsToRole st roleID ids).1) ∧
    (∀ st roleID ids, service.Made (ps.RemoveMultiplePermissionsFromRole st roleID ids).1) :=
  ⟨by decide,
   fun st user => service.UserService.CreateUser_made us lower st user,
   fun st username => service.UserService.GetUserByUsername_made us st username,
   fun st id => service.UserService.GetUserByID_made us st id,
   fun st user => service.UserService.UpdateUser_made us lower st user,
   fun st id => service.UserService.DeleteUser_made us st id,
   fun st page pageSize => service.UserService.ListUsers_made us st page pageSize,
   fun st query page pageSize => service.UserService.SearchUsers_made us st query page pageSize,
   fun st => service.UserService.CountUsers_made us st,
   fun st role => service.RoleService.CreateRole_made rs st role,
   fun st id => service.RoleService.GetRoleByID_made rs st id,
   fun st role => service.RoleService.UpdateRole_made rs st role,
   fun st id => service.RoleService.DeleteRole_made rs st id,
   fun st userID roleID => service.RoleService.AddUserRole_made rs st userID roleID,
   fun st userID roleID => service.RoleService.RemoveUserRole_made rs st userID roleID,
   fun st => service.RoleService.GetAllRoles_made rs st,
   fun st userID => service.RoleService.GetRolesByUserID_made rs st userID,
   fun st userID roleName => service.RoleService.UserHasRole_made rs st userID roleName,
   fun st => service.PermissionService.GetAllPermissions_made ps st,
   fun st id => service.PermissionService.GetPermissionByID_made ps st id,
   fun st permission => service.PermissionService.CreatePermission_made ps lower st permission,
   fun st permission => service.PermissionService.UpdatePermission_made ps lower st permission,
   fun st id => service.PermissionService.DeletePermission_made ps st id,
   fun st roleID id => service.PermissionService.AssignPermissionToRole_made ps st roleID id,
   fun st roleID id => service.PermissionService.RemovePermissionFromRole_made ps st roleID id,
   fun st roleID => service.PermissionService.GetPermissionsByRoleID_made ps st roleID,
   fun st id => service.PermissionService.GetRolesByPermissionID_made ps st id,
   fun st roleID ids =>
     service.PermissionService.AddMultiplePermissionsToRole_made ps st roleID ids,
   fun st roleID ids =>
     service.PermissionService.RemoveMultiplePermissionsFromRole_made ps st roleID ids⟩

/-- C20 at a concrete input: over repositories whose every call fails with an error of
the engine, a lookup by identifier returns the services' InternalServerError, and
the error of a deletion is one the services make. -/
theorem service_errors_are_made_by_the_services_witness :
    ((service.UserService.mk brokenUserRepo).GetUserByID () 1).1.2
      = some (GoError.AppError 500 "Internal server error occurred") ∧
    service.Made ((service.UserService.mk brokenUserRepo).DeleteUser () 1).1 ∧
    service.Made ((service.RoleService.mk brokenRoleRepo).DeleteRole () 1).1 ∧
    service.Made ((service.PermissionService.mk brokenPermissionRepo).DeletePermission () 1).1 :=
  have h := service_errors_are_made_by_the_services (service.UserService.mk brokenUserRepo)
    (service.RoleService.mk brokenRoleRepo)
    (service.PermissionService.mk brokenPermissionRepo) asciiLower
  ⟨by decide, h.2.2.2.2.2.1 () 1, h.2.2.2.2.2.2.2.2.2.2.2.2.1 () 1,
   h.2.2.2.2.2.2.2.2.2.2.2.2.2.2.2.2.2.2.2.2.2.2.1 () 1⟩

/-! ## The gorm repositories behind the services -/

theorem gorm_UserService_CreateUser (s : service.UserService World)
    (h1 : s.UserRepo.GetUserByUsername = userRepository.GetUserByUsername)
    (h2 : s.UserRepo.CreateUser = userRepository.CreateUser)
    (lower : Char → Char) (w : World) (user : Option model.User) :
    s.CreateUser lower w user = UserService.CreateUser lower w user := by
  unfold service.UserService.CreateUser UserService.CreateUser
  rw [h1, h2]
  cases validateInput user with
  | some e => rfl
  | none =>
    cases user with
    | none => rfl
    | some u0 =>
      simp only
      rcases userRepository.GetUserByUsername w (sanitizeInput lower u0).Username with
        ⟨⟨a, b⟩, w1⟩
      cases a <;> cases b <;> try rfl
      simp only
      rcases userRepository.CreateUser w1 (sanitizeInput lower u0) with ⟨⟨c, d⟩, w2⟩
      cases c <;> rfl

theorem gorm_UserService_GetUserByUsername (s : service.UserService World)
    (h1 : s.UserRepo.GetUserByUsername = userRepository.GetUserByUsername)
    (w : World) (username : String) :
    s.GetUserByUsername w username = UserService.GetUserByUsername w username := by
  unfold service.UserService.GetUserByUsername UserService.GetUserByUsername
  rw [h1]
  rcases userRepository.GetUserByUsername w username with ⟨⟨a, b⟩, w1⟩
  cases b <;> rfl

theorem gorm_UserService_ListUsers (s : service.UserService World)
    (h1 : s.UserRepo.ListUsers = userRepository.ListUsers) (w : World) (page pageSize : Int) :
    s.ListUsers w page pageSize = UserService.ListUsers w page pageSize := by
  unfold service.UserService.ListUsers UserService.ListUsers
  rw [h1]
  split_ifs
  · rfl
  · rcases userRepository.ListUsers w page pageSize with ⟨⟨a, b⟩, w1⟩
    cases b <;> rfl

theorem gorm_UserService_SearchUsers (s : service.UserService World)
    (like : String → String → Bool)
    (h1 : s.UserRepo.SearchUsers = userRepository.SearchUsers like) (w : World)
    (query : String) (page pageSize : Int) :
    s.SearchUsers w query page pageSize = UserService.SearchUsers like w query page pageSize := by
  unfold service.UserService.SearchUsers UserService.SearchUsers
  rw [h1]
  split_ifs
  · rfl
  · rcases userRepository.SearchUsers like w query page pageSize with ⟨⟨a, b⟩, w1⟩
    cases b <;> rfl

theorem gorm_RoleService_AddUserRole (s : service.RoleService World)
    (h1 : s.RoleRepo.AddUserRole = roleRepository.AddUserRole) (w : World)
    (userID roleID : Nat) :
    s.AddUserRole w userID roleID = RoleService.AddUserRole w userID roleID := by
  unfold service.RoleService.AddUserRole RoleService.AddUserRole
  rw [h1]
  split_ifs
  · rfl
  · rfl
  · rcases roleRepository.AddUserRole w userID roleID with ⟨b, w1⟩
    cases b <;> rfl

theorem gorm_RoleService_RemoveUserRole (s : service.RoleService World)
    (h1 : s.RoleRepo.RemoveUserRole = roleRepository.RemoveUserRole) (w : World)
    (userID roleID : Nat) :
    s.RemoveUserRole w userID roleID = RoleService.RemoveUserRole w userID roleID := by
  unfold service.RoleService.RemoveUserRole RoleService.RemoveUserRole
  rw [h1]
  split_ifs
  · rfl
  · rfl
  · rcases roleRepository.RemoveUserRole w userID roleID with ⟨b, w1⟩
    cases b <;> rfl

theorem gorm_RoleService_UserHasRole (s : service.RoleService World)
    (h1 : s.RoleRepo.UserHasRole = roleRepository.UserHasRole) (w : World)
    (userID : Nat) (roleName : String) :
    s.UserHasRole w userID roleName = RoleService.UserHasRole w userID roleName := by
  unfold service.RoleService.UserHasRole RoleService.UserHasRole
  rw [h1]
  split_ifs
  · rfl
  · rfl
  · rcases roleRepository.UserHasRole w userID roleName with ⟨⟨a, b⟩, w1⟩
    cases b <;> rfl

theorem gorm_PermissionService_AssignPermissionToRole (s : service.PermissionService World)
    (h1 : s.PermissionRepo.AssignPermissionToRole = permissionRepository.AssignPermissionToRole)
    (w : World) (roleID permissionID : Nat) :
    s.AssignPermissionToRole w roleID permissionID
      = PermissionService.AssignPermissionToRole w roleID permissionID := by
  unfold service.PermissionService.AssignPermissionToRole
    PermissionService.AssignPermissionToRole
  rw [h1]
  split_ifs
  · rfl
  · rcases permissionRepository.AssignPermissionToRole w roleID permissionID with ⟨b, w1⟩
    cases b <;> rfl

theorem gorm_PermissionService_AddMultiplePermissionsToRole
    (s : service.PermissionService World)
    (h1 : s.PermissionRepo.AddMultiplePermissionsToRole
      = permissionRepository.AddMultiplePermissionsToRole)
    (w : World) (roleID : Nat) (permissionIDs : List Nat) :
    s.AddMultiplePermissionsToRole w roleID permissionIDs
      = PermissionService.AddMultiplePermissionsToRole w roleID permissionIDs := by
  unfold service.PermissionService.AddMultiplePermissionsToRole
    PermissionService.AddMultiplePermissionsToRole
  rw [h1]
  split_ifs
  · rfl
  · rcases permissionRepository.AddMultiplePermissionsToRole w roleID permissionIDs with
      ⟨b, w1⟩
    cases b <;> rfl

theorem gorm_UserService_UpdateUser (s : service.UserService World)
    (h1 : s.UserRepo.GetUserByUsername = userRepository.GetUserByUsername)
    (h2 : s.UserRepo.UpdateUser = userRepository.UpdateUser)
    (lower : Char → Char) (w : World) (user : model.User) :
    s.UpdateUser lower w user = UserService.UpdateUser lower w user := by
  unfold service.UserService.UpdateUser UserService.UpdateUser
  rw [h1, h2]
  split_ifs
  · rfl
  · cases validateInput (some user) with
    | some e => rfl
    | none =>
      simp only
      rcases userRepository.GetUserByUsername w (sanitizeInput lower user).Username with
        ⟨⟨a, b⟩, w1⟩
      cases b with
      | some e => rfl
      | none =>
        simp only
        split_ifs
        · rfl
        · rcases userRepository.UpdateUser w1 (sanitizeInput lower user) with ⟨⟨c, d⟩, w2⟩
          cases c <;> rfl

theorem gorm_UserService_DeleteUser (s : service.UserService World)
    (h1 : s.UserRepo.GetUserByID = userRepository.GetUserByID)
    (h2 : s.UserRepo.DeleteUser = userRepository.DeleteUser) (w : World) (id : Nat) :
    s.DeleteUser w id = UserService.DeleteUser w id := by
  unfold service.UserService.DeleteUser UserService.DeleteUser
  rw [h1, h2]
  split_ifs
  · rfl
  · rcases userRepository.GetUserByID w id with ⟨⟨a, b⟩, w1⟩
    cases a <;> cases b <;> try rfl
    simp only
    rcases userRepository.DeleteUser w1 id with ⟨c, w2⟩
    cases c <;> rfl

theorem gorm_RoleService_CreateRole (s : service.RoleService World)
    (h1 : s.RoleRepo.CreateRole = roleRepository.CreateRole) (w : World)
    (role : Option model.Role) :
    s.CreateRole w role = RoleService.CreateRole w role := by
  unfold service.RoleService.CreateRole RoleService.CreateRole
  rw [h1]
  rcases validateAndSanitizeRole role with ⟨e, r⟩
  cases e with
  | some e => rfl
  | none =>
    cases r with
    | none => rfl
    | some r =>
      simp only
      rcases roleRepository.CreateRole w r with ⟨⟨a, b⟩, w1⟩
      cases b <;> rfl

theorem gorm_PermissionService_CreatePermission (s : service.PermissionService World)
    (h1 : s.PermissionRepo.CreatePermission = permissionRepository.CreatePermission)
    (lower : Char → Char) (w : World) (permission : model.Permission) :
    s.CreatePermission lower w permission
      = PermissionService.CreatePermission lower w permission := by
  unfold service.PermissionService.CreatePermission PermissionService.CreatePermission
  rw [h1]
  rcases validateAndSanitizePermission lower (some permission) with ⟨e, r⟩
  cases e with
  | some e => rfl
  | none =>
    cases r with
    | none => rfl
    | some r =>
      simp only
      rcases permissionRepository.CreatePermission w r with ⟨⟨a, b⟩, w1⟩
      cases b <;> rfl

/-! ## UserService.UpdateUser and UserService.DeleteUser -/

/-- A user the lookup returns is a live row of the table and bears the name. -/
theorem userRepository.GetUserByUsername_some (w : World) (username : String) (u : model.User)
    (e : Option GoError)
    (h : (userRepository.GetUserByUsername w username).1 = (some u, e)) :
    e = none ∧ u ∈ w.tables.users ∧ u.Username = username ∧ u.Deleted = false := by
  unfold userRepository.GetUserByUsername at h
  have ht := World.roundTrip_tables w
  rcases hrt : w.roundTrip with ⟨f, w1⟩
  rw [hrt] at ht h
  simp only at ht
  cases f with
  | some e1 => simp at h
  | none =>
    simp only at h
    cases hf : gorm.firstUserByUsername w1.tables username with
    | none => simp [hf] at h
    | some x =>
      simp only [hf, Prod.mk.injEq, Option.some.injEq] at h
      obtain ⟨hx, he⟩ := h
      subst hx
      have := gorm.firstUserByUsername_some w1.tables username x hf
      rw [ht] at this
      exact ⟨he.symm, this⟩

/-- An input that is out of the bounds of `validateInput` is refused by it. -/
theorem validateInput_of_invalid (user : model.User)
    (hbad : len user.Username < 3 ∨ len user.Username > 255 ∨ len user.PasswordHash < 6 ∨
      strings.Contains user.Email "@" = false) :
    ∃ e, validateInput (some user) = some e := by
  unfold validateInput
  simp only
  by_cases h1 : (decide (len user.Username < 3) || decide (len user.Username > 255)) = true
  · rw [if_pos h1]
    exact ⟨_, rfl⟩
  · rw [if_neg h1]
    by_cases h2 : len user.PasswordHash < 6
    · rw [if_pos h2]
      exact ⟨_, rfl⟩
    · rw [if_neg h2]
      have h3 : strings.Contains user.Email "@" = false := by
        rcases hbad with h | h | h | h
        · exact absurd (by simp [h]) h1
        · exact absurd (by simp [h]) h1
        · exact absurd h h2
        · exact h
      simp [h3]

/-- C21. For every user with a non-zero identifier whose input is out of the bounds
of the validation (a name of fewer than 3 or more than 255 bytes, a password hash of
fewer than 6 bytes, an e-mail address without "@"), `UserService.UpdateUser` returns
at once and calls no repository (the storage engine and the struct are as before),
but the error it returns is InternalServerError (code 500, "Internal server error
occurred"), where `UserService.CreateUser` returns BadRequest (code 400) for the same
input. -/
theorem UpdateUser_invalid_input_is_internal_error (lower : Char → Char) (w : World)
    (user : model.User) (hid : user.ID ≠ 0)
    (hbad : len user.Username < 3 ∨ len user.Username > 255 ∨ len user.PasswordHash < 6 ∨
      strings.Contains user.Email "@" = false) :
    UserService.UpdateUser lower w user
      = ((some (GoError.AppError errors.CodeInternalServerError
          "Internal server error occurred"), user), w) ∧
    UserService.CreateUser lower w (some user)
      = ((some (GoError.AppError errors.CodeBadRequest "Invalid user data"), some user), w) := by
  obtain ⟨e, he⟩ := validateInput_of_invalid user hbad
  constructor
  · unfold UserService.UpdateUser
    rw [if_neg hid, he]
    rfl
  · unfold UserService.CreateUser
    rw [he]
    rfl

/-- C21 at a concrete input: alice (1) with the name "al" of two bytes. -/
theorem UpdateUser_invalid_input_is_internal_error_witness :
    UserService.UpdateUser asciiLower (World.reliable aliceTables)
        (model.User.mk 1 "al" "secret1" "alice@x.com" false)
      = ((some (GoError.AppError 500 "Internal server error occurred"),
          model.User.mk 1 "al" "secret1" "alice@x.com" false), World.reliable aliceTables) ∧
    UserService.CreateUser asciiLower (World.reliable aliceTables)
        (some (model.User.mk 1 "al" "secret1" "alice@x.com" false))
      = ((some (GoError.AppError 400 "Invalid user data"),
          some (model.User.mk 1 "al" "secret1" "alice@x.com" false)),
          World.reliable aliceTables) :=
  UpdateUser_invalid_input_is_internal_error asciiLower (World.reliable aliceTables)
    (model.User.mk 1 "al" "secret1" "alice@x.com" false) (by decide) (Or.inl (by decide))

theorem gorm.firstUserByID_eq_none (t : Tables) (id : Nat) :
    gorm.firstUserByID t id = none ↔ ∀ x ∈ t.users, x.Deleted = false → x.ID ≠ id := by
  unfold gorm.firstUserByID
  rw [gorm.leastBy_eq_none, List.filter_eq_nil_iff]
  constructor
  · intro h x hx hd heq
    have := h x hx
    simp [heq, hd] at this
  · intro h x hx
    by_cases hd : x.Deleted = false
    · have := h x hx hd
      simp [this]
    · simp at hd
      simp [hd]

theorem userRepository.GetUserByID_tables (w : World) (id : Nat) :
    (userRepository.GetUserByID w id).2.tables = w.tables := by
  unfold userRepository.GetUserByID
  cases sql.encodeArgs [id] with
  | some e => rfl
  | none =>
    have ht := World.roundTrip_tables w
    rcases hrt : w.roundTrip with ⟨f, w1⟩
    rw [hrt] at ht
    cases f with
    | some e => exact ht
    | none =>
      cases hf : gorm.firstUserByID w1.tables id <;> simpa [hf] using ht

/-- The lookup by identifier never answers `nil, nil`: without a live row it reports
an error. -/
theorem userRepository.GetUserByID_absent (w : World) (id : Nat)
    (habsent : ∀ x ∈ w.tables.users, x.Deleted = false → x.ID ≠ id) :
    ∃ e, (userRepository.GetUserByID w id).1 = (none, some e) := by
  unfold userRepository.GetUserByID
  cases sql.encodeArgs [id] with
  | some e => exact ⟨e, rfl⟩
  | none =>
    have ht := World.roundTrip_tables w
    rcases hrt : w.roundTrip with ⟨f, w1⟩
    rw [hrt] at ht
    cases f with
    | some e => exact ⟨e, rfl⟩
    | none =>
      simp only at ht
      have := (gorm.firstUserByID_eq_none w1.tables id).2 (by rw [ht]; exact habsent)
      exact ⟨GoError.ErrRecordNotFound, by simp [this]⟩

theorem userRepository.GetUserByID_result (w : World) (id : Nat) :
    (∃ e, (userRepository.GetUserByID w id).1 = (none, some e)) ∨
    (∃ u, (userRepository.GetUserByID w id).1 = (some u, none)) := by
  unfold userRepository.GetUserByID
  cases sql.encodeArgs [id] with
  | some e => exact Or.inl ⟨e, rfl⟩
  | none =>
    rcases hrt : w.roundTrip with ⟨f, w1⟩
    cases f with
    | some e => exact Or.inl ⟨e, rfl⟩
    | none =>
      cases hf : gorm.firstUserByID w1.tables id with
      | none => exact Or.inl ⟨GoError.ErrRecordNotFound, by simp [hf]⟩
      | some u => exact Or.inr ⟨u, by simp [hf]⟩

/-- The branch of `DeleteUser` that answers NotFound is never taken. -/
theorem UserService.DeleteUser_never_not_found (w : World) (id : Nat) :
    (UserService.DeleteUser w id).1
      ≠ some (GoError.AppError errors.CodeNotFound "User not found") := by
  unfold UserService.DeleteUser
  by_cases hid : id = 0
  · rw [if_pos hid]
    dsimp only
    decide
  · rw [if_neg hid]
    rcases userRepository.GetUserByID_result w id with ⟨e, he⟩ | ⟨u, hu⟩
    · rcases hg : userRepository.GetUserByID w id with ⟨⟨a, b⟩, w1⟩
      rw [hg] at he
      simp only [Prod.mk.injEq] at he
      obtain ⟨ha, hb⟩ := he
      subst ha
      subst hb
      simp only
      decide
    · rcases hg : userRepository.GetUserByID w id with ⟨⟨a, b⟩, w1⟩
      rw [hg] at hu
      simp only [Prod.mk.injEq] at hu
      obtain ⟨ha, hb⟩ := hu
      subst ha
      subst hb
      simp only
      rcases userRepository.DeleteUser w1 id with ⟨e2, w2⟩
      cases e2
      · simp
      · simp only
        decide

/-- A zero identifier is refused before the engine is reached. -/
theorem UserService.DeleteUser_zero (w : World) :
    UserService.DeleteUser w 0
      = (some (GoError.AppError errors.CodeBadRequest "User ID cannot be zero"), w) := rfl

/-- On an engine that executes every round trip, an identifier that a live row bears
(a value of a `bigint` column, below 2 ^ 63) is deleted: no error, and no live row
bears the identifier afterwards. -/
theorem UserService.DeleteUser_present (t : Tables) (id : Nat) (hid : id ≠ 0)
    (hsmall : id < 2 ^ 63) (hheld : ∃ x ∈ t.users, x.Deleted = false ∧ x.ID = id) :
    UserService.DeleteUser (World.reliable t) id
      = (none, World.reliable (gorm.softDeleteUser id t)) ∧
    ∀ x ∈ (gorm.softDeleteUser id t).users, x.Deleted = false → x.ID ≠ id := by
  constructor
  · have henc : sql.encodeArgs [id] = none :=
      (sql.encodeArgs_eq_none [id]).2 (by simpa using hsmall)
    unfold UserService.DeleteUser
    rw [if_neg hid]
    unfold userRepository.GetUserByID
    rw [henc]
    simp only
    rw [World.roundTrip_reliable]
    simp only
    cases hf : gorm.firstUserByID (World.reliable t).tables id with
    | none =>
      exfalso
      obtain ⟨x, hx, hd, hn⟩ := hheld
      exact (gorm.firstUserByID_eq_none _ id).1 hf x hx hd hn
    | some u =>
      simp only
      unfold userRepository.DeleteUser
      rw [henc]
      simp only
      rw [World.roundTrip_reliable]
      rfl
  · intro x hx hd heq
    unfold gorm.softDeleteUser at hx
    simp only [List.mem_map] at hx
    obtain ⟨y, _, hy⟩ := hx
    by_cases hc : (y.ID == id && !y.Deleted) = true
    · rw [if_pos hc] at hy
      subst hy
      simp at hd
    · rw [if_neg hc] at hy
      subst hy
      simp [heq, hd] at hc

/-- C22. For every non-zero identifier that no live row of `users` bears,
`UserService.DeleteUser` leaves the tables as they were, but the error it returns is
InternalServerError (code 500), not NotFound (code 404): the repository reports the
missing row as an error, and the service answers every error of the lookup with
code 500. -/
theorem DeleteUser_absent_user_is_internal_error (w : World) (id : Nat) (hid : id ≠ 0)
    (habsent : ∀ x ∈ w.tables.users, x.Deleted = false → x.ID ≠ id) :
    (UserService.DeleteUser w id).1
      = some (GoError.AppError errors.CodeInternalServerError
          "Internal server error occurred") ∧
    (UserService.DeleteUser w id).1.bind GoError.code? ≠ some errors.CodeNotFound ∧
    (UserService.DeleteUser w id).2.tables = w.tables := by
  have ht := userRepository.GetUserByID_tables w id
  obtain ⟨e, he⟩ := userRepository.GetUserByID_absent w id habsent
  unfold UserService.DeleteUser
  rw [if_neg hid]
  rcases hg : userRepository.GetUserByID w id with ⟨⟨a, b⟩, w1⟩
  rw [hg] at he ht
  simp only [Prod.mk.injEq] at he
  obtain ⟨ha, hb⟩ := he
  subst ha
  subst hb
  simp only at ht
  exact ⟨rfl, by dsimp only; decide, ht⟩

/-- C22 at a concrete input: the identifier 5 in a store whose only user is alice (1). -/
theorem DeleteUser_absent_user_is_internal_error_witness :
    (UserService.DeleteUser (World.reliable aliceTables) 5).1
      = some (GoError.AppError 500 "Internal server error occurred") ∧
    (UserService.DeleteUser (World.reliable aliceTables) 5).1.bind GoError.code? ≠ some 404 ∧
    (UserService.DeleteUser (World.reliable aliceTables) 5).2.tables = aliceTables :=
  DeleteUser_absent_user_is_internal_error (World.reliable aliceTables) 5 (by decide)
    (by decide)

theorem userRepository.UpdateUser_tables_of_error (w : World) (user : model.User)
    (h : (userRepository.UpdateUser w user).1.1 ≠ none) :
    (userRepository.UpdateUser w user).2.tables = w.tables := by
  unfold userRepository.UpdateUser at h ⊢
  by_cases hid : user.ID = 0
  · rw [if_pos hid] at h ⊢
    unfold userRepository.CreateUser at h ⊢
    cases henc : sql.encodeArgs [user.ID] with
    | some e => rfl
    | none =>
      rw [henc] at h
      simp only at h ⊢
      have ht := World.roundTrip_tables w
      rcases hrt : w.roundTrip with ⟨f, w1⟩
      rw [hrt] at ht h
      simp only at ht
      cases f with
      | some e => exact ht
      | none =>
        simp only at h ⊢
        cases hins : gorm.insertUser w1.tables user with
        | error e => exact ht
        | ok r =>
          rw [hins] at h
          simp at h
  · rw [if_neg hid] at h ⊢
    cases henc : sql.encodeArgs [user.ID] with
    | some e => rfl
    | none =>
      rw [henc] at h
      simp only at h ⊢
      have ht := World.roundTrip_tables w
      rcases hrt : w.roundTrip with ⟨f, w1⟩
      rw [hrt] at ht h
      simp only at ht
      cases f with
      | some e => exact ht
      | none =>
        simp only at h ⊢
        by_cases hl : (w1.tables.users.any (fun u => u.ID == user.ID && !u.Deleted)) = true
        · rw [if_pos hl] at h ⊢
          cases hc : gorm.userRowError (w1.tables.users.filter (fun u => u.ID != user.ID))
              user with
          | some e => exact ht
          | none =>
            rw [hc] at h
            simp at h
        · rw [if_neg hl] at h ⊢
          have ht2 := World.roundTrip_tables w1
          rcases hrt2 : w1.roundTrip with ⟨f2, w2⟩
          rw [hrt2] at ht2 h
          simp only at ht2
          cases f2 with
          | some e => simp only; rw [ht2, ht]
          | none =>
            simp only at h ⊢
            cases hc : gorm.userRowError (w2.tables.users.filter (fun u => u.ID != user.ID))
                user with
            | some e => simp only; rw [ht2, ht]
            | none =>
              rw [hc] at h
              simp at h

/-- C28. `UserService.UpdateUser` returns nil only if a live row of `users` bears the
sanitized name and has the identifier of the user being updated. Hence, when no live
row bears the sanitized name, the call returns an error and the tables stay as they
were; for an input that passes the validation the answer is the InternalServerError
of the failed lookup, and the storage engine is in the state in which the lookup
left it: the repository's `UpdateUser` was not called. -/
theorem UpdateUser_nil_needs_the_name_held_by_the_same_user (lower : Char → Char)
    (w : World) (user : model.User) :
    ((UserService.UpdateUser lower w user).1.1 = none →
      ∃ x ∈ w.tables.users, x.Deleted = false ∧
        x.Username = (sanitizeInput lower user).Username ∧ x.ID = user.ID) ∧
    ((∀ x ∈ w.tables.users, x.Deleted = false →
        x.Username ≠ (sanitizeInput lower user).Username) →
      (UserService.UpdateUser lower w user).1.1 ≠ none ∧
      (UserService.UpdateUser lower w user).2.tables = w.tables ∧
      (user.ID ≠ 0 → validateInput (some user) = none →
        UserService.UpdateUser lower w user
          = ((some (GoError.AppError errors.CodeInternalServerError
                "Internal server error occurred"), sanitizeInput lower user),
              (userRepository.GetUserByUsername w (sanitizeInput lower user).Username).2))) := by
  constructor
  · intro h
    unfold UserService.UpdateUser at h
    by_cases hid : user.ID = 0
    · rw [if_pos hid] at h
      simp at h
    · rw [if_neg hid] at h
      cases hv : validateInput (some user) with
      | some e =>
        rw [hv] at h
        simp at h
      | none =>
        rw [hv] at h
        simp only at h
        have hsome := userRepository.GetUserByUsername_some w
          (sanitizeInput lower user).Username
        rcases hg : userRepository.GetUserByUsername w (sanitizeInput lower user).Username
          with ⟨⟨a, b⟩, w1⟩
        rw [hg] at h hsome
        cases b with
        | some e => simp at h
        | none =>
          simp only at h
          cases a with
          | none =>
            rcases userRepository.GetUserByUsername_result w
              (sanitizeInput lower user).Username with ⟨e, he⟩ | ⟨u, hu⟩
            · rw [hg] at he
              simp at he
            · rw [hg] at hu
              simp at hu
          | some x =>
            obtain ⟨_, hx, hn, hd⟩ := hsome x none rfl
            by_cases hc : (Option.any (fun y => y.ID != (sanitizeInput lower user).ID)
                (some x)) = true
            · rw [if_pos hc] at h
              simp at h
            · refine ⟨x, hx, hd, hn, ?_⟩
              simp [Option.any] at hc
              rw [hc]
              rfl
  · intro hfree
    obtain ⟨e, he⟩ := userRepository.GetUserByUsername_absent w
      (sanitizeInput lower user).Username hfree
    have ht := userRepository.GetUserByUsername_tables w (sanitizeInput lower user).Username
    unfold UserService.UpdateUser
    by_cases hid : user.ID = 0
    · rw [if_pos hid]
      exact ⟨by simp, rfl, fun h => absurd hid h⟩
    · rw [if_neg hid]
      cases hv : validateInput (some user) with
      | some e1 => exact ⟨by simp, rfl, fun _ h => by simp at h⟩
      | none =>
        simp only
        rcases hg : userRepository.GetUserByUsername w (sanitizeInput lower user).Username
          with ⟨⟨a, b⟩, w1⟩
        rw [hg] at he ht
        simp only [Prod.mk.injEq] at he
        obtain ⟨ha, hb⟩ := he
        subst ha
        subst hb
        simp only at ht
        exact ⟨by simp, ht, fun _ _ => rfl⟩

/-- C28 at two concrete inputs: alice (1) keeps her name and changes her address, which
returns nil; alice changes her name to "alicia", which no stored user bears, and the
call fails with the tables unchanged. -/
theorem UpdateUser_nil_needs_the_name_held_by_the_same_user_witness :
    ((UserService.UpdateUser asciiLower (World.reliable aliceTables)
        (model.User.mk 1 "alice" "secret9" "New@x.com" false)).1.1 = none ∧
      ∃ x ∈ aliceTables.users, x.Deleted = false ∧ x.Username = "alice" ∧ x.ID = 1) ∧
    (UserService.UpdateUser asciiLower (World.reliable aliceTables)
        (model.User.mk 1 "alicia" "secret1" "alice@x.com" false)).1.1 ≠ none ∧
    (UserService.UpdateUser asciiLower (World.reliable aliceTables)
        (model.User.mk 1 "alicia" "secret1" "alice@x.com" false)).2.tables = aliceTables :=
  have h1 := (UpdateUser_nil_needs_the_name_held_by_the_same_user asciiLower
    (World.reliable aliceTables) (model.User.mk 1 "alice" "secret9" "New@x.com" false)).1
    (by decide)
  have h2 := (UpdateUser_nil_needs_the_name_held_by_the_same_user asciiLower
    (World.reliable aliceTables) (model.User.mk 1 "alicia" "secret1" "alice@x.com" false)).2
    (by decide)
  ⟨⟨by decide, h1⟩, h2.1, h2.2.1⟩

/-! ## CreateRole and CreatePermission with a name that is stored -/

/-- The insert of a role whose name a row of `roles` bears is refused. -/
theorem gorm.insertRole_held (t : Tables) (role : model.Role)
    (hheld : ∃ x ∈ t.roles, x.RoleName = role.RoleName) :
    ∃ e, gorm.insertRole t role = Except.error e := by
  unfold gorm.insertRole
  simp only
  generalize hrow : (if role.ID = 0 then
    ({ role with ID := gorm.nextID (t.roles.map (fun r => r.ID)) } : model.Role)
    else role) = row
  have hname : row.RoleName = role.RoleName := by
    rw [← hrow]
    split <;> rfl
  by_cases h1 : (t.roles.any (fun r => r.ID == row.ID)) = true
  · rw [if_pos h1]
    exact ⟨_, rfl⟩
  · rw [if_neg h1]
    have h2 : (t.roles.any (fun r => r.RoleName == row.RoleName)) = true := by
      obtain ⟨x, hx, hn⟩ := hheld
      rw [List.any_eq_true]
      exact ⟨x, hx, by simp [hn, hname]⟩
    rw [if_pos h2]
    exact ⟨_, rfl⟩

/-- The insert of a permission whose name a row of `permissions` bears is refused. -/
theorem gorm.insertPermission_held (t : Tables) (permission : model.Permission)
    (hheld : ∃ x ∈ t.permissions, x.PermissionName = permission.PermissionName) :
    ∃ e, gorm.insertPermission t permission = Except.error e := by
  unfold gorm.insertPermission
  simp only
  generalize hrow : (if permission.ID = 0 then
    ({ permission with ID := gorm.nextID (t.permissions.map (fun q => q.ID)) } :
      model.Permission)
    else permission) = row
  have hname : row.PermissionName = permission.PermissionName := by
    rw [← hrow]
    split <;> rfl
  by_cases h1 : (t.permissions.any (fun q => q.ID == row.ID)) = true
  · rw [if_pos h1]
    exact ⟨_, rfl⟩
  · rw [if_neg h1]
    have h2 : (t.permissions.any (fun q => q.PermissionName == row.PermissionName)) = true := by
      obtain ⟨x, hx, hn⟩ := hheld
      rw [List.any_eq_true]
      exact ⟨x, hx, by simp [hn, hname]⟩
    rw [if_pos h2]
    exact ⟨_, rfl⟩

/-- The repository's create operation for a role whose name is stored: an error and
a nil role, the tables as before. -/
theorem roleRepository.CreateRole_held (w : World) (role : model.Role)
    (hheld : ∃ x ∈ w.tables.roles, x.RoleName = role.RoleName) :
    (∃ e, (roleRepository.CreateRole w role).1 = (none, some e)) ∧
    (roleRepository.CreateRole w role).2.tables = w.tables := by
  unfold roleRepository.CreateRole
  cases sql.encodeArgs [role.ID] with
  | some e => exact ⟨⟨e, rfl⟩, rfl⟩
  | none =>
    have ht := World.roundTrip_tables w
    rcases hrt : w.roundTrip with ⟨f, w1⟩
    rw [hrt] at ht
    simp only at ht
    cases f with
    | some e => exact ⟨⟨e, rfl⟩, ht⟩
    | none =>
      obtain ⟨e, he⟩ := gorm.insertRole_held w1.tables role (by rw [ht]; exact hheld)
      simp only [he]
      exact ⟨⟨e, rfl⟩, ht⟩

/-- The repository's create operation for a permission whose name is stored: an
error, the tables as before. -/
theorem permissionRepository.CreatePermission_held (w : World) (permission : model.Permission)
    (hheld : ∃ x ∈ w.tables.permissions, x.PermissionName = permission.PermissionName) :
    (∃ e, (permissionRepository.CreatePermission w permission).1
      = (model.Permission.mk 0 "" false, some e)) ∧
    (permissionRepository.CreatePermission w permission).2.tables = w.tables := by
  unfold permissionRepository.CreatePermission
  cases sql.encodeArgs [permission.ID] with
  | some e => exact ⟨⟨e, rfl⟩, rfl⟩
  | none =>
    have ht := World.roundTrip_tables w
    rcases hrt : w.roundTrip with ⟨f, w1⟩
    rw [hrt] at ht
    simp only at ht
    cases f with
    | some e => exact ⟨⟨e, rfl⟩, ht⟩
    | none =>
      obtain ⟨e, he⟩ := gorm.insertPermission_held w1.tables permission
        (by rw [ht]; exact hheld)
      simp only [he]
      exact ⟨⟨e, rfl⟩, ht⟩

theorem validateAndSanitizeRole_of_bounds (role : model.Role)
    (hlen : 3 ≤ len role.RoleName ∧ len role.RoleName ≤ 255) :
    validateAndSanitizeRole (some role)
      = (none, some { role with RoleName := strings.TrimSpace role.RoleName }) := by
  unfold validateAndSanitizeRole
  simp only
  rw [if_neg]
  simp
  omega

theorem validateAndSanitizePermission_of_bounds (lower : Char → Char)
    (permission : model.Permission)
    (hlen : 0 < len (strings.TrimSpace (strings.ToLower lower permission.PermissionName)) ∧
      len (strings.TrimSpace (strings.ToLower lower permission.PermissionName)) ≤ 255) :
    validateAndSanitizePermission lower (some permission)
      = (none, some { permission with
          PermissionName :=
            strings.TrimSpace (strings.ToLower lower permission.PermissionName) }) := by
  unfold validateAndSanitizePermission
  simp only
  rw [if_neg (by omega), if_neg (by omega)]

/-- C23 (as stated, refuted). The store holds the role "admin" and the permission "read".
Creating a role whose sanitized name is "admin" passes the validation and goes
straight to the repository's create operation, whose insert the unique constraint of
`role_name` refuses; the service reports that as InternalServerError (code 500). The
script of the second engine shows the one round trip of the call being the insert:
it fails for a reason of the infrastructure and the service gives the same answer.
The same holds for the permission " Read ". -/
theorem create_with_stored_name_reaches_the_insert :
    validateAndSanitizeRole (some (model.Role.mk 0 " admin " false))
      = (none, some (model.Role.mk 0 "admin" false)) ∧
    roleRepository.CreateRole (World.reliable rbacTables) (model.Role.mk 0 "admin" false)
      = ((none, some (GoError.Storage "roles_role_name_key")), World.reliable rbacTables) ∧
    RoleService.CreateRole (World.reliable rbacTables) (some (model.Role.mk 0 " admin " false))
      = ((none, some (GoError.AppError 500 "Internal server error occurred")),
          World.reliable rbacTables) ∧
    RoleService.CreateRole (World.mk rbacTables [some (GoError.Storage "connection reset")])
        (some (model.Role.mk 0 " admin " false))
      = ((none, some (GoError.AppError 500 "Internal server error occurred")),
          World.reliable rbacTables) ∧
    (validateAndSanitizePermission asciiLower (some (model.Permission.mk 0 " Read " false)))
      = (none, some (model.Permission.mk 0 "read" false)) ∧
    permissionRepository.CreatePermission (World.reliable rbacTables)
        (model.Permission.mk 0 "read" false)
      = ((model.Permission.mk 0 "" false,
          some (GoError.Storage "permissions_permission_name_key")),
          World.reliable rbacTables) ∧
    PermissionService.CreatePermission asciiLower (World.reliable rbacTables)
        (model.Permission.mk 0 " Read " false)
      = ((model.Permission.mk 0 "" false,
          some (GoError.AppError 500 "Internal server error occurred.")),
          World.reliable rbacTables) := by
  refine ⟨by decide, by decide, by decide, by decide, by decide, by decide, by decide⟩

/-- C23 (amended). For every role whose name passes the validation and whose
sanitized name a row of `roles` bears, `RoleService.CreateRole` makes no lookup: it
calls the repository's create operation with the sanitized role, that operation
returns an error (the insert is refused), and the service answers InternalServerError
(code 500), leaving the engine as the create operation left it, with the tables
unchanged. Separately, the same holds for `PermissionService.CreatePermission` and
every permission whose sanitized name a row of `permissions` bears. -/
theorem create_with_stored_name_is_refused_by_the_insert (lower : Char → Char) (w : World)
    (role : model.Role) (permission : model.Permission) :
    (3 ≤ len role.RoleName ∧ len role.RoleName ≤ 255 →
      (∃ x ∈ w.tables.roles, x.RoleName = strings.TrimSpace role.RoleName) →
      (∃ e, (roleRepository.CreateRole w
        { role with RoleName := strings.TrimSpace role.RoleName }).1 = (none, some e)) ∧
      RoleService.CreateRole w (some role)
        = ((none, some (GoError.AppError errors.CodeInternalServerError
              "Internal server error occurred")),
            (roleRepository.CreateRole w
              { role with RoleName := strings.TrimSpace role.RoleName }).2) ∧
      (RoleService.CreateRole w (some role)).2.tables = w.tables) ∧
    (0 < len (strings.TrimSpace (strings.ToLower lower permission.PermissionName)) ∧
        len (strings.TrimSpace (strings.ToLower lower permission.PermissionName)) ≤ 255 →
      (∃ x ∈ w.tables.permissions,
        x.PermissionName
          = strings.TrimSpace (strings.ToLower lower permission.PermissionName)) →
      (∃ e, (permissionRepository.CreatePermission w
        { permission with PermissionName :=
            strings.TrimSpace (strings.ToLower lower permission.PermissionName) }).1
          = (model.Permission.mk 0 "" false, some e)) ∧
      PermissionService.CreatePermission lower w permission
        = ((model.Permission.mk 0 "" false,
            some (GoError.AppError errors.CodeInternalServerError
              "Internal server error occurred.")),
            (permissionRepository.CreatePermission w
              { permission with PermissionName :=
                  strings.TrimSpace (strings.ToLower lower permission.PermissionName) }).2) ∧
      (PermissionService.CreatePermission lower w permission).2.tables = w.tables) := by
  constructor
  · intro hrole hroleHeld
    obtain ⟨⟨e, he⟩, ht⟩ := roleRepository.CreateRole_held w
      { role with RoleName := strings.TrimSpace role.RoleName } hroleHeld
    refine ⟨⟨e, he⟩, ?_⟩
    unfold RoleService.CreateRole
    rw [validateAndSanitizeRole_of_bounds role hrole]
    simp only
    rcases hc : roleRepository.CreateRole w
      { role with RoleName := strings.TrimSpace role.RoleName } with ⟨⟨a, b⟩, w1⟩
    rw [hc] at he ht
    simp only [Prod.mk.injEq] at he
    obtain ⟨ha, hb⟩ := he
    subst ha
    subst hb
    exact ⟨rfl, ht⟩
  · intro hperm hpermHeld
    obtain ⟨⟨e, he⟩, ht⟩ := permissionRepository.CreatePermission_held w
      { permission with PermissionName :=
          strings.TrimSpace (strings.ToLower lower permission.PermissionName) } hpermHeld
    refine ⟨⟨e, he⟩, ?_⟩
    unfold PermissionService.CreatePermission
    rw [validateAndSanitizePermission_of_bounds lower permission hperm]
    simp only
    rcases hc : permissionRepository.CreatePermission w
      { permission with PermissionName :=
          strings.TrimSpace (strings.ToLower lower permission.PermissionName) }
      with ⟨⟨a, b⟩, w1⟩
    rw [hc] at he ht
    simp only [Prod.mk.injEq] at he
    obtain ⟨ha, hb⟩ := he
    subst ha
    subst hb
    exact ⟨rfl, ht⟩

/-- C23 (amended) at concrete inputs: the role " admin " against a store that holds
the role "admin" and no permission, and the permission " Read " against a store that
holds the permission "read" and no role. -/
theorem create_with_stored_name_is_refused_by_the_insert_witness :
    RoleService.CreateRole (World.reliable noPermissionsTables)
        (some (model.Role.mk 0 " admin " false))
      = ((none, some (GoError.AppError errors.CodeInternalServerError
            "Internal server error occurred")),
          (roleRepository.CreateRole (World.reliable noPermissionsTables)
            (model.Role.mk 0 (strings.TrimSpace " admin ") false)).2) ∧
    (RoleService.CreateRole (World.reliable noPermissionsTables)
        (some (model.Role.mk 0 " admin " false))).2.tables = noPermissionsTables ∧
    PermissionService.CreatePermission asciiLower (World.reliable permissionsOnlyTables)
        (model.Permission.mk 0 " Read " false)
      = ((model.Permission.mk 0 "" false,
          some (GoError.AppError errors.CodeInternalServerError
            "Internal server error occurred.")),
          (permissionRepository.CreatePermission (World.reliable permissionsOnlyTables)
            (model.Permission.mk 0
              (strings.TrimSpace (strings.ToLower asciiLower " Read ")) false)).2) ∧
    (PermissionService.CreatePermission asciiLower (World.reliable permissionsOnlyTables)
        (model.Permission.mk 0 " Read " false)).2.tables = permissionsOnlyTables :=
  have h1 := (create_with_stored_name_is_refused_by_the_insert asciiLower
    (World.reliable noPermissionsTables) (model.Role.mk 0 " admin " false)
    (model.Permission.mk 0 " Read " false)).1 (by decide) (by decide)
  have h2 := (create_with_stored_name_is_refused_by_the_insert asciiLower
    (World.reliable permissionsOnlyTables) (model.Role.mk 0 " admin " false)
    (model.Permission.mk 0 " Read " false)).2 (by decide) (by decide)
  ⟨h1.2.1, h1.2.2, h2.2.1, h2.2.2⟩

/-! ## AddMultiplePermissionsToRole and AssignPermissionToRole -/

theorem permissionRepository.AssignPermissionToRole_of_reliable (w : World)
    (roleID permissionID : Nat) (hw : w.faults = []) :
    permissionRepository.AssignPermissionToRole w roleID permissionID =
      if gorm.rolePermissionRefs w.tables roleID permissionID then
        (none, World.mk (withRolePermissions w.tables
          [gorm.newRolePermission w.tables roleID permissionID]) w.faults)
      else
        (some (gorm.constraintError "role_permissions: foreign key violation"), w) := by
  simp only [permissionRepository.AssignPermissionToRole, gorm.Begin,
    World.roundTrip_of_reliable w hw, gorm.Tx.CreateRolePermission, id]
  by_cases hr : gorm.rolePermissionRefs w.tables roleID permissionID = true
  · simp only [hr, if_true, gorm.Commit, World.roundTrip_of_reliable w hw]
    rfl
  · have hf : gorm.rolePermissionRefs w.tables roleID permissionID = false := by simpa using hr
    simp only [hf, Bool.false_eq_true, if_false, gorm.Rollback,
      World.roundTrip_of_reliable w hw]

/-- The single-pair call of the service on an engine that executes every round trip:
BadRequest for a zero identifier, InternalServerError when a foreign key has no
target, and otherwise no error and one more row. -/
theorem PermissionService.AssignPermissionToRole_on_reliable (w : World)
    (roleID permissionID : Nat) (hw : w.faults = []) :
    PermissionService.AssignPermissionToRole w roleID permissionID =
      if roleID = 0 ∨ permissionID = 0 then
        (some (GoError.AppError 400 "Invalid role or permission id"), w)
      else if gorm.rolePermissionRefs w.tables roleID permissionID then
        (none, World.mk (withRolePermissions w.tables
          [gorm.newRolePermission w.tables roleID permissionID]) w.faults)
      else
        (some (GoError.AppError 500 "Internal server error occurred."), w) := by
  unfold PermissionService.AssignPermissionToRole
  by_cases hz : roleID = 0 ∨ permissionID = 0
  · rw [if_pos hz, if_pos]
    · rfl
    · rcases hz with h | h <;> simp [h]
  · rw [if_neg hz, if_neg]
    · rw [permissionRepository.AssignPermissionToRole_of_reliable w roleID permissionID hw]
      by_cases hr : gorm.rolePermissionRefs w.tables roleID permissionID = true
      · rw [if_pos hr, if_pos hr]
      · rw [if_neg hr, if_neg hr]
        rfl
    · push_neg at hz
      simp [hz.1, hz.2]

/-- The repository's batch on an engine that executes every round trip succeeds
exactly when every insert finds its foreign keys. -/
theorem permissionRepository.AddMultiplePermissionsToRole_iff (w : World) (roleID : Nat)
    (ids : List Nat) (hw : w.faults = []) :
    (permissionRepository.AddMultiplePermissionsToRole w roleID ids).1 = none ↔
      ∀ p ∈ ids, gorm.rolePermissionRefs w.tables roleID p = true := by
  constructor
  · intro h
    rcases permissionRepository.AddMultiplePermissionsToRole_spec w roleID ids with
      ⟨hne, _⟩ | ⟨_, hall, _⟩
    · exact absurd h hne
    · exact hall
  · exact permissionRepository.AddMultiplePermissionsToRole_of_reliable w roleID ids hw

/-- The first failing single-pair call for a non-zero role and non-zero permission
identifiers: none when every pair finds its foreign keys, InternalServerError
otherwise. -/
theorem firstFailingAssign_of_reliable (w : World) (roleID : Nat) (hw : w.faults = [])
    (hr : roleID ≠ 0) (ids : List Nat) (hids : ∀ p ∈ ids, p ≠ 0) :
    firstFailingAssign w roleID ids =
      if ∀ p ∈ ids, gorm.rolePermissionRefs w.tables roleID p = true then none
      else some (GoError.AppError 500 "Internal server error occurred.") := by
  induction ids with
  | nil => simp [firstFailingAssign]
  | cons p rest ih =>
    have hp : p ≠ 0 := hids p (List.mem_cons_self _ _)
    have ih1 := ih (fun q hq => hids q (List.mem_cons_of_mem _ hq))
    unfold firstFailingAssign
    rw [PermissionService.AssignPermissionToRole_on_reliable w roleID p hw,
      if_neg (by simp [hr, hp])]
    by_cases href : gorm.rolePermissionRefs w.tables roleID p = true
    · rw [if_pos href]
      simp only
      rw [ih1]
      simp [href]
    · rw [if_neg href]
      simp only
      rw [if_neg]
      intro hall
      exact href (hall p (List.mem_cons_self _ _))

/-- C24 (as stated, refuted). The store holds the role 1 and the permissions 1 and 3, and
the list is [1, 0]. The single-pair call for the pair (1, 0) is refused by the
validation with BadRequest (code 400), so that is what the first failing single-pair
call returns; the batch does not validate the elements of its list, hands the
identifier 0 to the insert, and answers the foreign-key violation with
InternalServerError (code 500). -/
theorem batch_with_zero_id_is_internal_error :
    PermissionService.AddMultiplePermissionsToRole (World.reliable rbacTables) 1 [1, 0]
      = (some (GoError.AppError 500 "Internal server error occurred."),
          World.reliable rbacTables) ∧
    (PermissionService.AssignPermissionToRole (World.reliable rbacTables) 1 1).1 = none ∧
    (PermissionService.AssignPermissionToRole (World.reliable rbacTables) 1 0).1
      = some (GoError.AppError 400 "Invalid role or permission id") ∧
    firstFailingAssign (World.reliable rbacTables) 1 [1, 0]
      = some (GoError.AppError 400 "Invalid role or permission id") ∧
    (PermissionService.AddMultiplePermissionsToRole (World.reliable rbacTables) 1
        [1, 0]).1.bind GoError.code?
      ≠ (firstFailingAssign (World.reliable rbacTables) 1 [1, 0]).bind GoError.code? := by
  refine ⟨by decide, by decide, by decide, by decide, by decide⟩

/-- C24 (amended). On an engine that executes every round trip, for every role
identifier and every non-empty list of permission identifiers:
(1) when no identifier of the list is zero, the batch returns an error of the same
kind (the same code) as the first single-pair call, in the order of the list, that
fails, and it succeeds exactly when every single-pair call succeeds;
(2) an identifier 0 in the list is not validated: for a non-zero role identifier, in
a store where no permission has the identifier 0, the batch answers
InternalServerError (code 500) and leaves the tables as they were. -/
theorem batch_agrees_with_single_pair_calls_on_nonzero_ids (w : World) (roleID : Nat)
    (ids : List Nat) (hw : w.faults = []) (hne : ids ≠ []) :
    ((∀ p ∈ ids, p ≠ 0) →
      (PermissionService.AddMultiplePermissionsToRole w roleID ids).1.bind GoError.code?
        = (firstFailingAssign w roleID ids).bind GoError.code? ∧
      ((PermissionService.AddMultiplePermissionsToRole w roleID ids).1 = none ↔
        ∀ p ∈ ids, (PermissionService.AssignPermissionToRole w roleID p).1 = none)) ∧
    (0 ∈ ids → roleID ≠ 0 → (∀ q ∈ w.tables.permissions, q.ID ≠ 0) →
      (PermissionService.AddMultiplePermissionsToRole w roleID ids).1
        = some (GoError.AppError 500 "Internal server error occurred.") ∧
      (PermissionService.AddMultiplePermissionsToRole w roleID ids).2.tables = w.tables) := by
  have hcases := PermissionService.AddMultiplePermissionsToRole_cases w roleID ids
  have hiff := permissionRepository.AddMultiplePermissionsToRole_iff w roleID ids hw
  constructor
  · intro hids
    by_cases hr : roleID = 0
    · -- the role identifier is refused by both
      rw [hcases.1 (Or.inl hr)]
      obtain ⟨p, rest, hpr⟩ := List.exists_cons_of_ne_nil hne
      subst hpr
      have hfirst : (PermissionService.AssignPermissionToRole w roleID p).1
          = some (GoError.AppError 400 "Invalid role or permission id") := by
        rw [PermissionService.AssignPermissionToRole_on_reliable w roleID p hw,
          if_pos (Or.inl hr)]
      constructor
      · unfold firstFailingAssign
        rw [hfirst]
        rfl
      · constructor
        · intro h
          simp at h
        · intro h
          have := h p (List.mem_cons_self _ _)
          rw [hfirst] at this
          simp at this
    · obtain ⟨_, hsvc⟩ := hcases.2 hr hne
      have hsingle : ∀ p ∈ ids,
          ((PermissionService.AssignPermissionToRole w roleID p).1 = none ↔
            gorm.rolePermissionRefs w.tables roleID p = true) := by
        intro p hp
        rw [PermissionService.AssignPermissionToRole_on_reliable w roleID p hw,
          if_neg (by simp [hr, hids p hp])]
        by_cases href : gorm.rolePermissionRefs w.tables roleID p = true
        · simp [href]
        · simp [href]
      have hsucc : (PermissionService.AddMultiplePermissionsToRole w roleID ids).1 = none ↔
          ∀ p ∈ ids, (PermissionService.AssignPermissionToRole w roleID p).1 = none := by
        rw [hsvc, hiff]
        constructor
        · intro h p hp
          exact (hsingle p hp).2 (h p hp)
        · intro h p hp
          exact (hsingle p hp).1 (h p hp)
      refine ⟨?_, hsucc⟩
      rw [firstFailingAssign_of_reliable w roleID hw hr ids hids]
      by_cases hall : ∀ p ∈ ids, gorm.rolePermissionRefs w.tables roleID p = true
      · rw [if_pos hall]
        have : (PermissionService.AddMultiplePermissionsToRole w roleID ids).1 = none :=
          hsvc.2 (hiff.2 hall)
        rw [this]
      · rw [if_neg hall]
        have hfail : (permissionRepository.AddMultiplePermissionsToRole w roleID ids).1 ≠ none :=
          fun h => hall (hiff.1 h)
        unfold PermissionService.AddMultiplePermissionsToRole
        rw [if_neg (by simp [hr, hne])]
        rcases hrep : permissionRepository.AddMultiplePermissionsToRole w roleID ids with
          ⟨e, w1⟩
        rw [hrep] at hfail
        cases e with
        | none => exact absurd rfl hfail
        | some e => rfl
  · intro hzero hr hperm
    have hnoref : gorm.rolePermissionRefs w.tables roleID 0 = false := by
      unfold gorm.rolePermissionRefs
      have : (w.tables.permissions.any (fun q => q.ID == 0)) = false := by
        rw [List.any_eq_false]
        intro q hq
        simpa using hperm q hq
      rw [this]
      simp
    have hfail : (permissionRepository.AddMultiplePermissionsToRole w roleID ids).1 ≠ none := by
      intro h
      have := hiff.1 h 0 hzero
      rw [hnoref] at this
      exact absurd this (by decide)
    have htab : (permissionRepository.AddMultiplePermissionsToRole w roleID ids).2.tables
        = w.tables := by
      rcases permissionRepository.AddMultiplePermissionsToRole_spec w roleID ids with
        ⟨_, ht⟩ | ⟨hn, _⟩
      · exact ht
      · exact absurd hn hfail
    unfold PermissionService.AddMultiplePermissionsToRole
    rw [if_neg (by simp [hr, hne])]
    rcases hrep : permissionRepository.AddMultiplePermissionsToRole w roleID ids with ⟨e, w1⟩
    rw [hrep] at hfail htab
    cases e with
    | none => exact absurd rfl hfail
    | some e => exact ⟨rfl, htab⟩

/-- C24 (amended) at concrete inputs: the role 1 with the list [1, 2, 3], where the
permission 2 does not exist, and with the list [1, 3], where every call succeeds. -/
theorem batch_agrees_with_single_pair_calls_on_nonzero_ids_witness :
    ((PermissionService.AddMultiplePermissionsToRole (World.reliable rbacTables) 1
        [1, 2, 3]).1.bind GoError.code?
      = (firstFailingAssign (World.reliable rbacTables) 1 [1, 2, 3]).bind GoError.code?) ∧
    (firstFailingAssign (World.reliable rbacTables) 1 [1, 2, 3]).bind GoError.code?
      = some 500 ∧
    ((PermissionService.AddMultiplePermissionsToRole (World.reliable rbacTables) 1
        [1, 3]).1 = none ↔
      ∀ p ∈ [1, 3],
        (PermissionService.AssignPermissionToRole (World.reliable rbacTables) 1 p).1 = none) ∧
    (PermissionService.AddMultiplePermissionsToRole (World.reliable rbacTables) 1 [1, 3]).1
      = none :=
  ⟨((batch_agrees_with_single_pair_calls_on_nonzero_ids (World.reliable rbacTables) 1
      [1, 2, 3] rfl (by decide)).1 (by decide)).1,
    by decide,
    ((batch_agrees_with_single_pair_calls_on_nonzero_ids (World.reliable rbacTables) 1
      [1, 3] rfl (by decide)).1 (by decide)).2,
    by decide⟩

/-! ## Association pairs are not unique -/

theorem gorm.nextID_append (ids : List Nat) :
    gorm.nextID (ids ++ [gorm.nextID ids]) = gorm.nextID ids + 1 := by
  unfold gorm.nextID
  rw [List.foldl_append]
  simp

theorem gorm.rolePermissionRefs_of_rows (t : Tables) (roleID permissionID : Nat)
    (hrole : ∃ x ∈ t.roles, x.ID = roleID)
    (hperm : ∃ q ∈ t.permissions, q.ID = permissionID) :
    gorm.rolePermissionRefs t roleID permissionID = true := by
  unfold gorm.rolePermissionRefs
  obtain ⟨x, hx, hxi⟩ := hrole
  obtain ⟨q, hq, hqi⟩ := hperm
  rw [Bool.and_eq_true, List.any_eq_true, List.any_eq_true]
  exact ⟨⟨x, hx, by simp [hxi]⟩, ⟨q, hq, by simp [hqi]⟩⟩

theorem gorm.userRoleRefs_of_rows (t : Tables) (userID roleID : Nat)
    (huser : ∃ u ∈ t.users, u.ID = userID) (hrole : ∃ x ∈ t.roles, x.ID = roleID) :
    gorm.userRoleRefs t userID roleID = true := by
  unfold gorm.userRoleRefs
  obtain ⟨u, hu, hui⟩ := huser
  obtain ⟨x, hx, hxi⟩ := hrole
  rw [Bool.and_eq_true, List.any_eq_true, List.any_eq_true]
  exact ⟨⟨u, hu, by simp [hui]⟩, ⟨x, hx, by simp [hxi]⟩⟩

/-- The service's `AddUserRole` for non-zero identifiers whose rows exist, on an
engine that executes every round trip: no error and one more row. -/
theorem RoleService.AddUserRole_succeeds_on_reliable (w : World) (userID roleID : Nat)
    (hw : w.faults = []) (hu : userID ≠ 0) (hr : roleID ≠ 0)
    (href : gorm.userRoleRefs w.tables userID roleID = true) :
    RoleService.AddUserRole w userID roleID
      = (none, World.mk (withUserRoles w.tables [gorm.newUserRole w.tables userID roleID])
          w.faults) := by
  unfold RoleService.AddUserRole
  rw [if_neg hu, if_neg hr, roleRepository.AddUserRole_of_reliable w userID roleID hw,
    if_pos href]

/-- C25. On an engine that executes every round trip:
(1) for every existing role `r` and existing permission `p` with non-zero
identifiers, two successive calls `AssignPermissionToRole(r, p)` both return no
error, and after them the table `role_permissions` holds its former rows followed by
two new rows, with different primary keys, that both bear the pair (r, p) and are not
deleted: the second call adds a row of its own;
(2) likewise, for every existing user `u` and existing role `r` with non-zero
identifiers, two successive calls `AddUserRole(u, r)` leave two new rows of
`user_roles` for the pair (u, r). -/
theorem association_pairs_are_not_kept_unique (w : World) (u r p : Nat)
    (hw : w.faults = []) :
    (0 < r → 0 < p → (∃ x ∈ w.tables.roles, x.ID = r) →
      (∃ x ∈ w.tables.permissions, x.ID = p) →
      (PermissionService.AssignPermissionToRole w r p).1 = none ∧
      (PermissionService.AssignPermissionToRole
        (PermissionService.AssignPermissionToRole w r p).2 r p).1 = none ∧
      ∃ row1 row2 : model.RolePermission,
        (PermissionService.AssignPermissionToRole w r p).2.tables.role_permissions
          = w.tables.role_permissions ++ [row1] ∧
        (PermissionService.AssignPermissionToRole
          (PermissionService.AssignPermissionToRole w r p).2 r p).2.tables.role_permissions
          = w.tables.role_permissions ++ [row1, row2] ∧
        row1.ID ≠ row2.ID ∧
        (row1.RoleID, row1.PermissionID, row1.Deleted) = (r, p, false) ∧
        (row2.RoleID, row2.PermissionID, row2.Deleted) = (r, p, false)) ∧
    (0 < u → 0 < r → (∃ x ∈ w.tables.users, x.ID = u) →
      (∃ x ∈ w.tables.roles, x.ID = r) →
      (RoleService.AddUserRole w u r).1 = none ∧
      (RoleService.AddUserRole (RoleService.AddUserRole w u r).2 u r).1 = none ∧
      ∃ row1 row2 : model.UserRole,
        (RoleService.AddUserRole w u r).2.tables.user_roles = w.tables.user_roles ++ [row1] ∧
        (RoleService.AddUserRole (RoleService.AddUserRole w u r).2 u r).2.tables.user_roles
          = w.tables.user_roles ++ [row1, row2] ∧
        row1.ID ≠ row2.ID ∧
        (row1.UserID, row1.RoleID, row1.Deleted) = (u, r, false) ∧
        (row2.UserID, row2.RoleID, row2.Deleted) = (u, r, false)) := by
  constructor
  · intro hr hp hrole hperm
    have hrp := gorm.rolePermissionRefs_of_rows w.tables r p hrole hperm
    have hr0 : r ≠ 0 := Nat.pos_iff_ne_zero.mp hr
    have hp0 : p ≠ 0 := Nat.pos_iff_ne_zero.mp hp
    have h1 : PermissionService.AssignPermissionToRole w r p
        = (none, World.mk (withRolePermissions w.tables
            [gorm.newRolePermission w.tables r p]) w.faults) := by
      rw [PermissionService.AssignPermissionToRole_on_reliable w r p hw,
        if_neg (by simp [hr0, hp0]), if_pos hrp]
    have h2 : PermissionService.AssignPermissionToRole
        (World.mk (withRolePermissions w.tables [gorm.newRolePermission w.tables r p])
          w.faults) r p
        = (none, World.mk (withRolePermissions
            (withRolePermissions w.tables [gorm.newRolePermission w.tables r p])
            [gorm.newRolePermission
              (withRolePermissions w.tables [gorm.newRolePermission w.tables r p]) r p])
            w.faults) := by
      rw [PermissionService.AssignPermissionToRole_on_reliable
        (World.mk (withRolePermissions w.tables [gorm.newRolePermission w.tables r p])
          w.faults) r p hw,
        if_neg (by simp [hr0, hp0]), if_pos (by rw [gorm.rolePermissionRefs_with]; exact hrp)]
    refine ⟨by rw [h1], by rw [h1]; dsimp only; rw [h2], gorm.newRolePermission w.tables r p,
      gorm.newRolePermission
        (withRolePermissions w.tables [gorm.newRolePermission w.tables r p]) r p,
      by rw [h1]; rfl, ?_, ?_, rfl, rfl⟩
    · rw [h1]
      dsimp only
      rw [h2]
      simp [withRolePermissions]
    · simp only [gorm.newRolePermission, withRolePermissions, List.map_append, List.map_cons,
        List.map_nil]
      rw [gorm.nextID_append]
      omega
  · intro hu hr huser hrole
    have hur := gorm.userRoleRefs_of_rows w.tables u r huser hrole
    have hu0 : u ≠ 0 := Nat.pos_iff_ne_zero.mp hu
    have hr0 : r ≠ 0 := Nat.pos_iff_ne_zero.mp hr
    have h1 := RoleService.AddUserRole_succeeds_on_reliable w u r hw hu0 hr0 hur
    have h2 := RoleService.AddUserRole_succeeds_on_reliable
      (World.mk (withUserRoles w.tables [gorm.newUserRole w.tables u r]) w.faults) u r hw
      hu0 hr0 hur
    refine ⟨by rw [h1], by rw [h1]; dsimp only; rw [h2], gorm.newUserRole w.tables u r,
      gorm.newUserRole (withUserRoles w.tables [gorm.newUserRole w.tables u r]) u r,
      by rw [h1]; rfl, ?_, ?_, rfl, rfl⟩
    · rw [h1]
      dsimp only
      rw [h2]
      simp [withUserRoles]
    · simp only [gorm.newUserRole, withUserRoles, List.map_append, List.map_cons,
        List.map_nil]
      rw [gorm.nextID_append]
      omega

/-- C25 at concrete inputs: the permission 3 is assigned to the role 1 twice in a
store without users, and the role 1 is given to alice (1) twice in a store without
permissions. -/
theorem association_pairs_are_not_kept_unique_witness :
    (PermissionService.AssignPermissionToRole
        (PermissionService.AssignPermissionToRole (World.reliable noUsersTables) 1 3).2 1 3)
      = (none, World.reliable (Tables.mk noUsersTables.users noUsersTables.roles
          noUsersTables.permissions []
          [model.RolePermission.mk 1 1 3 false, model.RolePermission.mk 2 1 3 false])) ∧
    (RoleService.AddUserRole
        (RoleService.AddUserRole (World.reliable noPermissionsTables) 1 1).2 1 1)
      = (none, World.reliable (Tables.mk noPermissionsTables.users noPermissionsTables.roles
          noPermissionsTables.permissions
          [model.UserRole.mk 1 1 1 false, model.UserRole.mk 2 1 1 false] [])) ∧
    (PermissionService.AssignPermissionToRole (World.reliable noUsersTables) 1 3).1 = none ∧
    (RoleService.AddUserRole (World.reliable noPermissionsTables) 1 1).1 = none :=
  have h1 := (association_pairs_are_not_kept_unique (World.reliable noUsersTables) 1 1 3
    rfl).1 (by decide) (by decide) (by decide) (by decide)
  have h2 := (association_pairs_are_not_kept_unique (World.reliable noPermissionsTables) 1
    1 3 rfl).2 (by decide) (by decide) (by decide) (by decide)
  ⟨by decide, by decide, h1.1, h2.1⟩

/-! ## RemoveUserRole and RemovePermissionFromRole -/

theorem gorm.firstRolePermission_eq_none (t : Tables) (roleID permissionID : Nat) :
    gorm.firstRolePermission t roleID permissionID = none ↔
      ∀ x ∈ t.role_permissions, x.RoleID = roleID → x.PermissionID = permissionID →
        x.Deleted = true := by
  unfold gorm.firstRolePermission
  rw [gorm.leastBy_eq_none, List.filter_eq_nil_iff]
  constructor
  · intro h x hx hr hp
    have := h x hx
    simpa [hr, hp] using this
  · intro h x hx
    by_cases hr : x.RoleID = roleID
    · by_cases hp : x.PermissionID = permissionID
      · simp [hr, hp, h x hx hr hp]
      · simp [hp]
    · simp [hr]

theorem gorm.firstRolePermission_some (t : Tables) (roleID permissionID : Nat)
    (rp : model.RolePermission) (h : gorm.firstRolePermission t roleID permissionID = some rp) :
    rp ∈ t.role_permissions ∧ rp.RoleID = roleID ∧ rp.PermissionID = permissionID ∧
      rp.Deleted = false := by
  unfold gorm.firstRolePermission at h
  have hm := gorm.leastBy_mem _ _ _ h
  rw [List.mem_filter] at hm
  obtain ⟨h1, h2⟩ := hm
  simp at h2
  exact ⟨h1, h2.1.1, h2.1.2, h2.2⟩

/-- The call on an engine that executes every round trip: identifiers that cannot be
encoded are refused; otherwise an error and the engine as before when no live row
bears the pair, and no error and the row the lookup found marked deleted when one
does. -/
theorem permissionRepository.RemovePermissionFromRole_of_reliable (w : World)
    (roleID permissionID : Nat) (hw : w.faults = []) :
    permissionRepository.RemovePermissionFromRole w roleID permissionID =
      match sql.encodeArgs [roleID, permissionID] with
      | some e => (some e, w)
      | none =>
        match gorm.firstRolePermission w.tables roleID permissionID with
        | none => (some GoError.ErrRecordNotFound, w)
        | some rp =>
          (none, World.mk (gorm.softDeleteRolePermission rp.ID w.tables) w.faults) := by
  simp only [permissionRepository.RemovePermissionFromRole, gorm.Begin,
    World.roundTrip_of_reliable w hw, gorm.Tx.FirstRolePermission, id]
  cases sql.encodeArgs [roleID, permissionID] with
  | some e => simp only [gorm.Rollback, World.roundTrip_of_reliable w hw]
  | none =>
    simp only [World.roundTrip_of_reliable w hw]
    cases hf : gorm.firstRolePermission w.tables roleID permissionID with
    | none =>
      simp only [gorm.Rollback, World.roundTrip_of_reliable w hw]
    | some rp =>
      simp only [gorm.Tx.DeleteRolePermission, World.roundTrip_of_reliable w hw,
        gorm.Commit, id]

/-- In a table whose primary keys are distinct, the update by primary key marks the
one row that bears the key. -/
theorem gorm.softDeleteRolePermission_one (t : Tables) (rp : model.RolePermission)
    (hmem : rp ∈ t.role_permissions) (hlive : rp.Deleted = false)
    (hkeys : (t.role_permissions.map (fun x => x.ID)).Nodup) :
    ∃ pre post, t.role_permissions = pre ++ rp :: post ∧
      (gorm.softDeleteRolePermission rp.ID t).role_permissions
        = pre ++ { rp with Deleted := true } :: post := by
  obtain ⟨pre, post, hsplit⟩ := List.append_of_mem hmem
  refine ⟨pre, post, hsplit, ?_⟩
  rw [hsplit, List.map_append, List.map_cons] at hkeys
  have hpre : ∀ x ∈ pre, x.ID ≠ rp.ID := by
    intro x hx heq
    have hdis := (List.nodup_append.1 hkeys).2.2
    exact hdis (List.mem_map.2 ⟨x, hx, rfl⟩) (by rw [heq]; exact List.mem_cons_self _ _)
  have hpost : ∀ x ∈ post, x.ID ≠ rp.ID := by
    intro x hx heq
    have hcons := (List.nodup_append.1 hkeys).2.1
    have := (List.nodup_cons.1 hcons).1
    exact this (List.mem_map.2 ⟨x, hx, heq⟩)
  unfold gorm.softDeleteRolePermission
  simp only
  rw [hsplit, List.map_append, List.map_cons]
  have h1 : pre.map (fun x : model.RolePermission =>
      if (x.ID == rp.ID && !x.Deleted) = true then { x with Deleted := true } else x) = pre := by
    conv_rhs => rw [← List.map_id pre]
    apply List.map_congr_left
    intro x hx
    simp [hpre x hx]
  have h2 : post.map (fun x : model.RolePermission =>
      if (x.ID == rp.ID && !x.Deleted) = true then { x with Deleted := true } else x) = post := by
    conv_rhs => rw [← List.map_id post]
    apply List.map_congr_left
    intro x hx
    simp [hpost x hx]
  rw [h1, h2]
  simp [hlive]

/-- Without a live row of the pair the update of `RemoveUserRole` changes nothing. -/
theorem gorm.softDeleteUserRoles_of_no_match (userID roleID : Nat) (t : Tables)
    (hnone : ∀ x ∈ t.user_roles, x.UserID = userID → x.RoleID = roleID → x.Deleted = true) :
    gorm.softDeleteUserRoles userID roleID t = t := by
  unfold gorm.softDeleteUserRoles
  have : t.user_roles.map (fun ur : model.UserRole =>
      if (ur.UserID == userID && ur.RoleID == roleID && !ur.Deleted) = true then
        { ur with Deleted := true }
      else ur) = t.user_roles := by
    conv_rhs => rw [← List.map_id t.user_roles]
    apply List.map_congr_left
    intro x hx
    by_cases hu : x.UserID = userID
    · by_cases hr : x.RoleID = roleID
      · simp [hu, hr, hnone x hx hu hr]
      · simp [hr]
    · simp [hu]
  rw [this]

/-- After the update of `RemoveUserRole` every row of the pair is marked deleted. -/
theorem gorm.softDeleteUserRoles_all (userID roleID : Nat) (t : Tables) :
    ∀ ur ∈ (gorm.softDeleteUserRoles userID roleID t).user_roles,
      ur.UserID = userID → ur.RoleID = roleID → ur.Deleted = true := by
  intro ur hur hu hr
  by_contra hd
  have hd2 : ur.Deleted = false := by simpa using hd
  exact (gorm.softDeleteUserRoles_spec userID roleID t).2 ur hur hu hd2 hr

/-- C26 (as stated, refuted). In a store without association rows `RemoveUserRole(1, 1)`
returns nil where `RemovePermissionFromRole(1, 3)` returns an error (the store is
unchanged by both). In a store that holds the pair (1, 1) twice in `user_roles` and
the pair (1, 3) twice in `role_permissions`, `RemoveUserRole(1, 1)` marks both rows
deleted where `RemovePermissionFromRole(1, 3)` marks one. -/
theorem remove_user_role_differs_from_remove_permission :
    roleRepository.RemoveUserRole (World.reliable rbacTables) 1 1
      = (none, World.reliable rbacTables) ∧
    permissionRepository.RemovePermissionFromRole (World.reliable rbacTables) 1 3
      = (some GoError.ErrRecordNotFound, World.reliable rbacTables) ∧
    (roleRepository.RemoveUserRole (World.reliable twiceTables) 1 1).2.tables.user_roles
      = [model.UserRole.mk 1 1 1 true, model.UserRole.mk 2 1 1 true] ∧
    (permissionRepository.RemovePermissionFromRole (World.reliable twiceTables) 1
        3).2.tables.role_permissions
      = [model.RolePermission.mk 1 1 3 true, model.RolePermission.mk 2 1 3 false] := by
  refine ⟨by decide, by decide, by decide, by decide⟩

/-- C26 (amended). On an engine that executes every round trip, for every store:
(1) for every pair of identifiers below 2 ^ 63, `RemoveUserRole` returns nil, whether
or not a row bears the pair; it marks every live row of `user_roles` that bears the
pair as deleted, and leaves the engine as it was when there is none;
(2) for every pair of identifiers below 2 ^ 63 that no live row of `role_permissions`
bears, `RemovePermissionFromRole` returns `gorm.ErrRecordNotFound` and leaves the
engine as it was;
(3) when a live row bears such a pair and the primary keys of the table are
distinct, `RemovePermissionFromRole` returns nil and marks exactly one live row of the
pair as deleted, every other row staying as it was;
(4) for a pair with an identifier of 2 ^ 63 or more, which the driver cannot encode,
both methods return the driver's error and leave the engine as it was. -/
theorem remove_user_role_deletes_every_matching_row (w : World) (userID roleID
    permissionID : Nat) (hw : w.faults = []) :
    (userID < 2 ^ 63 → roleID < 2 ^ 63 →
      roleRepository.RemoveUserRole w userID roleID
        = (none, World.mk (gorm.softDeleteUserRoles userID roleID w.tables) w.faults) ∧
      (∀ ur ∈ (roleRepository.RemoveUserRole w userID roleID).2.tables.user_roles,
        ur.UserID = userID → ur.RoleID = roleID → ur.Deleted = true) ∧
      ((∀ x ∈ w.tables.user_roles, x.UserID = userID → x.RoleID = roleID →
          x.Deleted = true) →
        roleRepository.RemoveUserRole w userID roleID = (none, w))) ∧
    (roleID < 2 ^ 63 → permissionID < 2 ^ 63 →
      (∀ x ∈ w.tables.role_permissions, x.RoleID = roleID → x.PermissionID = permissionID →
        x.Deleted = true) →
      permissionRepository.RemovePermissionFromRole w roleID permissionID
        = (some GoError.ErrRecordNotFound, w)) ∧
    (roleID < 2 ^ 63 → permissionID < 2 ^ 63 →
      (∃ x ∈ w.tables.role_permissions, x.RoleID = roleID ∧ x.PermissionID = permissionID ∧
        x.Deleted = false) →
      (w.tables.role_permissions.map (fun x => x.ID)).Nodup →
      (permissionRepository.RemovePermissionFromRole w roleID permissionID).1 = none ∧
      ∃ pre rp post, w.tables.role_permissions = pre ++ rp :: post ∧
        rp.RoleID = roleID ∧ rp.PermissionID = permissionID ∧ rp.Deleted = false ∧
        (permissionRepository.RemovePermissionFromRole w roleID
            permissionID).2.tables.role_permissions
          = pre ++ { rp with Deleted := true } :: post) ∧
    ((2 ^ 63 ≤ userID ∨ 2 ^ 63 ≤ roleID →
        roleRepository.RemoveUserRole w userID roleID = (some sql.ErrOutOfRange, w)) ∧
      (2 ^ 63 ≤ roleID ∨ 2 ^ 63 ≤ permissionID →
        permissionRepository.RemovePermissionFromRole w roleID permissionID
          = (some sql.ErrOutOfRange, w))) := by
  have hrem := roleRepository.RemoveUserRole_of_reliable w userID roleID hw
  have hperm := permissionRepository.RemovePermissionFromRole_of_reliable w roleID
    permissionID hw
  have henc2 : ∀ a b : Nat, a < 2 ^ 63 → b < 2 ^ 63 → sql.encodeArgs [a, b] = none := by
    intro a b ha hb
    rw [sql.encodeArgs_eq_none]
    intro x hx
    simp only [List.mem_cons, List.mem_singleton, List.not_mem_nil, or_false] at hx
    rcases hx with hx | hx <;> rw [hx] <;> assumption
  have hbig2 : ∀ a b : Nat, 2 ^ 63 ≤ a ∨ 2 ^ 63 ≤ b →
      sql.encodeArgs [a, b] = some sql.ErrOutOfRange := by
    intro a b hab
    apply sql.encodeArgs_of_large
    rcases hab with h | h
    · exact ⟨a, by simp, h⟩
    · exact ⟨b, by simp, h⟩
  refine ⟨?_, ?_, ?_, ?_, ?_⟩
  · intro hu hr
    rw [henc2 userID roleID hu hr] at hrem
    simp only at hrem
    refine ⟨hrem, ?_, ?_⟩
    · rw [hrem]
      exact gorm.softDeleteUserRoles_all userID roleID w.tables
    · intro hnone
      rw [hrem, gorm.softDeleteUserRoles_of_no_match userID roleID w.tables hnone]
  · intro hr hp hnone
    rw [hperm, henc2 roleID permissionID hr hp,
      (gorm.firstRolePermission_eq_none w.tables roleID permissionID).2 hnone]
  · intro hr hp hsome hkeys
    rw [henc2 roleID permissionID hr hp] at hperm
    simp only at hperm
    cases hf : gorm.firstRolePermission w.tables roleID permissionID with
    | none =>
      exfalso
      obtain ⟨x, hx, hxr, hxp, hd⟩ := hsome
      have := (gorm.firstRolePermission_eq_none w.tables roleID permissionID).1 hf x hx hxr hxp
      rw [hd] at this
      exact absurd this (by decide)
    | some rp =>
      rw [hperm, hf]
      obtain ⟨hmem, hrr, hrp, hd⟩ := gorm.firstRolePermission_some w.tables roleID
        permissionID rp hf
      obtain ⟨pre, post, hsplit, hafter⟩ :=
        gorm.softDeleteRolePermission_one w.tables rp hmem hd hkeys
      exact ⟨rfl, pre, rp, post, hsplit, hrr, hrp, hd, hafter⟩
  · intro hbig
    rw [hrem, hbig2 userID roleID hbig]
  · intro hbig
    rw [hperm, hbig2 roleID permissionID hbig]

/-- C26 (amended) at concrete inputs: a store that holds each pair twice, a store
without association rows, and the user identifier 2 ^ 63. -/
theorem remove_user_role_deletes_every_matching_row_witness :
    roleRepository.RemoveUserRole (World.reliable twiceTables) 1 1
      = (none, World.mk (gorm.softDeleteUserRoles 1 1 twiceTables) []) ∧
    (gorm.softDeleteUserRoles 1 1 twiceTables).user_roles
      = [model.UserRole.mk 1 1 1 true, model.UserRole.mk 2 1 1 true] ∧
    permissionRepository.RemovePermissionFromRole (World.reliable rbacTables) 1 3
      = (some GoError.ErrRecordNotFound, World.reliable rbacTables) ∧
    (permissionRepository.RemovePermissionFromRole (World.reliable twiceTables) 1 3).1 = none ∧
    roleRepository.RemoveUserRole (World.reliable twiceTables) (2 ^ 63) 1
      = (some sql.ErrOutOfRange, World.reliable twiceTables) :=
  ⟨((remove_user_role_deletes_every_matching_row (World.reliable twiceTables) 1 1 3 rfl).1
      (by decide) (by decide)).1,
    by decide,
    (remove_user_role_deletes_every_matching_row (World.reliable rbacTables) 1 1 3 rfl).2.1
      (by decide) (by decide) (by decide),
    ((remove_user_role_deletes_every_matching_row (World.reliable twiceTables) 1 1 3 rfl).2.2.1
      (by decide) (by decide) (by decide) (by decide)).1,
    ((remove_user_role_deletes_every_matching_row (World.reliable twiceTables) (2 ^ 63) 1 3
      rfl).2.2.2).1 (Or.inl (le_refl _))⟩

/-! ## The commit of AddUserRole and RemoveUserRole -/

/-- C27. On an engine that opens the transaction, executes the statement and then
fails the commit with the error `e`, `roleRepository.AddUserRole` and
`roleRepository.RemoveUserRole` return nil although nothing was committed: the tables
are those before the call. (`RemoveUserRole` gets as far as the commit when its two
identifiers are below 2 ^ 63; otherwise the driver refuses them and that error is
returned after the rollback.) With the same engine `AssignPermissionToRole`, which
returns `tx.Commit().Error`, reports `e`. A failure of `Begin` is reported by both
methods. -/
theorem commit_failure_is_not_reported (t : Tables) (e : GoError) (userID roleID
    permissionID : Nat)
    (hur : gorm.userRoleRefs t userID roleID = true)
    (hrp : gorm.rolePermissionRefs t roleID permissionID = true) :
    roleRepository.AddUserRole (World.mk t [none, none, some e]) userID roleID
      = (none, World.mk t []) ∧
    roleRepository.RemoveUserRole (World.mk t [none, none, some e]) userID roleID
      = (if userID < 2 ^ 63 ∧ roleID < 2 ^ 63 then (none, World.mk t [])
          else (some sql.ErrOutOfRange, World.mk t [some e])) ∧
    permissionRepository.AssignPermissionToRole (World.mk t [none, none, some e]) roleID
        permissionID
      = (some e, World.mk t []) ∧
    roleRepository.AddUserRole (World.mk t [some e]) userID roleID
      = (some e, World.mk t []) ∧
    roleRepository.RemoveUserRole (World.mk t [some e]) userID roleID
      = (some e, World.mk t []) := by
  refine ⟨?_, ?_, ?_, ?_, ?_⟩
  · simp only [roleRepository.AddUserRole, gorm.Begin, World.roundTrip,
      gorm.Tx.CreateUserRole, id, hur, if_true, gorm.Commit]
  · by_cases hsmall : userID < 2 ^ 63 ∧ roleID < 2 ^ 63
    · have henc : sql.encodeArgs [userID, roleID] = none := by
        rw [sql.encodeArgs_eq_none]
        intro x hx
        simp only [List.mem_cons, List.mem_singleton, List.not_mem_nil, or_false] at hx
        rcases hx with hx | hx <;> rw [hx]
        · exact hsmall.1
        · exact hsmall.2
      rw [if_pos hsmall]
      simp only [roleRepository.RemoveUserRole, gorm.Begin, World.roundTrip,
        gorm.Tx.DeleteUserRoles, henc, id, gorm.Commit]
    · have henc : sql.encodeArgs [userID, roleID] = some sql.ErrOutOfRange := by
        apply sql.encodeArgs_of_large
        by_cases hu : userID < 2 ^ 63
        · exact ⟨roleID, by simp, by
            have : ¬ roleID < 2 ^ 63 := fun h => hsmall ⟨hu, h⟩
            omega⟩
        · exact ⟨userID, by simp, by omega⟩
      rw [if_neg hsmall]
      simp only [roleRepository.RemoveUserRole, gorm.Begin, World.roundTrip,
        gorm.Tx.DeleteUserRoles, henc, gorm.Rollback]
  · simp only [permissionRepository.AssignPermissionToRole, gorm.Begin, World.roundTrip,
      gorm.Tx.CreateRolePermission, id, hrp, if_true, gorm.Commit]
  · simp only [roleRepository.AddUserRole, gorm.Begin, World.roundTrip,
      gorm.Tx.CreateUserRole, gorm.Rollback]
  · simp only [roleRepository.RemoveUserRole, gorm.Begin, World.roundTrip,
      gorm.Tx.DeleteUserRoles, gorm.Rollback]

/-- C27 at a store with alice and the role "admin": the call returns nil and
`user_roles` is empty afterwards; and with the association stored, `RemoveUserRole`
returns nil and the row is still live. -/
theorem commit_failure_is_not_reported_witness :
    roleRepository.AddUserRole
        (World.mk rbacTables [none, none, some (GoError.Storage "commit failed")]) 1 1
      = (none, World.mk rbacTables []) ∧
    rbacTables.user_roles = [] ∧
    roleRepository.RemoveUserRole
        (World.mk twiceTables [none, none, some (GoError.Storage "commit failed")]) 1 1
      = (none, World.mk twiceTables []) ∧
    twiceTables.user_roles = [model.UserRole.mk 1 1 1 false, model.UserRole.mk 2 1 1 false] :=
  ⟨(commit_failure_is_not_reported rbacTables (GoError.Storage "commit failed") 1 1 3
      (by decide) (by decide)).1,
    rfl,
    by decide,
    rfl⟩

/-! ## Stored role names and UserHasRole -/

/-- C29. The role name "  a" has three bytes and passes `validateAndSanitizeRole`,
which trims it afterwards: `CreateRole` stores the role under the name "a". For that
stored name `UserHasRole` fails with BadRequest "role name must be at least 2
characters long". -/
theorem stored_role_name_is_refused_by_UserHasRole :
    RoleService.CreateRole (World.reliable aliceTables) (some (model.Role.mk 0 "  a" false))
      = ((some (model.Role.mk 1 "a" false), none),
          World.reliable (Tables.mk [storedAlice] [model.Role.mk 1 "a" false] [] [] [])) ∧
    RoleService.UserHasRole
        (World.reliable (Tables.mk [storedAlice] [model.Role.mk 1 "a" false] [] [] [])) 1 "a"
      = ((false, some (GoError.AppError 400 "role name must be at least 2 characters long")),
          World.reliable (Tables.mk [storedAlice] [model.Role.mk 1 "a" false] [] [] [])) := by
  refine ⟨by decide, by decide⟩

/-! ## GetPermissionsByRoleID -/

theorem World.executes_of_reliable (w : World) (hw : w.faults = []) (n : Nat) :
    w.executes n = true := by
  unfold World.executes
  rw [hw]
  simp

/-- The count of the join is zero for a user without a live association row. -/
theorem gorm.countUserRolesByName_of_no_rows (t : Tables) (userID : Nat) (roleName : String)
    (hnone : ∀ ur ∈ t.user_roles, ur.UserID = userID → ur.Deleted = true) :
    gorm.countUserRolesByName t userID roleName = 0 := by
  unfold gorm.countUserRolesByName
  have hnil : t.user_roles.filter (fun ur => ur.UserID == userID && !ur.Deleted) = [] := by
    rw [List.filter_eq_nil_iff]
    intro ur hur
    by_cases hu : ur.UserID = userID
    · simp [hu, hnone ur hur hu]
    · simp [hu]
  rw [hnil]
  rfl

/-- The service's `AddUserRole` on an engine that opens the transaction, executes the
insert and fails the commit: nil, and the tables as before. -/
theorem RoleService.AddUserRole_commit_fails (t : Tables) (e : GoError) (userID roleID : Nat)
    (hu : userID ≠ 0) (hr : roleID ≠ 0) (href : gorm.userRoleRefs t userID roleID = true) :
    RoleService.AddUserRole (World.mk t [none, none, some e]) userID roleID
      = (none, World.mk t []) := by
  unfold RoleService.AddUserRole
  rw [if_neg hu, if_neg hr]
  simp only [roleRepository.AddUserRole, gorm.Begin, World.roundTrip,
    gorm.Tx.CreateUserRole, id, href, if_true, gorm.Commit]

/-- The service's `RemoveUserRole` on an engine that opens the transaction, executes
the update and fails the commit: nil, and the tables as before. -/
theorem RoleService.RemoveUserRole_commit_fails (t : Tables) (e : GoError)
    (userID roleID : Nat) (hu : userID ≠ 0) (hr : roleID ≠ 0)
    (husmall : userID < 2 ^ 63) (hrsmall : roleID < 2 ^ 63) :
    RoleService.RemoveUserRole (World.mk t [none, none, some e]) userID roleID
      = (none, World.mk t []) := by
  have henc : sql.encodeArgs [userID, roleID] = none := by
    rw [sql.encodeArgs_eq_none]
    intro x hx
    simp only [List.mem_cons, List.mem_singleton, List.not_mem_nil, or_false] at hx
    rcases hx with hx | hx <;> rw [hx] <;> assumption
  unfold RoleService.RemoveUserRole
  rw [if_neg hu, if_neg hr]
  simp only [roleRepository.RemoveUserRole, gorm.Begin, World.roundTrip,
    gorm.Tx.DeleteUserRoles, henc, id, gorm.Commit]

/-- The service's `UserHasRole` for a non-zero user identifier that can be encoded
and a name of at least two bytes, on an engine that executes every round trip: the
answer of the count. -/
theorem RoleService.UserHasRole_on_reliable (t : Tables) (userID : Nat) (roleName : String)
    (hu : userID ≠ 0) (hsmall : userID < 2 ^ 63) (hname : 2 ≤ roleName.length) :
    RoleService.UserHasRole (World.mk t []) userID roleName
      = ((decide (gorm.countUserRolesByName t userID roleName > 0), none), World.mk t []) := by
  have hlen : ¬ len roleName < 2 :=
    not_lt.mpr (le_trans hname (String.length_le_len roleName))
  unfold RoleService.UserHasRole
  rw [if_neg hu, if_neg hlen]
  unfold roleRepository.UserHasRole
  rw [(sql.encodeArgs_eq_none [userID]).2 (by simpa using hsmall)]
  rfl

/-- C10. The claim fails when the commit fails. For every store with a user `userID`,
an existing role `roleID` whose name has at least two characters, and no association
row of the user, on an engine that opens the transaction, executes the insert and
then fails the commit: `RoleService.AddUserRole(userID, roleID)` returns no error, the
repository having dropped the error of `tx.Commit()`, and `RoleService.UserHasRole`
for the user and the name of the role, called immediately afterwards, returns false
with no error. -/
theorem user_lacks_role_after_unreported_commit_failure (t : Tables) (e : GoError)
    (userID roleID : Nat) (role : model.Role)
    (hu : 0 < userID) (hr : 0 < roleID) (hsmall : userID < 2 ^ 63)
    (huser : ∃ x ∈ t.users, x.ID = userID)
    (hrole : role ∈ t.roles) (hid : role.ID = roleID) (hname : 2 ≤ role.RoleName.length)
    (hnone : ∀ ur ∈ t.user_roles, ur.UserID = userID → ur.Deleted = true) :
    (RoleService.AddUserRole (World.mk t [none, none, some e]) userID roleID).1 = none ∧
    (RoleService.UserHasRole
      (RoleService.AddUserRole (World.mk t [none, none, some e]) userID roleID).2 userID
      role.RoleName).1 = (false, none) := by
  have hu0 : userID ≠ 0 := Nat.pos_iff_ne_zero.mp hu
  have hr0 : roleID ≠ 0 := Nat.pos_iff_ne_zero.mp hr
  have href := gorm.userRoleRefs_of_rows t userID roleID huser ⟨role, hrole, hid⟩
  rw [RoleService.AddUserRole_commit_fails t e userID roleID hu0 hr0 href]
  refine ⟨rfl, ?_⟩
  dsimp only
  rw [RoleService.UserHasRole_on_reliable t userID role.RoleName hu0 hsmall hname,
    gorm.countUserRolesByName_of_no_rows t userID role.RoleName hnone]
  rfl

/-- C10 at the scenario of the specification, with a commit that fails: alice (1) is
given the role "admin" (1), the call returns nil, and she does not have the role. -/
theorem user_lacks_role_after_unreported_commit_failure_witness :
    (RoleService.AddUserRole
      (World.mk rbacTables [none, none, some (GoError.Storage "commit failed")]) 1 1).1
      = none ∧
    (RoleService.UserHasRole
      (RoleService.AddUserRole
        (World.mk rbacTables [none, none, some (GoError.Storage "commit failed")]) 1 1).2 1
      "admin").1 = (false, none) :=
  user_lacks_role_after_unreported_commit_failure rbacTables
    (GoError.Storage "commit failed") 1 1 (model.Role.mk 1 "admin" false) (by decide)
    (by decide) (by decide) (by decide) (by decide) rfl (by decide) (by decide)

/-- C11. The claim fails when the commit fails. For every store in which a live
association row gives the existing role `roleID`, whose name has at least two
characters, to the user `userID`, on an engine that opens the transaction, executes
the update and then fails the commit: `RoleService.RemoveUserRole(userID, roleID)`
returns no error, the repository having dropped the error of `tx.Commit()`, and
`RoleService.UserHasRole` for the user and the name of the role, called immediately
afterwards, returns true with no error. -/
theorem user_keeps_role_after_unreported_commit_failure (t : Tables) (e : GoError)
    (userID roleID : Nat) (role : model.Role) (ur : model.UserRole)
    (hu : 0 < userID) (hr : 0 < roleID) (husmall : userID < 2 ^ 63)
    (hrsmall : roleID < 2 ^ 63)
    (hrole : role ∈ t.roles) (hid : role.ID = roleID) (hname : 2 ≤ role.RoleName.length)
    (hur : ur ∈ t.user_roles) (huu : ur.UserID = userID) (hurr : ur.RoleID = roleID)
    (hd : ur.Deleted = false) :
    (RoleService.RemoveUserRole (World.mk t [none, none, some e]) userID roleID).1 = none ∧
    (RoleService.UserHasRole
      (RoleService.RemoveUserRole (World.mk t [none, none, some e]) userID roleID).2 userID
      role.RoleName).1 = (true, none) := by
  have hu0 : userID ≠ 0 := Nat.pos_iff_ne_zero.mp hu
  have hr0 : roleID ≠ 0 := Nat.pos_iff_ne_zero.mp hr
  rw [RoleService.RemoveUserRole_commit_fails t e userID roleID hu0 hr0 husmall hrsmall]
  refine ⟨rfl, ?_⟩
  dsimp only
  rw [RoleService.UserHasRole_on_reliable t userID role.RoleName hu0 husmall hname]
  have hpos := gorm.countUserRolesByName_pos t userID role.RoleName ur role hur huu hd hrole
    (by rw [hid, hurr]) rfl
  simp [hpos]

/-- C11 at a store in which alice (1) has the role "admin" (1), with a commit that
fails: the role is removed, the call returns nil, and she still has the role. -/
theorem user_keeps_role_after_unreported_commit_failure_witness :
    (RoleService.RemoveUserRole
      (World.mk twiceTables [none, none, some (GoError.Storage "commit failed")]) 1 1).1
      = none ∧
    (RoleService.UserHasRole
      (RoleService.RemoveUserRole
        (World.mk twiceTables [none, none, some (GoError.Storage "commit failed")]) 1 1).2 1
      "admin").1 = (true, none) :=
  user_keeps_role_after_unreported_commit_failure twiceTables
    (GoError.Storage "commit failed") 1 1 (model.Role.mk 1 "admin" false)
    (model.UserRole.mk 1 1 1 false) (by decide) (by decide) (by decide) (by decide)
    (by decide) rfl (by decide) (by decide) rfl rfl rfl
